import Mathlib

/-!
# Poll & Vote client: a shallow embedding

The repository holds two React components with the same helper names:
`frontend/src/App.js` (the component the application mounts) and
`frontend/src/services/api.js` (an earlier copy of it).  Both are embedded
here, in the namespaces `App` and `ServicesApi`.

Conventions of the embedding:

* a handler is a function from the component state and the world (local
  storage, the trace of HTTP requests issued so far, the alerts shown) to the
  new state and world: the handler run to its end, with no other event between
  its awaits;
* the section on requests in flight embeds the same handlers cut at their
  awaits, so that other events run while a request is in flight and responses
  arrive in any order; a run with no event in between is one of its runs;
* the server is a parameter `net : Net`: it answers a request as a function of
  the requests that came before it, so every theorem holds for every server;
* an exception is a value of `Except String _`, the string being the
  `message` of the thrown `Error`.
-/

namespace PollApp

/-! ## JavaScript strings -/

namespace JS

/-- UTF-16 code units taken by one character. -/
def utf16Units (c : Char) : Nat := if c.val.toNat < 0x10000 then 1 else 2

/-- The JavaScript `s.length`: the number of UTF-16 code units of `s`. -/
def length (s : String) : Nat := (s.data.map utf16Units).sum

/-- The JavaScript `s.toLowerCase()`.  ASCII letters are mapped exactly; a
character outside ASCII is kept as it is.  The test `includes('admin')` is not
affected: the only ASCII letters that lower-casing produces from characters
outside ASCII are `k` (from the Kelvin sign) and an `i` followed by a combining
dot (from U+0130), and neither can be part of an occurrence of `admin`. -/
def toLowerCase (s : String) : String := String.mk (s.data.map Char.toLower)

/-- Substring search over character lists: `sub` occurs in `s` at some offset. -/
def includesAux (sub : List Char) : List Char → Bool
  | [] => sub.isPrefixOf []
  | c :: cs => sub.isPrefixOf (c :: cs) || includesAux sub cs

/-- The JavaScript `s.includes(sub)`. -/
def includes (s sub : String) : Bool := includesAux sub.data s.data

/-- White space and line terminators, the characters `trim` strips. -/
def isWhiteSpace (c : Char) : Bool :=
  let n := c.val.toNat
  n = 0x09 || n = 0x0A || n = 0x0B || n = 0x0C || n = 0x0D || n = 0x20 || n = 0xA0 ||
  n = 0x1680 || (0x2000 ≤ n && n ≤ 0x200A) || n = 0x2028 || n = 0x2029 || n = 0x202F ||
  n = 0x205F || n = 0x3000 || n = 0xFEFF

/-- The JavaScript `s.trim()`. -/
def trim (s : String) : String :=
  String.mk ((s.data.dropWhile isWhiteSpace).reverse.dropWhile isWhiteSpace).reverse

/-- Conversion of a possibly `undefined` string to a string, as done by
`localStorage.setItem` on its value argument. -/
def toStr : Option String → String
  | some s => s
  | none => "undefined"

/-- The text of a value read from local storage inside a template literal:
`null` prints as the word null. -/
def template : Option String → String
  | some s => s
  | none => "null"

/-- Value of a digit in radix 10 or 16, `none` when the character is not a digit
of that radix. -/
def digitValue (radix : Nat) (c : Char) : Option Nat :=
  let n := c.val.toNat
  if 48 ≤ n ∧ n ≤ 57 then some (n - 48)
  else if radix = 16 ∧ 97 ≤ n ∧ n ≤ 102 then some (n - 87)
  else if radix = 16 ∧ 65 ≤ n ∧ n ≤ 70 then some (n - 55)
  else none

/-- Reads the longest run of digits at the head of the list: the number read so
far and whether a digit was seen. -/
def readDigits (radix : Nat) : List Char → Nat → Bool → Nat × Bool
  | [], acc, seen => (acc, seen)
  | c :: cs, acc, seen =>
    match digitValue radix c with
    | some d => readDigits radix cs (acc * radix + d) true
    | none => (acc, seen)

/-- The digits of `parseInt` once the sign is removed: a `0x` or `0X` head
selects radix 16. -/
def parseDigits : List Char → Option Nat
  | '0' :: 'x' :: cs => let r := readDigits 16 cs 0 false; if r.2 then some r.1 else none
  | '0' :: 'X' :: cs => let r := readDigits 16 cs 0 false; if r.2 then some r.1 else none
  | cs => let r := readDigits 10 cs 0 false; if r.2 then some r.1 else none

/-- The JavaScript `parseInt(s)` with no radix argument; `none` is `NaN`.
Leading white space is skipped, one sign is read, then the longest run of
digits. -/
def parseInt (s : String) : Option Int :=
  match s.data.dropWhile isWhiteSpace with
  | '-' :: cs => (parseDigits cs).map (fun n => -(n : Int))
  | '+' :: cs => (parseDigits cs).map (fun n => (n : Int))
  | cs => (parseDigits cs).map (fun n => (n : Int))

/-- The time value of a `Date` after `d.setHours(d.getHours() + h)` when it held
`now`: `none` is an invalid date (`h` is `NaN`, or the result leaves the range
of time values).  The local time zone offset is taken as constant over the
interval. -/
def addHours (now : Int) (h : Option Int) : Option Int :=
  match h with
  | none => none
  | some n =>
    let t := now + n * 3600000
    if -8640000000000000 ≤ t ∧ t ≤ 8640000000000000 then some t else none

/-- The message of the `TypeError` thrown when the property `property` of `value`
(`null` or `undefined`) is read.  The wording is the engine's; this is the one
of V8. -/
def typeErrorMessage (value property : String) : String :=
  "Cannot read properties of " ++ value ++ " (reading \x27" ++ property ++ "\x27)"

end JS

/-! ## Data model -/

/-- Modelled from the spec: the user record of section 3 (identifier, display
name, email, role); JavaScript declares no type for it. -/
structure User where
  id : String
  name : String
  email : String
  role : String
  deriving DecidableEq, Repr

/-- Modelled from the spec: an option of a poll (identifier, text, vote count);
`votes` is `none` when the field is missing, the case `opt.votes || 0` covers. -/
structure PollOption where
  id : String
  text : String
  votes : Option Nat
  deriving DecidableEq, Repr

/-- Modelled from the spec: a poll as the server reports it to one viewer. -/
structure Poll where
  id : String
  question : String
  options : List PollOption
  status : String
  closesAt : String
  hasVoted : Bool
  userVote : Option String
  deriving DecidableEq, Repr

/-- The values `response.json()` resolves with.  The bodies the server sends, by
shape (section 6 of the spec): `{token, user}`, an array of polls, one poll, and
an error object `{error}`; and the body `null`, the one JSON value on which a
property read throws.  Any other JSON value (a number, a string, a boolean)
reads like an object without the property, as `polls` and `poll` do for `token`,
`user` and `error`. -/
inductive Data where
  | auth (token : String) (user : User)
  | polls (ps : List Poll)
  | poll (p : Poll)
  | errorObj (error : String)
  | null
  deriving DecidableEq, Repr

/-- The property read `data.token` on a value that is not `null`; `none` is
`undefined`.  A caller tests for `null` first, where the read throws. -/
def Data.token : Data → Option String
  | .auth t _ => some t
  | _ => none

/-- The property read `data.user` on a value that is not `null`; `none` is
`undefined`. -/
def Data.user : Data → Option User
  | .auth _ u => some u
  | _ => none

/-- The property read `errorData.error` on a value that is not `null`; `none` is
`undefined`. -/
def Data.error : Data → Option String
  | .errorObj e => some e
  | _ => none

/-- The platform functions `JSON.stringify` and `JSON.parse` on user records.
`parse` gives `none` where `JSON.parse` throws. -/
structure JSON where
  stringify : User → String
  parse : String → Option User

/-- The value `JSON.stringify(data.user)` stored by `setItem`: the text
`undefined` when the user is `undefined`. -/
def JSON.stringifyOpt (J : JSON) : Option User → String
  | some u => J.stringify u
  | none => "undefined"

/-! ## Local storage -/

/-- The browser's local storage: keys with their string values. -/
abbrev Storage := List (String × String)

namespace Storage

/-- The method `localStorage.getItem(k)`; `none` is `null`. -/
def getItem (st : Storage) (k : String) : Option String := st.lookup k

/-- The method `localStorage.removeItem(k)`. -/
def removeItem (st : Storage) (k : String) : Storage := st.filter (fun p => p.1 != k)

/-- The method `localStorage.setItem(k, v)`. -/
def setItem (st : Storage) (k v : String) : Storage := (k, v) :: removeItem st k

/-- The method `localStorage.clear()`. -/
def clear (_st : Storage) : Storage := []

end Storage

/-! ## HTTP -/

/-- A value of a field of a JSON request body. -/
inductive JVal where
  | str (s : String)
  | strs (xs : List String)
  | date (ms : Int)
  deriving DecidableEq, Repr

/-- A request handed to `fetch`.  `body` is the object given to
`JSON.stringify`, field by field in order; `none` when no body is sent. -/
structure Request where
  method : String
  url : String
  headers : List (String × String)
  body : Option (List (String × JVal))
  deriving DecidableEq, Repr

/-- A response: `response.ok`, the body read by `response.text()`, and the
result of `response.json()` (the parsed body, or the message of the error it
rejects with). -/
structure Response where
  ok : Bool
  text : String
  json : Except String Data

/-- The result of awaiting `fetch`: it rejects (network failure) with a message,
or resolves with a response. -/
inductive FetchResult where
  | rejected (message : String)
  | resolved (r : Response)

/-- The server and network: the answer to a request given the requests issued
before it. -/
abbrev Net := List Request → Request → FetchResult

/-- Everything outside the component state: the build-time value of
`REACT_APP_API_URL`, the clock (milliseconds since the epoch, what `new Date()`
reads), local storage, the HTTP requests issued so far (oldest first) and the
alerts shown so far. -/
structure World where
  env : Option String
  now : Int
  localStorage : Storage
  requests : List Request
  alerts : List String

/-- The constant `API_BASE_URL`: `process.env.REACT_APP_API_URL`, or the default
when that is unset or empty. -/
def API_BASE_URL (env : Option String) : String :=
  match env with
  | some u => if u = "" then "http://localhost:8080/api" else u
  | none => "http://localhost:8080/api"

/-- The call `fetch(url, init)`: the request is recorded, the server answers. -/
def fetch (net : Net) (req : Request) (w : World) : FetchResult × World :=
  (net w.requests req, { w with requests := w.requests ++ [req] })

/-- The call `alert(msg)`. -/
def alert (msg : String) (w : World) : World := { w with alerts := w.alerts ++ [msg] }

/-! ## The component of `frontend/src/App.js` -/

namespace App

/-- The `useState` cells of the component. -/
structure State where
  currentUser : Option User
  polls : Data
  view : String
  loading : Bool
  error : String
  editingPoll : Option Poll
  email : String
  password : String
  name : String
  detectedRole : String
  pollQuestion : String
  pollOptions : List String
  pollDuration : String
  deriving DecidableEq, Repr

/-- The initial values given to `useState`. -/
def State.init : State :=
  { currentUser := none, polls := .polls [], view := "login", loading := false, error := "",
    editingPoll := none, email := "", password := "", name := "", detectedRole := "USER",
    pollQuestion := "", pollOptions := ["", ""], pollDuration := "24" }

namespace api

/-- The header value built from the stored token. -/
def bearer (w : World) : String := "Bearer " ++ JS.template (w.localStorage.getItem "token")

/-- The request `api.login` hands to `fetch`. -/
def loginRequest (w : World) (email password : String) : Request :=
  { method := "POST", url := API_BASE_URL w.env ++ "/auth/login",
    headers := [("Content-Type", "application/json")],
    body := some [("email", .str email), ("password", .str password)] }

/-- The request `api.signup` hands to `fetch`. -/
def signupRequest (w : World) (email password name : String) : Request :=
  { method := "POST", url := API_BASE_URL w.env ++ "/auth/signup",
    headers := [("Content-Type", "application/json")],
    body := some [("name", .str name), ("email", .str email), ("password", .str password)] }

/-- The request `api.getPolls` hands to `fetch`; no method is given, so it is a
GET. -/
def getPollsRequest (w : World) : Request :=
  { method := "GET", url := API_BASE_URL w.env ++ "/polls",
    headers := [("Authorization", bearer w)], body := none }

/-- The request `api.createPoll` hands to `fetch`. -/
def createPollRequest (w : World) (pollData : List (String × JVal)) : Request :=
  { method := "POST", url := API_BASE_URL w.env ++ "/polls",
    headers := [("Content-Type", "application/json"), ("Authorization", bearer w)],
    body := some pollData }

/-- The request `api.updatePoll` hands to `fetch`. -/
def updatePollRequest (w : World) (pollId : String) (pollData : List (String × JVal)) : Request :=
  { method := "PUT", url := API_BASE_URL w.env ++ "/polls/" ++ pollId,
    headers := [("Content-Type", "application/json"), ("Authorization", bearer w)],
    body := some pollData }

/-- The request `api.closePoll` hands to `fetch`. -/
def closePollRequest (w : World) (pollId : String) : Request :=
  { method := "POST", url := API_BASE_URL w.env ++ "/polls/" ++ pollId ++ "/close",
    headers := [("Authorization", bearer w)], body := none }

/-- The request `api.vote` hands to `fetch`. -/
def voteRequest (w : World) (pollId optionId : String) : Request :=
  { method := "POST", url := API_BASE_URL w.env ++ "/polls/" ++ pollId ++ "/vote",
    headers := [("Content-Type", "application/json"), ("Authorization", bearer w)],
    body := some [("optionId", .str optionId)] }

/-- The request `api.deletePoll` hands to `fetch`. -/
def deletePollRequest (w : World) (pollId : String) : Request :=
  { method := "DELETE", url := API_BASE_URL w.env ++ "/polls/" ++ pollId,
    headers := [("Authorization", bearer w)], body := none }

/-- The function `api.login` (App.js lines 10-21).  Reading `data.token` throws a
`TypeError` when the parsed body is `null`. -/
def login (J : JSON) (net : Net) (email password : String) (w : World) :
    Except String Data × World :=
  match fetch net (loginRequest w email password) w with
  | (.rejected msg, w1) => (.error msg, w1)
  | (.resolved response, w1) =>
    if !response.ok then (.error "Login failed", w1)
    else
      match response.json with
      | .error msg => (.error msg, w1)
      | .ok data =>
        if data = .null then (.error (JS.typeErrorMessage "null" "token"), w1)
        else
          let ls1 := w1.localStorage.setItem "token" (JS.toStr data.token)
          let ls2 := ls1.setItem "user" (J.stringifyOpt data.user)
          (.ok data, { w1 with localStorage := ls2 })

/-- The function `api.signup` (App.js lines 23-37).  Reading `data.token` throws a
`TypeError` when the parsed body is `null`. -/
def signup (J : JSON) (net : Net) (email password name : String) (w : World) :
    Except String Data × World :=
  match fetch net (signupRequest w email password name) w with
  | (.rejected msg, w1) => (.error msg, w1)
  | (.resolved response, w1) =>
    if !response.ok then
      (.error (if response.text = "" then "Signup failed" else response.text), w1)
    else
      match response.json with
      | .error msg => (.error msg, w1)
      | .ok data =>
        if data = .null then (.error (JS.typeErrorMessage "null" "token"), w1)
        else
          let ls1 := w1.localStorage.setItem "token" (JS.toStr data.token)
          let ls2 := ls1.setItem "user" (J.stringifyOpt data.user)
          (.ok data, { w1 with localStorage := ls2 })

/-- The function `api.getPolls` (App.js lines 39-46). -/
def getPolls (net : Net) (w : World) : Except String Data × World :=
  match fetch net (getPollsRequest w) w with
  | (.rejected msg, w1) => (.error msg, w1)
  | (.resolved response, w1) =>
    if !response.ok then (.error "Failed to fetch polls", w1) else (response.json, w1)

/-- The function `api.createPoll` (App.js lines 48-60). -/
def createPoll (net : Net) (pollData : List (String × JVal)) (w : World) :
    Except String Data × World :=
  match fetch net (createPollRequest w pollData) w with
  | (.rejected msg, w1) => (.error msg, w1)
  | (.resolved response, w1) =>
    if !response.ok then (.error "Failed to create poll", w1) else (response.json, w1)

/-- The function `api.updatePoll` (App.js lines 62-74). -/
def updatePoll (net : Net) (pollId : String) (pollData : List (String × JVal)) (w : World) :
    Except String Data × World :=
  match fetch net (updatePollRequest w pollId pollData) w with
  | (.rejected msg, w1) => (.error msg, w1)
  | (.resolved response, w1) =>
    if !response.ok then (.error "Failed to update poll", w1) else (response.json, w1)

/-- The function `api.closePoll` (App.js lines 76-84). -/
def closePoll (net : Net) (pollId : String) (w : World) : Except String Data × World :=
  match fetch net (closePollRequest w pollId) w with
  | (.rejected msg, w1) => (.error msg, w1)
  | (.resolved response, w1) =>
    if !response.ok then (.error "Failed to close poll", w1) else (response.json, w1)

/-- The function `api.vote` (App.js lines 86-101). -/
def vote (net : Net) (pollId optionId : String) (w : World) : Except String Data × World :=
  match fetch net (voteRequest w pollId optionId) w with
  | (.rejected msg, w1) => (.error msg, w1)
  | (.resolved response, w1) =>
    if !response.ok then
      (.error (if response.text = "" then "Failed to vote" else response.text), w1)
    else (response.json, w1)

/-- The function `api.deletePoll` (App.js lines 103-110). -/
def deletePoll (net : Net) (pollId : String) (w : World) : Except String Unit × World :=
  match fetch net (deletePollRequest w pollId) w with
  | (.rejected msg, w1) => (.error msg, w1)
  | (.resolved response, w1) =>
    if !response.ok then (.error "Failed to delete poll", w1) else (.ok (), w1)

end api

/-- The role detection effect (App.js lines 132-139), run when `email` changes. -/
def detectRoleEffect (s : State) : State :=
  if JS.includes (JS.toLowerCase s.email) "admin" then { s with detectedRole := "ADMIN" }
  else { s with detectedRole := "USER" }

/-- The session restore effect run on mount (App.js lines 141-148).  `none`: the
effect throws, `JSON.parse` having rejected the stored text. -/
def restoreEffect (J : JSON) (s : State) (w : World) : Option State :=
  match w.localStorage.getItem "user", w.localStorage.getItem "token" with
  | some savedUser, some savedToken =>
    if savedUser ≠ "" ∧ savedToken ≠ "" then
      match J.parse savedUser with
      | some u => some { s with currentUser := some u, view := "polls" }
      | none => none
    else some s
  | _, _ => some s

/-- The function `loadPolls` (App.js lines 158-165). -/
def loadPolls (net : Net) (s : State) (w : World) : State × World :=
  match api.getPolls net w with
  | (.ok data, w1) => ({ s with polls := data }, w1)
  | (.error _, w1) => (s, w1)

/-- The handler `handleLogin` (App.js lines 167-185). -/
def handleLogin (J : JSON) (net : Net) (s : State) (w : World) : State × World :=
  if s.email = "" ∨ s.password = "" then
    ({ s with error := "Please fill in all fields" }, w)
  else
    let s1 := { s with loading := true, error := "" }
    match api.login J net s.email s.password w with
    | (.ok result, w1) =>
      ({ s1 with currentUser := result.user, view := "polls", email := "", password := "",
                 loading := false }, w1)
    | (.error _, w1) => ({ s1 with error := "Invalid email or password", loading := false }, w1)

/-- The handler `handleSignup` (App.js lines 187-210). -/
def handleSignup (J : JSON) (net : Net) (s : State) (w : World) : State × World :=
  if s.email = "" ∨ s.password = "" ∨ s.name = "" then
    ({ s with error := "Please fill in all fields" }, w)
  else if JS.length s.password < 6 then
    ({ s with error := "Password must be at least 6 characters" }, w)
  else
    let s1 := { s with loading := true, error := "" }
    match api.signup J net s.email s.password s.name w with
    | (.ok result, w1) =>
      ({ s1 with currentUser := result.user, view := "polls", email := "", password := "",
                 name := "", loading := false }, w1)
    | (.error message, w1) =>
      ({ s1 with error := if message = "" then "Email already exists" else message,
                 loading := false }, w1)

/-- The handler `handleVote` (App.js lines 213-234). -/
def handleVote (net : Net) (pollId optionId : String) (s : State) (w : World) : State × World :=
  let s1 := { s with loading := true, error := "" }
  match api.vote net pollId optionId w with
  | (.ok _, w1) =>
    let (s2, w2) := loadPolls net s1 w1
    ({ s2 with loading := false }, alert " Vote submitted successfully!" w2)
  | (.error message, w1) =>
    let errorMessage := if message = "" then "Failed to vote" else message
    ({ s1 with error := errorMessage, loading := false }, alert (" " ++ errorMessage) w1)

/-- The handler `handleCreatePoll` (App.js lines 236-270).  The call
`closesAt.toISOString()` is evaluated inside the `try`: on an invalid date it
throws and the `catch` branch runs, no request having been issued. -/
def handleCreatePoll (net : Net) (s : State) (w : World) : State × World :=
  let trimmedOptions := s.pollOptions.filter (fun o => JS.trim o != "")
  if JS.trim s.pollQuestion = "" then
    ({ s with error := "Please enter a question" }, w)
  else if trimmedOptions.length < 2 then
    ({ s with error := "Please provide at least 2 options" }, w)
  else
    let closesAt := JS.addHours w.now (JS.parseInt s.pollDuration)
    let s1 := { s with loading := true, error := "" }
    match closesAt with
    | none =>
      ({ s1 with error := "Failed to create poll", loading := false },
        alert "Failed to create poll" w)
    | some t =>
      match api.createPoll net
          [("question", .str s.pollQuestion), ("options", .strs trimmedOptions),
           ("closesAt", .date t)] w with
      | (.ok _, w1) =>
        let (s2, w2) := loadPolls net s1 w1
        ({ s2 with pollQuestion := "", pollOptions := ["", ""], pollDuration := "24",
                   view := "polls", loading := false },
          alert " Poll created successfully!" w2)
      | (.error _, w1) =>
        ({ s1 with error := "Failed to create poll", loading := false },
          alert "Failed to create poll" w1)

/-- The handler `handleEditPoll` (App.js lines 272-277). -/
def handleEditPoll (poll : Poll) (s : State) : State :=
  { s with editingPoll := some poll, pollQuestion := poll.question,
           pollOptions := poll.options.map (fun o => o.text), view := "edit" }

/-- The handler `handleUpdatePoll` (App.js lines 279-305).  Reading
`editingPoll.id` when `editingPoll` is `null` throws inside the `try`. -/
def handleUpdatePoll (net : Net) (s : State) (w : World) : State × World :=
  let trimmedOptions := s.pollOptions.filter (fun o => JS.trim o != "")
  if JS.trim s.pollQuestion = "" ∨ trimmedOptions.length < 2 then
    ({ s with error := "Please provide valid question and at least 2 options" }, w)
  else
    let s1 := { s with loading := true, error := "" }
    match s.editingPoll with
    | none =>
      ({ s1 with error := "Failed to update poll", loading := false },
        alert "Failed to update poll" w)
    | some editingPoll =>
      match api.updatePoll net editingPoll.id
          [("question", .str s.pollQuestion), ("options", .strs trimmedOptions)] w with
      | (.ok _, w1) =>
        let (s2, w2) := loadPolls net s1 w1
        ({ s2 with pollQuestion := "", pollOptions := ["", ""], editingPoll := none,
                   view := "polls", loading := false },
          alert " Poll updated successfully!" w2)
      | (.error _, w1) =>
        ({ s1 with error := "Failed to update poll", loading := false },
          alert "Failed to update poll" w1)

/-- The handler `handleClosePoll` (App.js lines 307-319); `confirmed` is the
answer to `window.confirm`. -/
def handleClosePoll (net : Net) (confirmed : Bool) (pollId : String) (s : State) (w : World) :
    State × World :=
  if !confirmed then (s, w)
  else
    let s1 := { s with loading := true }
    match api.closePoll net pollId w with
    | (.ok _, w1) =>
      let (s2, w2) := loadPolls net s1 w1
      ({ s2 with loading := false }, alert " Poll closed successfully!" w2)
    | (.error _, w1) => ({ s1 with loading := false }, alert " Failed to close poll" w1)

/-- The handler `handleDeletePoll` (App.js lines 321-333); `confirmed` is the
answer to `window.confirm`. -/
def handleDeletePoll (net : Net) (confirmed : Bool) (pollId : String) (s : State) (w : World) :
    State × World :=
  if !confirmed then (s, w)
  else
    let s1 := { s with loading := true }
    match api.deletePoll net pollId w with
    | (.ok _, w1) =>
      let (s2, w2) := loadPolls net s1 w1
      ({ s2 with loading := false }, alert " Poll deleted successfully!" w2)
    | (.error _, w1) => ({ s1 with loading := false }, alert " Failed to delete poll" w1)

/-- The `onClick` of the Logout button (App.js lines 520-526). -/
def logout (s : State) (w : World) : State × World :=
  ({ s with currentUser := none, view := "login" },
    { w with localStorage := w.localStorage.clear })

end App

/-! ## The component of `frontend/src/services/api.js`

The file is an earlier copy of the component.  Its `api` object has no
`updatePoll` and no `closePoll`, and no comma separates `vote` from
`deletePoll`; the functions are embedded as they are written. -/

namespace ServicesApi

/-- The `useState` cells of the component (services/api.js lines 156-170). -/
structure State where
  currentUser : Option User
  polls : Data
  view : String
  loading : Bool
  error : String
  email : String
  password : String
  name : String
  newPollQuestion : String
  newPollOptions : List String
  pollDuration : String
  deriving DecidableEq, Repr

/-- The initial values given to `useState`. -/
def State.init : State :=
  { currentUser := none, polls := .polls [], view := "login", loading := false, error := "",
    email := "", password := "", name := "", newPollQuestion := "", newPollOptions := ["", ""],
    pollDuration := "24" }

namespace api

/-- The header value built from the stored token. -/
def bearer (w : World) : String := "Bearer " ++ JS.template (w.localStorage.getItem "token")

/-- The request `api.login` hands to `fetch`. -/
def loginRequest (w : World) (email password : String) : Request :=
  { method := "POST", url := API_BASE_URL w.env ++ "/auth/login",
    headers := [("Content-Type", "application/json")],
    body := some [("email", .str email), ("password", .str password)] }

/-- The request `api.signup` hands to `fetch`. -/
def signupRequest (w : World) (email password name : String) : Request :=
  { method := "POST", url := API_BASE_URL w.env ++ "/auth/signup",
    headers := [("Content-Type", "application/json")],
    body := some [("name", .str name), ("email", .str email), ("password", .str password)] }

/-- The request `api.getPolls` hands to `fetch`; no method is given, so it is a
GET. -/
def getPollsRequest (w : World) : Request :=
  { method := "GET", url := API_BASE_URL w.env ++ "/polls",
    headers := [("Authorization", bearer w)], body := none }

/-- The request `api.createPoll` hands to `fetch`. -/
def createPollRequest (w : World) (pollData : List (String × JVal)) : Request :=
  { method := "POST", url := API_BASE_URL w.env ++ "/polls",
    headers := [("Content-Type", "application/json"), ("Authorization", bearer w)],
    body := some pollData }

/-- The request `api.vote` hands to `fetch`. -/
def voteRequest (w : World) (pollId optionId : String) : Request :=
  { method := "POST", url := API_BASE_URL w.env ++ "/polls/" ++ pollId ++ "/vote",
    headers := [("Content-Type", "application/json"), ("Authorization", bearer w)],
    body := some [("optionId", .str optionId)] }

/-- The request `api.deletePoll` hands to `fetch`. -/
def deletePollRequest (w : World) (pollId : String) : Request :=
  { method := "DELETE", url := API_BASE_URL w.env ++ "/polls/" ++ pollId,
    headers := [("Authorization", bearer w)], body := none }

/-- The function `api.login` (services/api.js lines 10-34); its `catch` logs and
rethrows.  Reading `data.token` throws a `TypeError` when the parsed body is
`null`. -/
def login (J : JSON) (net : Net) (email password : String) (w : World) :
    Except String Data × World :=
  match fetch net (loginRequest w email password) w with
  | (.rejected msg, w1) => (.error msg, w1)
  | (.resolved response, w1) =>
    if !response.ok then
      (.error (if response.text = "" then "Login failed" else response.text), w1)
    else
      match response.json with
      | .error msg => (.error msg, w1)
      | .ok data =>
        if data = .null then (.error (JS.typeErrorMessage "null" "token"), w1)
        else
          let ls1 := w1.localStorage.setItem "token" (JS.toStr data.token)
          let ls2 := ls1.setItem "user" (J.stringifyOpt data.user)
          (.ok data, { w1 with localStorage := ls2 })

/-- The function `api.signup` (services/api.js lines 36-68).  When the lower-cased
email includes `admin`, `data.user.role` is read (a `TypeError` when `data` is
`null` or `data.user` is `undefined`) and set to `ADMIN` when it differs;
otherwise `data.token` is the first property read, a `TypeError` when `data` is
`null`. -/
def signup (J : JSON) (net : Net) (email password name : String) (w : World) :
    Except String Data × World :=
  match fetch net (signupRequest w email password name) w with
  | (.rejected msg, w1) => (.error msg, w1)
  | (.resolved response, w1) =>
    if !response.ok then
      (.error (if response.text = "" then "Signup failed" else response.text), w1)
    else
      match response.json with
      | .error msg => (.error msg, w1)
      | .ok data =>
        let store := fun (d : Data) =>
          let ls1 := w1.localStorage.setItem "token" (JS.toStr d.token)
          let ls2 := ls1.setItem "user" (J.stringifyOpt d.user)
          ((.ok d : Except String Data), { w1 with localStorage := ls2 })
        if JS.includes (JS.toLowerCase email) "admin" then
          match data with
          | .auth token user =>
            if user.role ≠ "ADMIN" then store (.auth token { user with role := "ADMIN" })
            else store data
          | .null => (.error (JS.typeErrorMessage "null" "user"), w1)
          | _ => (.error (JS.typeErrorMessage "undefined" "role"), w1)
        else if data = .null then (.error (JS.typeErrorMessage "null" "token"), w1)
        else store data

/-- The function `api.getPolls` (services/api.js lines 70-86). -/
def getPolls (net : Net) (w : World) : Except String Data × World :=
  match fetch net (getPollsRequest w) w with
  | (.rejected msg, w1) => (.error msg, w1)
  | (.resolved response, w1) =>
    if !response.ok then (.error "Failed to fetch polls", w1) else (response.json, w1)

/-- The function `api.createPoll` (services/api.js lines 88-109). -/
def createPoll (net : Net) (pollData : List (String × JVal)) (w : World) :
    Except String Data × World :=
  match fetch net (createPollRequest w pollData) w with
  | (.rejected msg, w1) => (.error msg, w1)
  | (.resolved response, w1) =>
    if !response.ok then (.error "Failed to create poll. Admin access required.", w1)
    else (response.json, w1)

/-- The function `api.vote` (services/api.js lines 110-134): the body of a failed
response is parsed as JSON, an unparseable body counting as the empty object,
and its `error` field is the message; reading `errorData.error` throws a
`TypeError` when the parsed body is `null`. -/
def vote (net : Net) (pollId optionId : String) (w : World) : Except String Data × World :=
  match fetch net (voteRequest w pollId optionId) w with
  | (.rejected msg, w1) => (.error msg, w1)
  | (.resolved response, w1) =>
    if !response.ok then
      let errorData : Option Data :=
        match response.json with
        | .ok d => some d
        | .error _ => none
      if errorData = some .null then (.error (JS.typeErrorMessage "null" "error"), w1)
      else
        match errorData.bind Data.error with
        | some e => (.error (if e = "" then "Failed to vote" else e), w1)
        | none => (.error "Failed to vote", w1)
    else (response.json, w1)

/-- The function `api.deletePoll` (services/api.js lines 137-152). -/
def deletePoll (net : Net) (pollId : String) (w : World) : Except String Unit × World :=
  match fetch net (deletePollRequest w pollId) w with
  | (.rejected msg, w1) => (.error msg, w1)
  | (.resolved response, w1) =>
    if !response.ok then (.error "Failed to delete poll", w1) else (.ok (), w1)

end api

/-- The session restore effect run on mount (services/api.js lines 173-182).
`none`: the effect throws, `JSON.parse` having rejected the stored text. -/
def restoreEffect (J : JSON) (s : State) (w : World) : Option State :=
  match w.localStorage.getItem "user", w.localStorage.getItem "token" with
  | some savedUser, some savedToken =>
    if savedUser ≠ "" ∧ savedToken ≠ "" then
      match J.parse savedUser with
      | some user => some { s with currentUser := some user, view := "polls" }
      | none => none
    else some s
  | _, _ => some s

/-- The function `loadPolls` (services/api.js lines 191-203). -/
def loadPolls (net : Net) (s : State) (w : World) : State × World :=
  let s1 := { s with loading := true }
  match api.getPolls net w with
  | (.ok data, w1) => ({ s1 with polls := data, error := "", loading := false }, w1)
  | (.error _, w1) =>
    ({ s1 with error := "Failed to load polls. Please refresh the page.", loading := false }, w1)

/-- The handler `handleLogin` (services/api.js lines 205-224). -/
def handleLogin (J : JSON) (net : Net) (s : State) (w : World) : State × World :=
  if s.email = "" ∨ s.password = "" then
    ({ s with error := "Please fill in all fields" }, w)
  else
    let s1 := { s with loading := true, error := "" }
    match api.login J net s.email s.password w with
    | (.ok result, w1) =>
      ({ s1 with currentUser := result.user, view := "polls", email := "", password := "",
                 loading := false }, w1)
    | (.error _, w1) =>
      ({ s1 with error := "Login failed. Please check your credentials.", loading := false }, w1)

/-- The handler `handleSignup` (services/api.js lines 226-251). -/
def handleSignup (J : JSON) (net : Net) (s : State) (w : World) : State × World :=
  if s.email = "" ∨ s.password = "" ∨ s.name = "" then
    ({ s with error := "Please fill in all fields" }, w)
  else if JS.length s.password < 6 then
    ({ s with error := "Password must be at least 6 characters" }, w)
  else
    let s1 := { s with loading := true, error := "" }
    match api.signup J net s.email s.password s.name w with
    | (.ok result, w1) =>
      ({ s1 with currentUser := result.user, view := "polls", email := "", password := "",
                 name := "", loading := false }, w1)
    | (.error _, w1) =>
      ({ s1 with error := "Signup failed. Email may already exist.", loading := false }, w1)

/-- The handler `handleVote` (services/api.js lines 253-266). -/
def handleVote (net : Net) (pollId optionId : String) (s : State) (w : World) : State × World :=
  let s1 := { s with loading := true }
  match api.vote net pollId optionId w with
  | (.ok _, w1) =>
    let (s2, w2) := loadPolls net s1 w1
    ({ s2 with error := "", loading := false }, alert "Vote submitted successfully!" w2)
  | (.error _, w1) =>
    ({ s1 with error := "Failed to submit vote. You may have already voted.", loading := false },
      alert "Failed to submit vote. You may have already voted." w1)

/-- The handler `handleCreatePoll` (services/api.js lines 268-306).  The object
`pollData` is built before the `try`: when `closesAt` is an invalid date,
`toISOString` throws out of the handler, which leaves state and world as they
were. -/
def handleCreatePoll (net : Net) (s : State) (w : World) : State × World :=
  let trimmedOptions := s.newPollOptions.filter (fun o => JS.trim o != "")
  if JS.trim s.newPollQuestion = "" then
    ({ s with error := "Please provide a question" }, w)
  else if trimmedOptions.length < 2 then
    ({ s with error := "Please provide at least 2 options" }, w)
  else
    match JS.addHours w.now (JS.parseInt s.pollDuration) with
    | none => (s, w)
    | some t =>
      let pollData : List (String × JVal) :=
        [("question", .str s.newPollQuestion), ("options", .strs trimmedOptions),
         ("closesAt", .date t)]
      let s1 := { s with loading := true, error := "" }
      match api.createPoll net pollData w with
      | (.ok _, w1) =>
        let (s2, w2) := loadPolls net s1 w1
        ({ s2 with newPollQuestion := "", newPollOptions := ["", ""], pollDuration := "24",
                   view := "polls", loading := false },
          alert "Poll created successfully!" w2)
      | (.error _, w1) =>
        ({ s1 with error := "Failed to create poll. Admin access required.", loading := false },
          alert "Failed to create poll. Admin access required." w1)

/-- The handler `handleDeletePoll` (services/api.js lines 308-325); `confirmed` is
the answer to `window.confirm`. -/
def handleDeletePoll (net : Net) (confirmed : Bool) (pollId : String) (s : State) (w : World) :
    State × World :=
  if !confirmed then (s, w)
  else
    let s1 := { s with loading := true, error := "" }
    match api.deletePoll net pollId w with
    | (.ok _, w1) =>
      let (s2, w2) := loadPolls net s1 w1
      ({ s2 with loading := false }, alert "Poll deleted successfully!" w2)
    | (.error _, w1) =>
      ({ s1 with error := "Failed to delete poll.", loading := false },
        alert "Failed to delete poll." w1)

/-- The handler `handleLogout` (services/api.js lines 327-334). -/
def handleLogout (s : State) (w : World) : State × World :=
  ({ s with currentUser := none, view := "login", polls := .polls [], error := "" },
    { w with localStorage := (w.localStorage.removeItem "token").removeItem "user" })

end ServicesApi

/-- The JSON body of the server's answer to `req`, issued after the requests
`hist`, when the call succeeds: `fetch` resolves, the response is `ok` and its
body parses.  `none` in every other case. -/
def Net.answer (net : Net) (hist : List Request) (req : Request) : Option Data :=
  match net hist req with
  | .resolved response =>
    if response.ok then
      match response.json with
      | .ok data => some data
      | .error _ => none
    else none
  | .rejected _ => none

/-- Whether the server answers `req`, issued after the requests `hist`, with a
successful response, its body left unread. -/
def Net.accepts (net : Net) (hist : List Request) (req : Request) : Bool :=
  match net hist req with
  | .resolved response => response.ok
  | .rejected _ => false

/-- The outcome `r` of a handler run from state `s` and world `w` shows a reload
after the mutating request `req`: the handler issued `req` and then the
`getPolls` request, nothing else, and `polls` holds the body of the answer to
that `getPolls` when it succeeded, its former value otherwise. -/
def App.ReloadedAfter (net : Net) (s : App.State) (w : World) (req : Request)
    (r : App.State × World) : Prop :=
  r.2.requests = w.requests ++ [req, App.api.getPollsRequest w] ∧
  r.1.polls = ((net.answer (w.requests ++ [req]) (App.api.getPollsRequest w)).getD s.polls)

/-! ## Form editing, rendering and the events of the App.js component -/

/-- The function `addOption` (App.js line 335). -/
def App.addOption (s : App.State) : App.State := { s with pollOptions := s.pollOptions ++ [""] }

/-- The function `updateOption` (App.js lines 336-340), for an index of the
rendered list, the only indices the inputs pass. -/
def App.updateOption (index : Nat) (value : String) (s : App.State) : App.State :=
  { s with pollOptions := s.pollOptions.set index value }

/-- The function `removeOption` (App.js lines 341-345). -/
def App.removeOption (index : Nat) (s : App.State) : App.State :=
  if s.pollOptions.length > 2 then
    { s with pollOptions := (s.pollOptions.enum.filter (fun p => p.1 != index)).map (fun p => p.2) }
  else s

/-- What the card of one poll shows under its header: the vote buttons, each
with the arguments its `onClick` passes to `handleVote`, or the results. -/
inductive PollCard where
  | voteButtons (actions : List (String × String))
  | results
  deriving DecidableEq, Repr

/-- The vote / results branch of a poll card in App.js (lines 645-659). -/
def App.pollCard (currentUser : User) (poll : Poll) : PollCard :=
  if poll.status = "OPEN" ∧ poll.hasVoted = false ∧ currentUser.role ≠ "ADMIN" then
    .voteButtons (poll.options.map (fun option => (poll.id, option.id)))
  else .results

/-- The vote / results branch of a poll card in services/api.js (lines
642-656). -/
def ServicesApi.pollCard (_currentUser : User) (poll : Poll) : PollCard :=
  if poll.status = "OPEN" ∧ poll.hasVoted = false then
    .voteButtons (poll.options.map (fun option => (poll.id, option.id)))
  else .results

/-- The keys of the `api` object of App.js, in order. -/
def App.api.operations : List String :=
  ["login", "signup", "getPolls", "createPoll", "updatePoll", "closePoll", "vote", "deletePoll"]

/-- The keys of the `api` object of services/api.js, in order. -/
def ServicesApi.api.operations : List String :=
  ["login", "signup", "getPolls", "createPoll", "vote", "deletePoll"]

/-- Whether a call ended by throwing. -/
def throws {α : Type} : Except String α → Bool
  | .error _ => true
  | .ok _ => false

/-- The message of the error a call threw, `none` when it returned. -/
def thrownMessage {α : Type} : Except String α → Option String
  | .error m => some m
  | .ok _ => none

/-- The `closesAt` field of the body of a request, when it has one. -/
def Request.closesAt (r : Request) : Option Int :=
  match r.body with
  | some fields =>
    match fields.lookup "closesAt" with
    | some (.date t) => some t
    | _ => none
  | none => none

/-- The things that happen to the App.js component: the effects, the edits of the
form fields, and the actions bound to its buttons. -/
inductive App.Event where
  | clock (now : Int)
  | detectRole
  | restore
  | refresh
  | setEmail (value : String)
  | setPassword (value : String)
  | setName (value : String)
  | showLogin
  | showSignup
  | login
  | signup
  | logout
  | navPolls
  | navCreate
  | createFirst
  | vote (pollId optionId : String)
  | editPoll (poll : Poll)
  | closePoll (confirmed : Bool) (pollId : String)
  | deletePoll (confirmed : Bool) (pollId : String)
  | setPollQuestion (value : String)
  | setPollDuration (value : String)
  | addOption
  | updateOption (index : Nat) (value : String)
  | removeOption (index : Nat)
  | createPoll
  | updatePoll
  | cancel

/-- The state and world after an event; `none` when the restore effect throws.
`clock` is the passing of time; `refresh` is one run of `loadPolls`, by the
refresh effect or by its interval. -/
def App.step (J : JSON) (net : Net) (e : App.Event) (c : App.State × World) :
    Option (App.State × World) :=
  match e with
  | .clock now => some (c.1, { c.2 with now := now })
  | .detectRole => some (App.detectRoleEffect c.1, c.2)
  | .restore => (App.restoreEffect J c.1 c.2).map (fun s => (s, c.2))
  | .refresh => some (App.loadPolls net c.1 c.2)
  | .setEmail v => some ({ c.1 with email := v }, c.2)
  | .setPassword v => some ({ c.1 with password := v }, c.2)
  | .setName v => some ({ c.1 with name := v }, c.2)
  | .showLogin => some ({ c.1 with view := "login", error := "" }, c.2)
  | .showSignup => some ({ c.1 with view := "signup", error := "" }, c.2)
  | .login => some (App.handleLogin J net c.1 c.2)
  | .signup => some (App.handleSignup J net c.1 c.2)
  | .logout => some (App.logout c.1 c.2)
  | .navPolls => some ({ c.1 with view := "polls" }, c.2)
  | .navCreate =>
    some ({ c.1 with view := "create", pollQuestion := "", pollOptions := ["", ""],
                     pollDuration := "24", editingPoll := none }, c.2)
  | .createFirst => some ({ c.1 with view := "create" }, c.2)
  | .vote pollId optionId => some (App.handleVote net pollId optionId c.1 c.2)
  | .editPoll poll => some (App.handleEditPoll poll c.1, c.2)
  | .closePoll confirmed pollId => some (App.handleClosePoll net confirmed pollId c.1 c.2)
  | .deletePoll confirmed pollId => some (App.handleDeletePoll net confirmed pollId c.1 c.2)
  | .setPollQuestion v => some ({ c.1 with pollQuestion := v }, c.2)
  | .setPollDuration v => some ({ c.1 with pollDuration := v }, c.2)
  | .addOption => some (App.addOption c.1, c.2)
  | .updateOption index v => some (App.updateOption index v c.1, c.2)
  | .removeOption index => some (App.removeOption index c.1, c.2)
  | .createPoll => some (App.handleCreatePoll net c.1 c.2)
  | .updatePoll => some (App.handleUpdatePoll net c.1 c.2)
  | .cancel =>
    some ({ c.1 with view := "polls", pollQuestion := "", pollOptions := ["", ""],
                     editingPoll := none }, c.2)

/-- The states the App.js component can be in: it starts from the initial state
with no request issued, and any event may follow, in any order. -/
inductive App.Reachable (J : JSON) (net : Net) : App.State × World → Prop where
  | init (w : World) (h : w.requests = []) : App.Reachable J net (App.State.init, w)
  | step (e : App.Event) (c c' : App.State × World) (hc : App.Reachable J net c)
      (hs : App.step J net e c = some c') : App.Reachable J net c'

/-- The body of the most recent successful `getPolls` of a trace given newest
request first; `getPolls` is the one operation that issues a GET. -/
def App.latestPollsRev (net : Net) : List Request → Option Data
  | [] => none
  | r :: older =>
    if r.method = "GET" then
      match net.answer older.reverse r with
      | some data => some data
      | none => App.latestPollsRev net older
    else App.latestPollsRev net older

/-- The body of the most recent successful `getPolls` of a trace of requests,
`none` when it has none. -/
def App.latestPolls (net : Net) (trace : List Request) : Option Data :=
  App.latestPollsRev net trace.reverse

/-- The invariant of the `polls` cell: it holds the body of the most recent
successful `getPolls` of the trace, or the initial empty list when there was
none. -/
def App.PollsInv (net : Net) (c : App.State × World) : Prop :=
  c.1.polls = (App.latestPolls net c.2.requests).getD (.polls [])

/-- Going from world `w` to world `w'`, exactly one request was issued, with the
given method, the given path under the base URL and the given body. -/
def IssuesOne (w w' : World) (method path : String) (body : Option (List (String × JVal))) :
    Prop :=
  ∃ r : Request, w'.requests = w.requests ++ [r] ∧ r.method = method ∧
    r.url = API_BASE_URL w.env ++ path ∧ r.body = body

/-- Going from world `w` to world `w'`, exactly one request was issued, and its
`Authorization` header is `auth` (`none`: it has no such header). -/
def SendsAuth (w w' : World) (auth : Option String) : Prop :=
  ∃ r : Request, w'.requests = w.requests ++ [r] ∧ r.headers.lookup "Authorization" = auth

/-! ## Form editing of the services/api.js component -/

/-- The function `addOption` (services/api.js lines 336-338). -/
def ServicesApi.addOption (s : ServicesApi.State) : ServicesApi.State :=
  { s with newPollOptions := s.newPollOptions ++ [""] }

/-- The function `updateOption` (services/api.js lines 340-344), for an index of
the rendered list, the only indices the inputs pass. -/
def ServicesApi.updateOption (index : Nat) (value : String) (s : ServicesApi.State) :
    ServicesApi.State :=
  { s with newPollOptions := s.newPollOptions.set index value }

/-- The function `removeOption` (services/api.js lines 346-350). -/
def ServicesApi.removeOption (index : Nat) (s : ServicesApi.State) : ServicesApi.State :=
  if s.newPollOptions.length > 2 then
    { s with newPollOptions :=
        (s.newPollOptions.enum.filter (fun p => p.1 != index)).map (fun p => p.2) }
  else s

/-- The `onClick` of the Cancel button of the create form (services/api.js lines
789-795). -/
def ServicesApi.cancel (s : ServicesApi.State) : ServicesApi.State :=
  { s with view := "polls", newPollQuestion := "", newPollOptions := ["", ""],
           pollDuration := "24", error := "" }

/-- Whether an event is one the claims on the option list allow: `handleEditPoll`
on a poll with at least two options, `updateOption` at an index inside the list,
and every other event. -/
def App.formGuard (e : App.Event) (s : App.State) : Bool :=
  match e with
  | .editPoll poll => decide (2 ≤ poll.options.length)
  | .updateOption index _ => decide (index < s.pollOptions.length)
  | _ => true

/-- The states of the App.js component reached from the initial state by events
that pass `formGuard`. -/
inductive App.FormReachable (J : JSON) (net : Net) : App.State × World → Prop where
  | init (w : World) : App.FormReachable J net (App.State.init, w)
  | step (e : App.Event) (c c' : App.State × World) (hc : App.FormReachable J net c)
      (hg : App.formGuard e c.1 = true) (hs : App.step J net e c = some c') :
      App.FormReachable J net c'

/-- The states of the create form of services/api.js reached from an option list
of two empty entries by option editing, cancel and submission. -/
inductive ServicesApi.FormReachable (net : Net) : ServicesApi.State → Prop where
  | start (s : ServicesApi.State) (h : s.newPollOptions = ["", ""]) :
      ServicesApi.FormReachable net s
  | addOption (s : ServicesApi.State) (hs : ServicesApi.FormReachable net s) :
      ServicesApi.FormReachable net (ServicesApi.addOption s)
  | updateOption (s : ServicesApi.State) (index : Nat) (value : String)
      (hs : ServicesApi.FormReachable net s) (hi : index < s.newPollOptions.length) :
      ServicesApi.FormReachable net (ServicesApi.updateOption index value s)
  | removeOption (s : ServicesApi.State) (index : Nat) (hs : ServicesApi.FormReachable net s) :
      ServicesApi.FormReachable net (ServicesApi.removeOption index s)
  | cancel (s : ServicesApi.State) (hs : ServicesApi.FormReachable net s) :
      ServicesApi.FormReachable net (ServicesApi.cancel s)
  | createPoll (s : ServicesApi.State) (w : World) (hs : ServicesApi.FormReachable net s) :
      ServicesApi.FormReachable net (ServicesApi.handleCreatePoll net s w).1

/-! ## Chart data and result figures -/

/-- The UTF-16 code units of one character: itself, or a surrogate pair. -/
def JS.charUnits (c : Char) : List Nat :=
  let n := c.val.toNat
  if n < 0x10000 then [n]
  else [0xD800 + (n - 0x10000) / 0x400, 0xDC00 + (n - 0x10000) % 0x400]

/-- The UTF-16 code units of a string, the sequence that `length` counts and that
`substring` cuts. -/
def JS.units (s : String) : List Nat := (s.data.map JS.charUnits).flatten

/-- An entry of the data handed to the bar chart.  `name` is given by its UTF-16
code units, since `substring` may cut a surrogate pair; `votes` is `none` when it
is `undefined`. -/
structure ChartEntry where
  name : List Nat
  votes : Option Nat
  deriving DecidableEq, Repr

/-- The function `getChartData` (App.js lines 347-352). -/
def App.getChartData (options : List PollOption) : List ChartEntry :=
  options.map (fun opt =>
    { name := if JS.length opt.text > 20 then (JS.units opt.text).take 20 ++ JS.units "..."
              else JS.units opt.text,
      votes := some (opt.votes.getD 0) })

/-- The function `getChartData` (services/api.js lines 352-357). -/
def ServicesApi.getChartData (options : List PollOption) : List ChartEntry :=
  options.map (fun opt =>
    { name := if JS.length opt.text > 15 then (JS.units opt.text).take 15 ++ JS.units "..."
              else JS.units opt.text,
      votes := opt.votes })

/-- The total shown on a poll card of App.js (lines 609-611 and 683):
`poll.options.reduce((sum, opt) => sum + (opt.votes || 0), 0)`. -/
def App.totalVotes (options : List PollOption) : Nat :=
  options.foldl (fun sum opt => sum + opt.votes.getD 0) 0

/-- The percentage of one option on a poll card of App.js (line 684), before
`toFixed(1)` formats it: `none` is `NaN`, the quotient of a missing vote count.
The quotient is taken exactly; the rounding of the division and of `toFixed` is
left out. -/
def App.percentage (options : List PollOption) (option : PollOption) : Option ℚ :=
  if App.totalVotes options > 0 then
    match option.votes with
    | some votes => some ((votes : ℚ) / (App.totalVotes options : ℚ) * 100)
    | none => none
  else some 0

/-- The total of services/api.js (line 673):
`poll.options.reduce((sum, opt) => sum + opt.votes, 0)`; `none` is `NaN`, what
the sum becomes once a vote count is missing. -/
def ServicesApi.totalVotes (options : List PollOption) : Option Nat :=
  options.foldl (fun sum opt =>
    match sum, opt.votes with
    | some n, some votes => some (n + votes)
    | _, _ => none) (some 0)

/-- The percentage of one option in services/api.js (line 674), before
`toFixed(1)` formats it: `none` is `NaN`.  The test `totalVotes > 0` is false for
a `NaN` total. -/
def ServicesApi.percentage (options : List PollOption) (option : PollOption) : Option ℚ :=
  match ServicesApi.totalVotes options with
  | some total =>
    if total > 0 then
      match option.votes with
      | some votes => some ((votes : ℚ) / (total : ℚ) * 100)
      | none => none
    else some 0
  | none => some 0

/-- The value of a field of the JSON body of a request, when it has one. -/
def Request.field (r : Request) (key : String) : Option JVal :=
  match r.body with
  | some fields => fields.lookup key
  | none => none

/-- The outcome `r` of a handler of App.js run from state `s` and world `w` is
that of a failed request `req`: the state differs from `s` in the error message
and in `loading`, which is false, at most; local storage is as it was; and `req`
is the one request issued. -/
def App.FailedAtomically (s : App.State) (w : World) (req : Request)
    (r : App.State × World) : Prop :=
  (∃ e : String, r.1 = { s with error := e, loading := false }) ∧
  r.2.localStorage = w.localStorage ∧
  r.2.requests = w.requests ++ [req]

/-! ## What the App.js component offers in a state -/

/-- The polls the list view renders: `none` when `polls` is not an array, on which
rendering fails. -/
def Data.pollList : Data → Option (List Poll)
  | .polls ps => some ps
  | _ => none

/-- The title of the poll form (App.js line 719). -/
def App.formTitle (s : App.State) : String :=
  if s.editingPoll.isSome then "Edit Poll" else "Create New Poll"

/-- The `onClick` of the submit button of the poll form (App.js line 782):
`editingPoll ? handleUpdatePoll : handleCreatePoll`. -/
def App.submit (net : Net) (s : App.State) (w : World) : App.State × World :=
  if s.editingPoll.isSome then App.handleUpdatePoll net s w else App.handleCreatePoll net s w

/-- Whether the rendered component offers the event in state `s`: the auth view
(lines 355-487) when `currentUser` is null, the main view (lines 490-806)
otherwise, each button under the conditions of its JSX.  The passing of time and
the effects are not bound to a button; a refresh (the effect or its interval)
needs a current user. -/
def App.visible (e : App.Event) (s : App.State) : Bool :=
  match s.currentUser with
  | none =>
    match e with
    | .clock _ | .detectRole | .restore => true
    | .setEmail _ | .setPassword _ | .showLogin | .showSignup => true
    | .setName _ | .signup => s.view != "login"
    | .login => s.view == "login"
    | _ => false
  | some user =>
    let form := s.view == "create" || s.view == "edit"
    let admin := user.role == "ADMIN"
    let listed := s.view == "polls"
    match e with
    | .clock _ | .detectRole | .refresh | .logout | .navPolls => true
    | .navCreate => admin
    | .createFirst => admin && listed && s.polls.pollList == some []
    | .vote pollId optionId =>
      listed && ((s.polls.pollList.getD []).any (fun poll =>
        match App.pollCard user poll with
        | .voteButtons actions => actions.contains (pollId, optionId)
        | .results => false))
    | .editPoll poll =>
      admin && listed && (s.polls.pollList.getD []).contains poll && poll.status == "OPEN"
    | .closePoll _ pollId =>
      admin && listed &&
        (s.polls.pollList.getD []).any (fun poll => poll.id == pollId && poll.status == "OPEN")
    | .deletePoll _ pollId =>
      admin && listed && (s.polls.pollList.getD []).any (fun poll => poll.id == pollId)
    | .setPollQuestion _ | .addOption | .cancel => form
    | .updateOption index _ => form && decide (index < s.pollOptions.length)
    | .removeOption index =>
      form && decide (2 < s.pollOptions.length) && decide (index < s.pollOptions.length)
    | .setPollDuration _ | .createPoll => form && s.editingPoll.isNone
    | .updatePoll => form && s.editingPoll.isSome
    | _ => false

/-- Runs a sequence of events, each of which the component must offer in the
state it is applied to; `none` when one is not offered or the restore effect
throws. -/
def App.run (J : JSON) (net : Net) : List App.Event → App.State × World →
    Option (App.State × World)
  | [], c => some c
  | e :: es, c =>
    if App.visible e c.1 then
      match App.step J net e c with
      | some c' => App.run J net es c'
      | none => none
    else none

/-! ## Timers and the refresh effect -/

/-- An interval set by `setInterval`: its id and its period in milliseconds.  The
callback of every interval of the component is `loadPolls`. -/
structure Interval where
  id : Nat
  period : Nat
  deriving DecidableEq, Repr

/-- The intervals that are set and not cleared, and the id the next `setInterval`
returns. -/
structure Timers where
  active : List Interval
  nextId : Nat
  deriving DecidableEq, Repr

/-- The call `setInterval(callback, period)`: the id it returns and the timers
after it. -/
def Timers.setInterval (period : Nat) (t : Timers) : Nat × Timers :=
  (t.nextId, { active := t.active ++ [{ id := t.nextId, period := period }],
               nextId := t.nextId + 1 })

/-- The call `clearInterval(id)`. -/
def Timers.clearInterval (id : Nat) (t : Timers) : Timers :=
  { t with active := t.active.filter (fun i => i.id != id) }

/-- The refresh effect of App.js (lines 150-156): with a current user it runs
`loadPolls`, sets an interval of 30000 ms and returns the cleanup that clears that
interval, given here by the interval's id; without one it does nothing and
returns no cleanup. -/
def App.refreshEffect (net : Net) (s : App.State) (w : World) (t : Timers) :
    (App.State × World) × Timers × Option Nat :=
  match s.currentUser with
  | some _ =>
    let r := App.loadPolls net s w
    let i := t.setInterval 30000
    (r, i.2, some i.1)
  | none => ((s, w), t, none)

/-- The cleanup a run of the refresh effect returned: `clearInterval(interval)`,
or nothing when the run returned no cleanup. -/
def App.refreshCleanup (cleanup : Option Nat) (t : Timers) : Timers :=
  match cleanup with
  | some id => t.clearInterval id
  | none => t

/-- The load effect of services/api.js (lines 184-189): with a current user it
runs `loadPolls`; it sets no interval and returns no cleanup. -/
def ServicesApi.loadEffect (net : Net) (s : ServicesApi.State) (w : World) (t : Timers) :
    (ServicesApi.State × World) × Timers × Option Nat :=
  match s.currentUser with
  | some _ => (ServicesApi.loadPolls net s w, t, none)
  | none => ((s, w), t, none)

/-- The App.js component with its timers: state, world, intervals, and the
cleanup of the last run of the refresh effect. -/
structure App.Config where
  state : App.State
  world : World
  timers : Timers
  cleanup : Option Nat

/-- What React does after a render for the refresh effect, whose dependency is
`currentUser`: when `currentUser` differs from its value `old` at the previous
render, the cleanup of the previous run runs and then the effect runs again. -/
def App.afterRender (net : Net) (old : Option User) (c : App.Config) : App.Config :=
  if c.state.currentUser = old then c
  else
    let r := App.refreshEffect net c.state c.world (App.refreshCleanup c.cleanup c.timers)
    { state := r.1.1, world := r.1.2, timers := r.2.1, cleanup := r.2.2 }

/-- The firing of the interval `id`: its callback `loadPolls` runs when the
interval is active, nothing happens otherwise. -/
def App.tick (net : Net) (id : Nat) (c : App.Config) : App.Config :=
  if c.timers.active.any (fun i => i.id == id) then
    { c with state := (App.loadPolls net c.state c.world).1,
             world := (App.loadPolls net c.state c.world).2 }
  else c

/-- The configurations of the App.js component over its life: it mounts with no
interval set; any event other than a refresh may follow, after which React
re-runs the refresh effect when `currentUser` changed; and any interval may fire.
Refreshes happen only through the effect and the intervals. -/
inductive App.Lifecycle (J : JSON) (net : Net) : App.Config → Prop where
  | mount (w : World) :
      App.Lifecycle J net
        { state := App.State.init, world := w, timers := { active := [], nextId := 0 },
          cleanup := none }
  | event (e : App.Event) (c : App.Config) (s' : App.State) (w' : World)
      (hc : App.Lifecycle J net c) (he : e ≠ .refresh)
      (hs : App.step J net e (c.state, c.world) = some (s', w')) :
      App.Lifecycle J net
        (App.afterRender net c.state.currentUser { c with state := s', world := w' })
  | tick (id : Nat) (c : App.Config) (hc : App.Lifecycle J net c) :
      App.Lifecycle J net (App.tick net id c)

/-- The invariant of the timers: with no current user no interval is active; with
one, exactly one interval is active, its period is 30000 ms, and it is the one the
pending cleanup clears; ids in use are below the next id. -/
def App.TimersInv (c : App.Config) : Prop :=
  (∀ i ∈ c.timers.active, i.id < c.timers.nextId) ∧
  (c.state.currentUser = none → c.timers.active = [] ∧ c.cleanup = none) ∧
  (c.state.currentUser ≠ none →
    ∃ id, c.timers.active = [{ id := id, period := 30000 }] ∧ c.cleanup = some id)

/-- Going from world `w` to world `w'`, a request was issued, and the first one
carries the question `question` as it is and, as options, the list `sent`, which
is `form` without its entries that are empty after trimming: a sublist of `form`
(same order, same text) in which every entry that is non-empty after trimming
occurs as often as in `form`, no entry is empty or blank, and there are at least
2 entries. -/
def SendsEntries (w w' : World) (question : String) (form : List String) : Prop :=
  ∃ (r : Request) (rest : List Request) (sent : List String),
    w'.requests = w.requests ++ r :: rest ∧
    r.field "question" = some (.str question) ∧ r.field "options" = some (.strs sent) ∧
    sent = form.filter (fun o => JS.trim o != "") ∧
    sent.Sublist form ∧
    (∀ o, JS.trim o ≠ "" → sent.count o = form.count o) ∧
    (∀ o ∈ sent, o ≠ "" ∧ JS.trim o ≠ "") ∧
    2 ≤ sent.length

/-- One user action on the mounted App.js component: the handler bound to the
event runs, then React renders and runs the refresh effect again when
`currentUser` changed.  `none` when the restore effect throws. -/
def App.act (J : JSON) (net : Net) (e : App.Event) (c : App.Config) : Option App.Config :=
  (App.step J net e (c.state, c.world)).map
    (fun r => App.afterRender net c.state.currentUser { c with state := r.1, world := r.2 })

/-- The user action `e`, taken in configuration `c`, issues the requests `reqs`,
in that order, and no other. -/
def App.Issues (J : JSON) (net : Net) (e : App.Event) (c : App.Config) (reqs : List Request) :
    Prop :=
  ∃ c', App.act J net e c = some c' ∧ c'.world.requests = c.world.requests ++ reqs

/-! ## The App.js component with requests in flight

A handler is an `async` function: it runs up to its first `await`, where `fetch`
has issued the request, and resumes when the response has arrived; other events
run in between.  The setters it calls after an `await` are given constants or the
response, so a resumed call acts on the state as it is then.  The answer to a
request is fixed by the requests issued before it; answers arrive in any order. -/

namespace App

/-- The handlers of App.js that await a mutating call and then `loadPolls`. -/
inductive Mutation where
  | vote
  | createPoll
  | updatePoll
  | closePoll
  | deletePoll
  deriving DecidableEq, Repr

/-- Where a call is suspended, waiting for the response to the request it issued:
`handleLogin` or `handleSignup` at the `await` of its api call; a mutating handler
at the `await` of its api call; or `loadPolls` at the `await` of `api.getPolls`,
`loadPolls` being awaited by the mutating handler `caller`, or called by the
refresh effect or its interval when there is no `caller`. -/
inductive Cont where
  | login
  | signup
  | mutation (m : Mutation)
  | loadPolls (caller : Option Mutation)
  deriving DecidableEq, Repr

/-- A request in flight: the request, what `fetch` settles with, and the
suspended call. -/
structure Pending where
  request : Request
  result : FetchResult
  cont : Cont

/-- The component with requests in flight: state, world, the requests in flight
(oldest first) and the requests whose response has been delivered, in the order
of delivery. -/
structure Async where
  state : State
  world : World
  pending : List Pending
  delivered : List Pending

namespace api

/-- The function `api.login` from the point where `fetch` has settled (App.js
lines 16-20). -/
def loginResult (J : JSON) (r : FetchResult) (w : World) : Except String Data × World :=
  match r with
  | .rejected msg => (.error msg, w)
  | .resolved response =>
    if !response.ok then (.error "Login failed", w)
    else
      match response.json with
      | .error msg => (.error msg, w)
      | .ok data =>
        if data = .null then (.error (JS.typeErrorMessage "null" "token"), w)
        else
          let ls1 := w.localStorage.setItem "token" (JS.toStr data.token)
          let ls2 := ls1.setItem "user" (J.stringifyOpt data.user)
          (.ok data, { w with localStorage := ls2 })

/-- The function `api.signup` from the point where `fetch` has settled (App.js
lines 29-36). -/
def signupResult (J : JSON) (r : FetchResult) (w : World) : Except String Data × World :=
  match r with
  | .rejected msg => (.error msg, w)
  | .resolved response =>
    if !response.ok then
      (.error (if response.text = "" then "Signup failed" else response.text), w)
    else
      match response.json with
      | .error msg => (.error msg, w)
      | .ok data =>
        if data = .null then (.error (JS.typeErrorMessage "null" "token"), w)
        else
          let ls1 := w.localStorage.setItem "token" (JS.toStr data.token)
          let ls2 := ls1.setItem "user" (J.stringifyOpt data.user)
          (.ok data, { w with localStorage := ls2 })

/-- The function `api.getPolls` from the point where `fetch` has settled (App.js
lines 44-45). -/
def getPollsResult (r : FetchResult) : Except String Data :=
  match r with
  | .rejected msg => .error msg
  | .resolved response => if !response.ok then .error "Failed to fetch polls" else response.json

/-- The function `api.createPoll` from the point where `fetch` has settled (App.js
lines 58-59). -/
def createPollResult (r : FetchResult) : Except String Data :=
  match r with
  | .rejected msg => .error msg
  | .resolved response => if !response.ok then .error "Failed to create poll" else response.json

/-- The function `api.updatePoll` from the point where `fetch` has settled (App.js
lines 72-73). -/
def updatePollResult (r : FetchResult) : Except String Data :=
  match r with
  | .rejected msg => .error msg
  | .resolved response => if !response.ok then .error "Failed to update poll" else response.json

/-- The function `api.closePoll` from the point where `fetch` has settled (App.js
lines 82-83). -/
def closePollResult (r : FetchResult) : Except String Data :=
  match r with
  | .rejected msg => .error msg
  | .resolved response => if !response.ok then .error "Failed to close poll" else response.json

/-- The function `api.vote` from the point where `fetch` has settled (App.js lines
96-100). -/
def voteResult (r : FetchResult) : Except String Data :=
  match r with
  | .rejected msg => .error msg
  | .resolved response =>
    if !response.ok then .error (if response.text = "" then "Failed to vote" else response.text)
    else response.json

/-- The function `api.deletePoll` from the point where `fetch` has settled (App.js
line 109). -/
def deletePollResult (r : FetchResult) : Except String Unit :=
  match r with
  | .rejected msg => .error msg
  | .resolved response => if !response.ok then .error "Failed to delete poll" else .ok ()

end api

/-- The outcome of the api call a mutating handler awaits, the value it returns
left out: no handler uses it. -/
def mutationResult (m : Mutation) (r : FetchResult) : Except String Unit :=
  match m with
  | .vote => (api.voteResult r).map (fun _ => ())
  | .createPoll => (api.createPollResult r).map (fun _ => ())
  | .updatePoll => (api.updatePollResult r).map (fun _ => ())
  | .closePoll => (api.closePollResult r).map (fun _ => ())
  | .deletePoll => api.deletePollResult r

/-- The `catch` and `finally` blocks of a mutating handler, for the message of the
error caught. -/
def mutationFailed (m : Mutation) (message : String) (s : State) (w : World) : State × World :=
  match m with
  | .vote =>
    let errorMessage := if message = "" then "Failed to vote" else message
    ({ s with error := errorMessage, loading := false }, alert (" " ++ errorMessage) w)
  | .createPoll =>
    ({ s with error := "Failed to create poll", loading := false },
      alert "Failed to create poll" w)
  | .updatePoll =>
    ({ s with error := "Failed to update poll", loading := false },
      alert "Failed to update poll" w)
  | .closePoll => ({ s with loading := false }, alert " Failed to close poll" w)
  | .deletePoll => ({ s with loading := false }, alert " Failed to delete poll" w)

/-- What a mutating handler does once the `loadPolls` it awaited has returned:
the rest of its `try` block and its `finally` block. -/
def mutationDone (m : Mutation) (s : State) (w : World) : State × World :=
  match m with
  | .vote => ({ s with loading := false }, alert " Vote submitted successfully!" w)
  | .createPoll =>
    ({ s with pollQuestion := "", pollOptions := ["", ""], pollDuration := "24",
              view := "polls", loading := false },
      alert " Poll created successfully!" w)
  | .updatePoll =>
    ({ s with pollQuestion := "", pollOptions := ["", ""], editingPoll := none,
              view := "polls", loading := false },
      alert " Poll updated successfully!" w)
  | .closePoll => ({ s with loading := false }, alert " Poll closed successfully!" w)
  | .deletePoll => ({ s with loading := false }, alert " Poll deleted successfully!" w)

/-- The call `fetch(req)` by a call that then suspends at `k`: the request joins
the trace, and it is in flight with the answer the server gives it. -/
def Async.issue (net : Net) (req : Request) (k : Cont) (c : Async) : Async :=
  { c with world := { c.world with requests := c.world.requests ++ [req] },
           pending := c.pending ++
             [{ request := req, result := net c.world.requests req, cont := k }] }

/-- The function `loadPolls` up to its `await` (App.js lines 158-160):
`api.getPolls` reads the token and calls `fetch`. -/
def loadPollsStart (net : Net) (caller : Option Mutation) (c : Async) : Async :=
  c.issue net (api.getPollsRequest c.world) (.loadPolls caller)

/-- The handler `handleLogin` up to its `await` (App.js lines 167-175). -/
def handleLoginStart (net : Net) (c : Async) : Async :=
  if c.state.email = "" ∨ c.state.password = "" then
    { c with state := { c.state with error := "Please fill in all fields" } }
  else
    Async.issue net (api.loginRequest c.world c.state.email c.state.password) .login
      { c with state := { c.state with loading := true, error := "" } }

/-- The handler `handleSignup` up to its `await` (App.js lines 187-199). -/
def handleSignupStart (net : Net) (c : Async) : Async :=
  if c.state.email = "" ∨ c.state.password = "" ∨ c.state.name = "" then
    { c with state := { c.state with error := "Please fill in all fields" } }
  else if JS.length c.state.password < 6 then
    { c with state := { c.state with error := "Password must be at least 6 characters" } }
  else
    Async.issue net (api.signupRequest c.world c.state.email c.state.password c.state.name)
      .signup { c with state := { c.state with loading := true, error := "" } }

/-- The handler `handleVote` up to its `await` (App.js lines 213-220). -/
def handleVoteStart (net : Net) (pollId optionId : String) (c : Async) : Async :=
  Async.issue net (api.voteRequest c.world pollId optionId) (.mutation .vote)
    { c with state := { c.state with loading := true, error := "" } }

/-- The handler `handleCreatePoll` up to its `await` (App.js lines 236-257); on an
invalid closing date `toISOString` throws inside the `try`, and the `catch` and
`finally` blocks run at once. -/
def handleCreatePollStart (net : Net) (c : Async) : Async :=
  let trimmedOptions := c.state.pollOptions.filter (fun o => JS.trim o != "")
  if JS.trim c.state.pollQuestion = "" then
    { c with state := { c.state with error := "Please enter a question" } }
  else if trimmedOptions.length < 2 then
    { c with state := { c.state with error := "Please provide at least 2 options" } }
  else
    let s1 := { c.state with loading := true, error := "" }
    match JS.addHours c.world.now (JS.parseInt c.state.pollDuration) with
    | none =>
      let r := mutationFailed .createPoll "" s1 c.world
      { c with state := r.1, world := r.2 }
    | some t =>
      Async.issue net
        (api.createPollRequest c.world
          [("question", .str c.state.pollQuestion), ("options", .strs trimmedOptions),
           ("closesAt", .date t)])
        (.mutation .createPoll) { c with state := s1 }

/-- The handler `handleUpdatePoll` up to its `await` (App.js lines 279-292); with
no poll being edited the read of `editingPoll.id` throws inside the `try`, and the
`catch` and `finally` blocks run at once. -/
def handleUpdatePollStart (net : Net) (c : Async) : Async :=
  let trimmedOptions := c.state.pollOptions.filter (fun o => JS.trim o != "")
  if JS.trim c.state.pollQuestion = "" ∨ trimmedOptions.length < 2 then
    { c with state :=
        { c.state with error := "Please provide valid question and at least 2 options" } }
  else
    let s1 := { c.state with loading := true, error := "" }
    match c.state.editingPoll with
    | none =>
      let r := mutationFailed .updatePoll "" s1 c.world
      { c with state := r.1, world := r.2 }
    | some editingPoll =>
      Async.issue net
        (api.updatePollRequest c.world editingPoll.id
          [("question", .str c.state.pollQuestion), ("options", .strs trimmedOptions)])
        (.mutation .updatePoll) { c with state := s1 }

/-- The handler `handleClosePoll` up to its `await` (App.js lines 307-311). -/
def handleClosePollStart (net : Net) (confirmed : Bool) (pollId : String) (c : Async) : Async :=
  if !confirmed then c
  else
    Async.issue net (api.closePollRequest c.world pollId) (.mutation .closePoll)
      { c with state := { c.state with loading := true } }

/-- The handler `handleDeletePoll` up to its `await` (App.js lines 321-325). -/
def handleDeletePollStart (net : Net) (confirmed : Bool) (pollId : String) (c : Async) : Async :=
  if !confirmed then c
  else
    Async.issue net (api.deletePollRequest c.world pollId) (.mutation .deletePoll)
      { c with state := { c.state with loading := true } }

/-- An event starts: a handler that issues a request runs up to its `await`; any
other event runs to its end, as in `step`. -/
def start (J : JSON) (net : Net) (e : Event) (c : Async) : Option Async :=
  match e with
  | .refresh => some (loadPollsStart net none c)
  | .login => some (handleLoginStart net c)
  | .signup => some (handleSignupStart net c)
  | .vote pollId optionId => some (handleVoteStart net pollId optionId c)
  | .createPoll => some (handleCreatePollStart net c)
  | .updatePoll => some (handleUpdatePollStart net c)
  | .closePoll confirmed pollId => some (handleClosePollStart net confirmed pollId c)
  | .deletePoll confirmed pollId => some (handleDeletePollStart net confirmed pollId c)
  | e => (step J net e (c.state, c.world)).map (fun r => { c with state := r.1, world := r.2 })

/-- The suspended call of `p` resumes with its response and runs to its next
`await` or to its end.  `handleLogin` and `handleSignup` (lines 175-184,
199-209) store the session and set the user, or set the error; a mutating
handler calls `loadPolls` and awaits it, or runs its `catch` block; `loadPolls`
(lines 161-164) sets `polls` to the body when the call succeeded, after which the
handler that awaited it, if any, runs to its end. -/
def resume (J : JSON) (net : Net) (p : Pending) (c : Async) : Async :=
  match p.cont with
  | .login =>
    match api.loginResult J p.result c.world with
    | (.ok result, w1) =>
      { c with state := { c.state with currentUser := result.user, view := "polls", email := "",
                                       password := "", loading := false },
               world := w1 }
    | (.error _, w1) =>
      { c with state := { c.state with error := "Invalid email or password", loading := false },
               world := w1 }
  | .signup =>
    match api.signupResult J p.result c.world with
    | (.ok result, w1) =>
      { c with state := { c.state with currentUser := result.user, view := "polls", email := "",
                                       password := "", name := "", loading := false },
               world := w1 }
    | (.error message, w1) =>
      { c with state := { c.state with
                            error := if message = "" then "Email already exists" else message,
                            loading := false },
               world := w1 }
  | .mutation m =>
    match mutationResult m p.result with
    | .ok _ => loadPollsStart net (some m) c
    | .error message =>
      let r := mutationFailed m message c.state c.world
      { c with state := r.1, world := r.2 }
  | .loadPolls caller =>
    let s1 :=
      match api.getPollsResult p.result with
      | .ok data => { c.state with polls := data }
      | .error _ => c.state
    match caller with
    | none => { c with state := s1 }
    | some m =>
      let r := mutationDone m s1 c.world
      { c with state := r.1, world := r.2 }

/-- The response to the request in flight at position `i` arrives: the request
leaves the requests in flight, joins the delivered ones, and its call resumes.
`none` when no request is in flight at that position. -/
def deliver (J : JSON) (net : Net) (i : Nat) (c : Async) : Option Async :=
  match c.pending[i]? with
  | none => none
  | some p =>
    some (resume J net p
      { c with pending := c.pending.eraseIdx i, delivered := c.delivered ++ [p] })

/-- The configurations the component can be in when responses arrive in any
order: it starts from the initial state with no request issued; any event may
start, and the response to any request in flight may arrive. -/
inductive AsyncReachable (J : JSON) (net : Net) : Async → Prop where
  | init (w : World) (h : w.requests = []) :
      AsyncReachable J net { state := State.init, world := w, pending := [], delivered := [] }
  | start (e : Event) (c c' : Async) (hc : AsyncReachable J net c)
      (hs : start J net e c = some c') : AsyncReachable J net c'
  | deliver (i : Nat) (c c' : Async) (hc : AsyncReachable J net c)
      (hd : deliver J net i c = some c') : AsyncReachable J net c'

/-- The body a delivered response handed to `setPolls`: that of a successful
answer to a `getPolls`; `none` for a failed one and for an answer to any other
request. -/
def Pending.polls (p : Pending) : Option Data :=
  match p.cont with
  | .loadPolls _ =>
    match api.getPollsResult p.result with
    | .ok data => some data
    | .error _ => none
  | _ => none

/-- The body of the successful `getPolls` response that was delivered last,
`none` when none was delivered. -/
def lastArrivedPolls (delivered : List Pending) : Option Data :=
  (delivered.filterMap Pending.polls).getLast?

/-- The request in flight or delivered `p` belongs to the trace: it is one of the
requests issued, its result is the answer of the server to it after the requests
issued before it, and the request of a suspended `loadPolls` is a GET. -/
def Pending.Sound (net : Net) (trace : List Request) (p : Pending) : Prop :=
  (∃ hist rest, trace = hist ++ p.request :: rest ∧ p.result = net hist p.request) ∧
  (∀ caller, p.cont = .loadPolls caller → p.request.method = "GET")

/-- The invariant of the component with requests in flight: `polls` holds the
body of the successful `getPolls` response delivered last, or the initial empty
list; every request in flight or delivered belongs to the trace. -/
def AsyncInv (net : Net) (c : Async) : Prop :=
  c.state.polls = (lastArrivedPolls c.delivered).getD (.polls []) ∧
  (∀ p ∈ c.pending, p.Sound net c.world.requests) ∧
  (∀ p ∈ c.delivered, p.Sound net c.world.requests)

/-- Going from `c` to `c'`, the delivered requests are the same, and either the
trace and the requests in flight are the same too, or one request was issued: it
is the last of the trace, it is in flight with the answer of the server, and it is
a GET when it is that of `loadPolls`. -/
def Async.Extends (net : Net) (c c' : Async) : Prop :=
  c'.delivered = c.delivered ∧
  ((c'.world.requests = c.world.requests ∧ c'.pending = c.pending) ∨
    ∃ req k, (∀ caller, k = Cont.loadPolls caller → req.method = "GET") ∧
      c'.world.requests = c.world.requests ++ [req] ∧
      c'.pending = c.pending ++ [{ request := req, result := net c.world.requests req,
                                   cont := k }])

/-- Whether the rendered component offers the event: as `visible`, and the buttons
of login, signup, vote and submit are disabled while `loading` is set (App.js
lines 419, 477, 652, 783). -/
def offered (e : Event) (s : State) : Bool :=
  visible e s &&
    match e with
    | .login | .signup | .vote _ _ | .createPoll | .updatePoll => !s.loading
    | _ => true

/-- What happens to the component with requests in flight: an event starts, or
the response to the request in flight at a position arrives. -/
inductive AsyncEvent where
  | start (e : Event)
  | deliver (i : Nat)

/-- Runs a sequence of starts and deliveries; each event started must be offered
in the state it starts in.  `none` when one is not offered, when no request is in
flight at a position delivered, or when the restore effect throws. -/
def asyncRun (J : JSON) (net : Net) : List AsyncEvent → Async → Option Async
  | [], c => some c
  | .start e :: es, c =>
    if offered e c.state then
      match start J net e c with
      | some c' => asyncRun J net es c'
      | none => none
    else none
  | .deliver i :: es, c =>
    match deliver J net i c with
    | some c' => asyncRun J net es c'
    | none => none

end App

/-- A mutating handler run with no other event in between, from the point where
its `fetch` is about to issue `req`: the call is answered, then `loadPolls` runs
and the handler ends, or the `catch` block runs. -/
def App.mutationRun (net : Net) (m : App.Mutation) (req : Request) (s : App.State) (w : World) :
    App.State × World :=
  match App.mutationResult m (net w.requests req) with
  | .ok _ =>
    let r := App.loadPolls net s { w with requests := w.requests ++ [req] }
    App.mutationDone m r.1 r.2
  | .error message => App.mutationFailed m message s { w with requests := w.requests ++ [req] }

/-! ## Sample values used to instantiate the theorems -/

/-- Splits a character list at each line feed. -/
def splitLines : List Char → List (List Char)
  | [] => [[]]
  | c :: cs =>
    if c = '\n' then [] :: splitLines cs
    else
      match splitLines cs with
      | [] => [[c]]
      | l :: ls => (c :: l) :: ls

/-- A small codec for user records, one field per line, standing in for
`JSON.stringify` and `JSON.parse` in the examples. -/
def sampleJSON : JSON where
  stringify := fun u =>
    String.mk (u.id.data ++ '\n' :: u.name.data ++ '\n' :: u.email.data ++ '\n' :: u.role.data)
  parse := fun s =>
    match splitLines s.data with
    | [a, b, c, d] => some { id := String.mk a, name := String.mk b, email := String.mk c,
                             role := String.mk d }
    | _ => none

/-- A user record with role USER. -/
def sampleUser : User := { id := "7", name := "Ada", email := "ada@example.com", role := "USER" }

/-- A poll on which the viewer has voted. -/
def samplePoll : Poll where
  id := "p1"
  question := "Drink?"
  options := [{ id := "o1", text := "Tea", votes := some 1 },
              { id := "o2", text := "Coffee", votes := some 0 }]
  status := "OPEN"
  closesAt := "2030-01-01T00:00:00.000Z"
  hasVoted := true
  userVote := some "o1"

/-- A world with empty local storage and no request issued yet. -/
def sampleWorld : World :=
  { env := none, now := 1700000000000, localStorage := [], requests := [], alerts := [] }

/-- The server that gives the same answer to every request. -/
def constNet (r : FetchResult) : Net := fun _ _ => r

/-- A successful response with the given JSON body. -/
def okResponse (d : Data) : FetchResult := .resolved { ok := true, text := "", json := .ok d }

/-- A failed response with the given body text, which does not parse as JSON. -/
def failResponse (text : String) : FetchResult :=
  .resolved { ok := false, text := text, json := .error "Unexpected token" }

/-- A failed response whose body is the JSON text of an object with the one field
`error`, holding `Already voted`. -/
def alreadyVotedResponse : FetchResult :=
  .resolved { ok := false, text := "\x7b\"error\":\"Already voted\"\x7d",
              json := .ok (.errorObj "Already voted") }

/-- A user record with role ADMIN. -/
def sampleAdmin : User :=
  { id := "1", name := "Root", email := "admin@example.com", role := "ADMIN" }

/-- An open poll on which the viewer has not voted. -/
def openPoll : Poll where
  id := "p2"
  question := "Season?"
  options := [{ id := "o1", text := "Summer", votes := some 0 },
              { id := "o2", text := "Winter", votes := some 0 }]
  status := "OPEN"
  closesAt := "2030-01-01T00:00:00.000Z"
  hasVoted := false
  userVote := none

/-- The poll form filled in with a question and two options, for a given
duration input. -/
def sampleForm (duration : String) : App.State :=
  { App.State.init with view := "create", pollQuestion := "Drink?",
                        pollOptions := ["Tea", "Coffee"], pollDuration := duration }

/-- The poll form of services/api.js filled in with a question and two options,
for a given duration input. -/
def sampleServicesForm (duration : String) : ServicesApi.State :=
  { ServicesApi.State.init with view := "create", newPollQuestion := "Drink?",
                                newPollOptions := ["Tea", "Coffee"], pollDuration := duration }

/-- The edit form of App.js open on the sample poll, its question reworded. -/
def sampleEditForm : App.State :=
  { App.handleEditPoll samplePoll App.State.init with pollQuestion := "Hot drink?" }

/-- Two options, the second with no vote count. -/
def optionsWithMissingCount : List PollOption :=
  [{ id := "o1", text := "Tea", votes := some 3 }, { id := "o2", text := "Coffee", votes := none }]

/-- An option whose text has 16 characters. -/
def sixteenCharOption : PollOption := { id := "o1", text := "Sixteen letters.", votes := some 1 }

/-- A server for one admin session: it answers every login with the sample admin,
the first `getPolls` with the list holding the open poll, and every later
`getPolls` with the empty list. -/
def adminSessionNet : Net := fun hist req =>
  if req.method = "GET" then
    if hist.any (fun r => r.method == "GET") then okResponse (.polls [])
    else okResponse (.polls [openPoll])
  else okResponse (.auth "tok" sampleAdmin)

/-- A server for two sessions in a row: it answers the first login with the sample
user and every later login with the sample admin, the first `getPolls` with the
list holding the sample poll, on which the viewer has voted, and fails every
later `getPolls`. -/
def twoSessionsNet : Net := fun hist req =>
  if req.method = "GET" then
    if hist.any (fun r => r.method == "GET") then failResponse "Service unavailable"
    else okResponse (.polls [samplePoll])
  else if hist.any (fun r => r.method == "POST") then okResponse (.auth "tok2" sampleAdmin)
  else okResponse (.auth "tok1" sampleUser)

/-- An admin logs in, sees the open poll, opens it in the edit form, and goes back
to the list with the All Polls button. -/
def editThenAllPolls : List App.Event :=
  [.setEmail "admin@example.com", .setPassword "secret", .login, .refresh, .editPoll openPoll,
   .navPolls]

/-- The same, after which the list is refreshed, comes back empty, and the admin
presses Create your first poll. -/
def editThenCreateFirst : List App.Event :=
  editThenAllPolls ++ [.refresh, .createFirst]

/-- A user logs in, sees the sample poll, and logs out; then an admin logs in on
the same page and the refresh that follows fails. -/
def logoutThenLogin : List App.Event :=
  [.setEmail "ada@example.com", .setPassword "secret", .login, .refresh, .logout,
   .setEmail "admin@example.com", .setPassword "secret", .login, .refresh]

/-- A successful response whose body is the JSON text `null`. -/
def nullResponse : FetchResult := .resolved { ok := true, text := "null", json := .ok .null }

/-- A failed response whose body is the JSON text `null`. -/
def failedNullResponse : FetchResult :=
  .resolved { ok := false, text := "null", json := .ok .null }

/-- The mounted component showing the login form, filled in: no current user, no
interval set. -/
def sampleLoginConfig : App.Config :=
  { state := { App.State.init with email := "ada@example.com", password := "secret" },
    world := sampleWorld, timers := { active := [], nextId := 0 }, cleanup := none }

/-- The mounted component of a logged-in admin showing the create form, filled in
with the given duration input; the interval of the refresh effect is set. -/
def sampleCreateConfig (duration : String) : App.Config :=
  { state := { sampleForm duration with currentUser := some sampleAdmin },
    world := sampleWorld, timers := { active := [{ id := 0, period := 30000 }], nextId := 1 },
    cleanup := some 0 }

/-- The open poll after the viewer has voted for Summer. -/
def votedPoll : Poll :=
  { openPoll with options := [{ id := "o1", text := "Summer", votes := some 1 },
                              { id := "o2", text := "Winter", votes := some 0 }],
                  hasVoted := true, userVote := some "o1" }

/-- The same poll after one more vote, of another user, for Winter. -/
def votedTwicePoll : Poll :=
  { votedPoll with options := [{ id := "o1", text := "Summer", votes := some 1 },
                               { id := "o2", text := "Winter", votes := some 1 }] }

/-- A server on which the poll changes between refreshes: it answers the first
`getPolls` with the open poll, the second with the poll after the vote of the
viewer, and every later one with the poll after one more vote; it answers every
other request with a token and the sample user. -/
def overlapNet : Net := fun hist req =>
  if req.method = "GET" then
    match (hist.filter (fun r => r.method == "GET")).length with
    | 0 => okResponse (.polls [openPoll])
    | 1 => okResponse (.polls [votedPoll])
    | _ => okResponse (.polls [votedTwicePoll])
  else okResponse (.auth "tok" sampleUser)

/-- A user logs in and the list loads; the user votes; the vote is answered and
`handleVote` calls `loadPolls`; before that `getPolls` is answered the interval
fires and calls `loadPolls` too; the answer to the second `getPolls` arrives
first, the answer to the first one last. -/
def overlappingRefresh : List App.AsyncEvent :=
  [.start (.setEmail "ada@example.com"), .start (.setPassword "secret"), .start .login,
   .deliver 0, .start .refresh, .deliver 0, .start (.vote "p2" "o1"), .deliver 0,
   .start .refresh, .deliver 1, .deliver 0]

/-- The component at the end of the run `overlappingRefresh` on the server
`overlapNet`, from the initial state. -/
def overlapEnd : App.Async :=
  (App.asyncRun sampleJSON overlapNet overlappingRefresh
    { state := App.State.init, world := sampleWorld, pending := [], delivered := [] }).getD
    { state := App.State.init, world := sampleWorld, pending := [], delivered := [] }

/-! ## Lemmas on the platform model -/

theorem Storage.getItem_removeItem_self (st : Storage) (k : String) :
    (st.removeItem k).getItem k = none := by
  induction st with
  | nil => rfl
  | cons p ps ih =>
    obtain ⟨a, b⟩ := p
    unfold Storage.removeItem Storage.getItem at *
    by_cases h : a = k
    · simpa [List.filter_cons, h] using ih
    · have hk : (k == a) = false := by simpa using fun e => h e.symm
      simpa [List.filter_cons, h, List.lookup_cons, hk] using ih

theorem Storage.getItem_removeItem_ne (st : Storage) (k j : String) (hkj : j ≠ k) :
    (st.removeItem k).getItem j = st.getItem j := by
  induction st with
  | nil => rfl
  | cons p ps ih =>
    obtain ⟨a, b⟩ := p
    unfold Storage.removeItem Storage.getItem at *
    by_cases h : a = k
    · subst h
      have hj : (j == a) = false := by simpa using hkj
      rw [List.lookup_cons, hj]
      simpa [List.filter_cons] using ih
    · by_cases hja : j = a
      · simp [List.filter_cons, h, List.lookup_cons, hja]
      · have hj : (j == a) = false := by simpa using hja
        simpa [List.filter_cons, h, List.lookup_cons, hj] using ih

theorem Storage.getItem_setItem_self (st : Storage) (k v : String) :
    (st.setItem k v).getItem k = some v := by
  simp [Storage.setItem, Storage.getItem, List.lookup_cons]

theorem Storage.getItem_setItem_ne (st : Storage) (k j v : String) (hkj : j ≠ k) :
    (st.setItem k v).getItem j = st.getItem j := by
  have hj : (j == k) = false := by simpa using hkj
  have h := Storage.getItem_removeItem_ne st k j hkj
  unfold Storage.setItem Storage.getItem at *
  rw [List.lookup_cons, hj]
  exact h

theorem JS.trim_ne_empty (o : String) (h : JS.trim o ≠ "") : o ≠ "" := by
  intro ho
  apply h
  subst ho
  rfl

theorem JS.length_pos_ne_empty (p : String) (h : 0 < JS.length p) : p ≠ "" := by
  intro hp
  subst hp
  exact absurd h (by decide)

theorem JS.includesAux_iff (sub l : List Char) : JS.includesAux sub l = true ↔ sub <:+: l := by
  induction l with
  | nil => simp [JS.includesAux, List.isPrefixOf_iff_prefix]
  | cons c cs ih =>
    simp only [JS.includesAux, Bool.or_eq_true, ih, List.isPrefixOf_iff_prefix]
    exact List.infix_cons_iff.symm

/-- Fewer non-blank entries than non-empty ones. -/
theorem filter_trim_length_le (os : List String) :
    (os.filter (fun o => JS.trim o != "")).length ≤ (os.filter (fun o => o != "")).length := by
  rw [← List.countP_eq_length_filter, ← List.countP_eq_length_filter]
  apply List.countP_mono_left
  intro o _ ho
  have : JS.trim o ≠ "" := by simpa using ho
  simpa using JS.trim_ne_empty o this

/-- Every call of `api.login` (App.js) issues exactly its one request. -/
theorem App.api.login_requests (J : JSON) (net : Net) (email password : String) (w : World) :
    (App.api.login J net email password w).2.requests
      = w.requests ++ [App.api.loginRequest w email password] := by
  simp only [App.api.login, fetch]
  cases net w.requests _ with
  | rejected msg => rfl
  | resolved response =>
    cases hok : response.ok <;> cases hj : response.json <;> simp [hok, hj]
    split_ifs <;> rfl

/-- Every call of `api.login` (services/api.js) issues exactly its one request. -/
theorem ServicesApi.api.login_issues_one_request (J : JSON) (net : Net) (email password : String)
    (w : World) :
    (ServicesApi.api.login J net email password w).2.requests
      = w.requests ++ [ServicesApi.api.loginRequest w email password] := by
  simp only [ServicesApi.api.login, fetch]
  cases net w.requests _ with
  | rejected msg => rfl
  | resolved response =>
    cases hok : response.ok <;> cases hj : response.json <;> simp [hok, hj]
    split_ifs <;> rfl

/-- Every call of `api.signup` (App.js) issues exactly its one request. -/
theorem App.api.signup_requests (J : JSON) (net : Net) (email password name : String)
    (w : World) :
    (App.api.signup J net email password name w).2.requests
      = w.requests ++ [App.api.signupRequest w email password name] := by
  simp only [App.api.signup, fetch]
  cases net w.requests _ with
  | rejected msg => rfl
  | resolved response =>
    cases hok : response.ok <;> cases hj : response.json <;> simp [hok, hj]
    split_ifs <;> rfl

/-- The function `loadPolls` (App.js) issues the `getPolls` request and replaces
`polls` by the answer when the call succeeds. -/
theorem App.loadPolls_eq (net : Net) (s : App.State) (w : World) :
    App.loadPolls net s w =
      ({ s with polls := (net.answer w.requests (App.api.getPollsRequest w)).getD s.polls },
        { w with requests := w.requests ++ [App.api.getPollsRequest w] }) := by
  simp only [App.loadPolls, App.api.getPolls, fetch, Net.answer]
  cases net w.requests _ with
  | rejected msg => rfl
  | resolved response =>
    cases hok : response.ok <;> cases hj : response.json <;> simp [hok, hj]

theorem App.api.vote_eq (net : Net) (pollId optionId : String) (w : World) (d : Data)
    (h : net.answer w.requests (App.api.voteRequest w pollId optionId) = some d) :
    App.api.vote net pollId optionId w =
      (.ok d, { w with requests := w.requests ++ [App.api.voteRequest w pollId optionId] }) := by
  simp only [App.api.vote, fetch]
  simp only [Net.answer] at h
  cases hn : net w.requests (App.api.voteRequest w pollId optionId) with
  | rejected msg => simp [hn] at h
  | resolved response =>
    cases hok : response.ok <;> cases hj : response.json <;> simp_all

theorem App.api.createPoll_eq (net : Net) (pollData : List (String × JVal)) (w : World)
    (d : Data) (h : net.answer w.requests (App.api.createPollRequest w pollData) = some d) :
    App.api.createPoll net pollData w =
      (.ok d, { w with requests := w.requests ++ [App.api.createPollRequest w pollData] }) := by
  simp only [App.api.createPoll, fetch]
  simp only [Net.answer] at h
  cases hn : net w.requests (App.api.createPollRequest w pollData) with
  | rejected msg => simp [hn] at h
  | resolved response =>
    cases hok : response.ok <;> cases hj : response.json <;> simp_all

theorem App.api.updatePoll_eq (net : Net) (pollId : String) (pollData : List (String × JVal))
    (w : World) (d : Data)
    (h : net.answer w.requests (App.api.updatePollRequest w pollId pollData) = some d) :
    App.api.updatePoll net pollId pollData w =
      (.ok d,
        { w with requests := w.requests ++ [App.api.updatePollRequest w pollId pollData] }) := by
  simp only [App.api.updatePoll, fetch]
  simp only [Net.answer] at h
  cases hn : net w.requests (App.api.updatePollRequest w pollId pollData) with
  | rejected msg => simp [hn] at h
  | resolved response =>
    cases hok : response.ok <;> cases hj : response.json <;> simp_all

theorem App.api.closePoll_eq (net : Net) (pollId : String) (w : World) (d : Data)
    (h : net.answer w.requests (App.api.closePollRequest w pollId) = some d) :
    App.api.closePoll net pollId w =
      (.ok d, { w with requests := w.requests ++ [App.api.closePollRequest w pollId] }) := by
  simp only [App.api.closePoll, fetch]
  simp only [Net.answer] at h
  cases hn : net w.requests (App.api.closePollRequest w pollId) with
  | rejected msg => simp [hn] at h
  | resolved response =>
    cases hok : response.ok <;> cases hj : response.json <;> simp_all

theorem App.api.deletePoll_eq (net : Net) (pollId : String) (w : World)
    (h : net.accepts w.requests (App.api.deletePollRequest w pollId) = true) :
    App.api.deletePoll net pollId w =
      (.ok (), { w with requests := w.requests ++ [App.api.deletePollRequest w pollId] }) := by
  simp only [App.api.deletePoll, fetch]
  simp only [Net.accepts] at h
  cases hn : net w.requests (App.api.deletePollRequest w pollId) with
  | rejected msg => simp [hn] at h
  | resolved response =>
    cases hok : response.ok <;> simp_all

theorem App.api.getPolls_requests (net : Net) (w : World) :
    (App.api.getPolls net w).2.requests = w.requests ++ [App.api.getPollsRequest w] := by
  simp only [App.api.getPolls, fetch]
  cases net w.requests _ with
  | rejected msg => rfl
  | resolved response =>
    cases hok : response.ok <;> simp [hok]

theorem App.api.createPoll_requests (net : Net) (pollData : List (String × JVal)) (w : World) :
    (App.api.createPoll net pollData w).2.requests = w.requests ++ [App.api.createPollRequest w pollData] := by
  simp only [App.api.createPoll, fetch]
  cases net w.requests _ with
  | rejected msg => rfl
  | resolved response =>
    cases hok : response.ok <;> simp [hok]

theorem App.api.updatePoll_requests (net : Net) (pollId : String) (pollData : List (String × JVal)) (w : World) :
    (App.api.updatePoll net pollId pollData w).2.requests = w.requests ++ [App.api.updatePollRequest w pollId pollData] := by
  simp only [App.api.updatePoll, fetch]
  cases net w.requests _ with
  | rejected msg => rfl
  | resolved response =>
    cases hok : response.ok <;> simp [hok]

theorem App.api.closePoll_requests (net : Net) (pollId : String) (w : World) :
    (App.api.closePoll net pollId w).2.requests = w.requests ++ [App.api.closePollRequest w pollId] := by
  simp only [App.api.closePoll, fetch]
  cases net w.requests _ with
  | rejected msg => rfl
  | resolved response =>
    cases hok : response.ok <;> simp [hok]

theorem App.api.vote_requests (net : Net) (pollId optionId : String) (w : World) :
    (App.api.vote net pollId optionId w).2.requests = w.requests ++ [App.api.voteRequest w pollId optionId] := by
  simp only [App.api.vote, fetch]
  cases net w.requests _ with
  | rejected msg => rfl
  | resolved response =>
    cases hok : response.ok <;> simp [hok]

theorem App.api.deletePoll_requests (net : Net) (pollId : String) (w : World) :
    (App.api.deletePoll net pollId w).2.requests = w.requests ++ [App.api.deletePollRequest w pollId] := by
  simp only [App.api.deletePoll, fetch]
  cases net w.requests _ with
  | rejected msg => rfl
  | resolved response =>
    cases hok : response.ok <;> simp [hok]

theorem ServicesApi.api.getPolls_issues_one_request (net : Net) (w : World) :
    (ServicesApi.api.getPolls net w).2.requests = w.requests ++ [ServicesApi.api.getPollsRequest w] := by
  simp only [ServicesApi.api.getPolls, fetch]
  cases net w.requests _ with
  | rejected msg => rfl
  | resolved response =>
    cases hok : response.ok <;> simp [hok]

theorem ServicesApi.api.createPoll_issues_one_request (net : Net) (pollData : List (String × JVal)) (w : World) :
    (ServicesApi.api.createPoll net pollData w).2.requests = w.requests ++ [ServicesApi.api.createPollRequest w pollData] := by
  simp only [ServicesApi.api.createPoll, fetch]
  cases net w.requests _ with
  | rejected msg => rfl
  | resolved response =>
    cases hok : response.ok <;> simp [hok]

theorem ServicesApi.api.vote_issues_one_request (net : Net) (pollId optionId : String) (w : World) :
    (ServicesApi.api.vote net pollId optionId w).2.requests = w.requests ++ [ServicesApi.api.voteRequest w pollId optionId] := by
  simp only [ServicesApi.api.vote, fetch]
  cases net w.requests _ with
  | rejected msg => rfl
  | resolved response =>
    cases hok : response.ok
    · cases hj : response.json with
      | error e => simp [hok, hj]
      | ok d => cases d <;> simp [hok, hj, Data.error]
    · simp [hok]

theorem ServicesApi.api.deletePoll_issues_one_request (net : Net) (pollId : String) (w : World) :
    (ServicesApi.api.deletePoll net pollId w).2.requests = w.requests ++ [ServicesApi.api.deletePollRequest w pollId] := by
  simp only [ServicesApi.api.deletePoll, fetch]
  cases net w.requests _ with
  | rejected msg => rfl
  | resolved response =>
    cases hok : response.ok <;> simp [hok]

theorem ServicesApi.api.signup_issues_one_request (J : JSON) (net : Net)
    (email password name : String) (w : World) :
    (ServicesApi.api.signup J net email password name w).2.requests
      = w.requests ++ [ServicesApi.api.signupRequest w email password name] := by
  simp only [ServicesApi.api.signup, fetch]
  cases net w.requests _ with
  | rejected msg => rfl
  | resolved response =>
    cases hok : response.ok
    · simp [hok]
    · cases hj : response.json with
      | error e => simp [hok, hj]
      | ok d =>
        by_cases hadm : JS.includes (JS.toLowerCase email) "admin" = true
        · cases d with
          | auth token user => by_cases hr : user.role = "ADMIN" <;> simp [hok, hj, hadm, hr]
          | polls ps => simp [hok, hj, hadm]
          | poll q => simp [hok, hj, hadm]
          | errorObj e => simp [hok, hj, hadm]
          | null => simp [hok, hj, hadm]
        · simp [hok, hj, hadm]
          split_ifs <;> rfl

theorem App.latestPolls_append (net : Net) (trace : List Request) (r : Request) :
    App.latestPolls net (trace ++ [r]) =
      if r.method = "GET" then
        match net.answer trace r with
        | some data => some data
        | none => App.latestPolls net trace
      else App.latestPolls net trace := by
  simp [App.latestPolls, App.latestPollsRev, List.reverse_append]

theorem App.pollsInv_frame (net : Net) (s s' : App.State) (w w' : World)
    (h : App.PollsInv net (s, w)) (hp : s'.polls = s.polls) (hr : w'.requests = w.requests) :
    App.PollsInv net (s', w') := by
  unfold App.PollsInv at *
  simp only [hp, hr]
  exact h

theorem App.pollsInv_request (net : Net) (s s' : App.State) (w w' : World) (req : Request)
    (hm : req.method ≠ "GET") (h : App.PollsInv net (s, w)) (hp : s'.polls = s.polls)
    (hr : w'.requests = w.requests ++ [req]) : App.PollsInv net (s', w') := by
  unfold App.PollsInv at *
  simp only [hp, hr, App.latestPolls_append, if_neg hm]
  exact h

theorem App.pollsInv_loadPolls (net : Net) (s : App.State) (w : World)
    (h : App.PollsInv net (s, w)) : App.PollsInv net (App.loadPolls net s w) := by
  unfold App.PollsInv at *
  have hg : (App.api.getPollsRequest w).method = "GET" := rfl
  simp only [App.loadPolls_eq, App.latestPolls_append, if_pos hg]
  cases net.answer w.requests (App.api.getPollsRequest w) with
  | none => simpa using h
  | some d => rfl

theorem App.pollsInv_handleLogin (J : JSON) (net : Net) (s : App.State) (w : World)
    (h : App.PollsInv net (s, w)) : App.PollsInv net (App.handleLogin J net s w) := by
  have hreq := App.api.login_requests J net s.email s.password w
  unfold App.handleLogin
  split_ifs
  · exact App.pollsInv_frame net s _ w _ h rfl rfl
  · simp only []
    generalize App.api.login J net s.email s.password w = res at hreq
    obtain ⟨r1, w1⟩ := res
    cases r1 <;>
      exact App.pollsInv_request net s _ w _ _ (by simp [App.api.loginRequest]) h rfl hreq

theorem App.pollsInv_handleSignup (J : JSON) (net : Net) (s : App.State) (w : World)
    (h : App.PollsInv net (s, w)) : App.PollsInv net (App.handleSignup J net s w) := by
  have hreq := App.api.signup_requests J net s.email s.password s.name w
  unfold App.handleSignup
  split_ifs
  · exact App.pollsInv_frame net s _ w _ h rfl rfl
  · exact App.pollsInv_frame net s _ w _ h rfl rfl
  · simp only []
    generalize App.api.signup J net s.email s.password s.name w = res at hreq
    obtain ⟨r1, w1⟩ := res
    cases r1 <;>
      exact App.pollsInv_request net s _ w _ _ (by simp [App.api.signupRequest]) h rfl hreq

/-- After a call other than `getPolls` that returned, the reload and any change
of cells other than `polls` keep the invariant. -/
theorem App.pollsInv_reload (net : Net) (s s1 s' : App.State) (w w1 w' : World) (req : Request)
    (hm : req.method ≠ "GET") (h : App.PollsInv net (s, w))
    (hreq : w1.requests = w.requests ++ [req])
    (hs' : s'.polls = (App.loadPolls net s1 w1).1.polls)
    (hw' : w'.requests = (App.loadPolls net s1 w1).2.requests) (hs1 : s1.polls = s.polls) :
    App.PollsInv net (s', w') := by
  have h1 : App.PollsInv net (s1, w1) := App.pollsInv_request net s s1 w w1 req hm h hs1 hreq
  have h2 := App.pollsInv_loadPolls net s1 w1 h1
  exact App.pollsInv_frame net _ s' _ w' h2 hs' hw'

theorem App.pollsInv_handleVote (net : Net) (pollId optionId : String) (s : App.State)
    (w : World) (h : App.PollsInv net (s, w)) :
    App.PollsInv net (App.handleVote net pollId optionId s w) := by
  have hreq := App.api.vote_requests net pollId optionId w
  have hm : (App.api.voteRequest w pollId optionId).method ≠ "GET" := by
    simp [App.api.voteRequest]
  unfold App.handleVote
  simp only []
  generalize App.api.vote net pollId optionId w = res at hreq
  obtain ⟨r1, w1⟩ := res
  cases r1 with
  | error m => exact App.pollsInv_request net s _ w _ _ hm h rfl hreq
  | ok d =>
      exact App.pollsInv_reload net s _ _ w w1 _ _ hm h hreq rfl rfl rfl

theorem App.pollsInv_handleCreatePoll (net : Net) (s : App.State) (w : World)
    (h : App.PollsInv net (s, w)) : App.PollsInv net (App.handleCreatePoll net s w) := by
  unfold App.handleCreatePoll
  simp only []
  split_ifs
  · exact App.pollsInv_frame net s _ w _ h rfl rfl
  · exact App.pollsInv_frame net s _ w _ h rfl rfl
  · cases JS.addHours w.now (JS.parseInt s.pollDuration) with
    | none => exact App.pollsInv_frame net s _ w _ h rfl rfl
    | some t =>
      simp only []
      have hreq := App.api.createPoll_requests net
        [("question", .str s.pollQuestion),
         ("options", .strs (s.pollOptions.filter (fun o => JS.trim o != ""))),
         ("closesAt", .date t)] w
      have hm : (App.api.createPollRequest w
          [("question", .str s.pollQuestion),
           ("options", .strs (s.pollOptions.filter (fun o => JS.trim o != ""))),
           ("closesAt", .date t)]).method ≠ "GET" := by
        simp [App.api.createPollRequest]
      generalize App.api.createPoll net _ w = res at hreq
      obtain ⟨r1, w1⟩ := res
      cases r1 with
      | error m => exact App.pollsInv_request net s _ w _ _ hm h rfl hreq
      | ok d =>
      exact App.pollsInv_reload net s _ _ w w1 _ _ hm h hreq rfl rfl rfl

theorem App.pollsInv_handleUpdatePoll (net : Net) (s : App.State) (w : World)
    (h : App.PollsInv net (s, w)) : App.PollsInv net (App.handleUpdatePoll net s w) := by
  unfold App.handleUpdatePoll
  simp only []
  split_ifs
  · exact App.pollsInv_frame net s _ w _ h rfl rfl
  · cases s.editingPoll with
    | none => exact App.pollsInv_frame net s _ w _ h rfl rfl
    | some p =>
      simp only []
      have hreq := App.api.updatePoll_requests net p.id
        [("question", .str s.pollQuestion),
         ("options", .strs (s.pollOptions.filter (fun o => JS.trim o != "")))] w
      have hm : (App.api.updatePollRequest w p.id
          [("question", .str s.pollQuestion),
           ("options", .strs (s.pollOptions.filter (fun o => JS.trim o != "")))]).method
          ≠ "GET" := by
        simp [App.api.updatePollRequest]
      generalize App.api.updatePoll net _ _ w = res at hreq
      obtain ⟨r1, w1⟩ := res
      cases r1 with
      | error m => exact App.pollsInv_request net s _ w _ _ hm h rfl hreq
      | ok d =>
      exact App.pollsInv_reload net s _ _ w w1 _ _ hm h hreq rfl rfl rfl

theorem App.pollsInv_handleClosePoll (net : Net) (confirmed : Bool) (pollId : String)
    (s : App.State) (w : World) (h : App.PollsInv net (s, w)) :
    App.PollsInv net (App.handleClosePoll net confirmed pollId s w) := by
  have hreq := App.api.closePoll_requests net pollId w
  have hm : (App.api.closePollRequest w pollId).method ≠ "GET" := by
    simp [App.api.closePollRequest]
  unfold App.handleClosePoll
  split_ifs
  · exact h
  · simp only []
    generalize App.api.closePoll net pollId w = res at hreq
    obtain ⟨r1, w1⟩ := res
    cases r1 with
    | error m => exact App.pollsInv_request net s _ w _ _ hm h rfl hreq
    | ok d =>
      exact App.pollsInv_reload net s _ _ w w1 _ _ hm h hreq rfl rfl rfl

theorem App.pollsInv_handleDeletePoll (net : Net) (confirmed : Bool) (pollId : String)
    (s : App.State) (w : World) (h : App.PollsInv net (s, w)) :
    App.PollsInv net (App.handleDeletePoll net confirmed pollId s w) := by
  have hreq := App.api.deletePoll_requests net pollId w
  have hm : (App.api.deletePollRequest w pollId).method ≠ "GET" := by
    simp [App.api.deletePollRequest]
  unfold App.handleDeletePoll
  split_ifs
  · exact h
  · simp only []
    generalize App.api.deletePoll net pollId w = res at hreq
    obtain ⟨r1, w1⟩ := res
    cases r1 with
    | error m => exact App.pollsInv_request net s _ w _ _ hm h rfl hreq
    | ok d =>
      exact App.pollsInv_reload net s _ _ w w1 _ _ hm h hreq rfl rfl rfl

/-- Every event keeps the invariant of the `polls` cell. -/
theorem App.pollsInv_step (J : JSON) (net : Net) (e : App.Event) (c c' : App.State × World)
    (h : App.PollsInv net c) (hs : App.step J net e c = some c') : App.PollsInv net c' := by
  obtain ⟨s, w⟩ := c
  cases e <;> simp only [App.step, Option.some.injEq] at hs
  case restore =>
    simp only [Option.map_eq_some'] at hs
    obtain ⟨s', hr, rfl⟩ := hs
    refine App.pollsInv_frame net s _ w _ h ?_ rfl
    unfold App.restoreEffect at hr
    split at hr
    · split_ifs at hr
      · split at hr
        · cases hr
          rfl
        · cases hr
      · cases hr
        rfl
    · cases hr
      rfl
  case refresh => subst hs; exact App.pollsInv_loadPolls net s w h
  case login => subst hs; exact App.pollsInv_handleLogin J net s w h
  case signup => subst hs; exact App.pollsInv_handleSignup J net s w h
  case vote pollId optionId => subst hs; exact App.pollsInv_handleVote net pollId optionId s w h
  case closePoll confirmed pollId =>
    subst hs; exact App.pollsInv_handleClosePoll net confirmed pollId s w h
  case deletePoll confirmed pollId =>
    subst hs; exact App.pollsInv_handleDeletePoll net confirmed pollId s w h
  case createPoll => subst hs; exact App.pollsInv_handleCreatePoll net s w h
  case updatePoll => subst hs; exact App.pollsInv_handleUpdatePoll net s w h
  case detectRole =>
    subst hs
    refine App.pollsInv_frame net s _ w _ h ?_ rfl
    unfold App.detectRoleEffect
    split_ifs <;> rfl
  case removeOption index =>
    subst hs
    refine App.pollsInv_frame net s _ w _ h ?_ rfl
    unfold App.removeOption
    split_ifs <;> rfl
  all_goals
    subst hs
    exact App.pollsInv_frame net s _ w _ h rfl rfl

/-- A vote that fails, for whatever cause, leaves the `handleVote` of
services/api.js in one and the same state. -/
theorem ServicesApi.handleVote_failed (net : Net) (pollId optionId : String)
    (s : ServicesApi.State) (w : World)
    (h : net.answer w.requests (ServicesApi.api.voteRequest w pollId optionId) = none) :
    ServicesApi.handleVote net pollId optionId s w =
      ({ s with loading := false,
                error := "Failed to submit vote. You may have already voted." },
        { w with requests := w.requests ++ [ServicesApi.api.voteRequest w pollId optionId],
                 alerts := w.alerts ++ ["Failed to submit vote. You may have already voted."] })
    := by
  simp only [Net.answer] at h
  simp only [ServicesApi.handleVote, ServicesApi.api.vote, fetch]
  cases hn : net w.requests (ServicesApi.api.voteRequest w pollId optionId) with
  | rejected msg => simp [alert]
  | resolved response =>
    rw [hn] at h
    cases hok : response.ok with
    | false =>
      cases hj : response.json with
      | error e => simp [alert, hok, hj]
      | ok d => cases d <;> simp [alert, hok, hj, Data.error]
    | true =>
      cases hj : response.json with
      | error e => simp [alert, hok, hj]
      | ok d => simp [hok, hj] at h

/-- An update that fails issues its one request and throws. -/
theorem App.api.updatePoll_fail (net : Net) (pollId : String) (pollData : List (String × JVal))
    (w : World)
    (h : net.answer w.requests (App.api.updatePollRequest w pollId pollData) = none) :
    ∃ m, App.api.updatePoll net pollId pollData w =
      (.error m,
        { w with requests := w.requests ++ [App.api.updatePollRequest w pollId pollData] }) := by
  simp only [Net.answer] at h
  simp only [App.api.updatePoll, fetch]
  cases hn : net w.requests (App.api.updatePollRequest w pollId pollData) with
  | rejected msg => exact ⟨msg, rfl⟩
  | resolved response =>
    rw [hn] at h
    cases hok : response.ok with
    | false => exact ⟨"Failed to update poll", by simp [hok]⟩
    | true =>
      cases hj : response.json with
      | error e => exact ⟨e, by simp [hok, hj]⟩
      | ok d => simp [hok, hj] at h

/-- When `handleCreatePoll` (App.js) issues its request, the `closesAt` it sends
is the submission time plus the hours `parseInt` read from the duration input. -/
theorem App.handleCreatePoll_closesAt (net : Net) (s : App.State) (w : World) (hours : Int)
    (hq : JS.trim s.pollQuestion ≠ "")
    (hopts : 2 ≤ (s.pollOptions.filter (fun o => JS.trim o != "")).length)
    (hparse : JS.parseInt s.pollDuration = some hours)
    (hrange : -8640000000000000 ≤ w.now + hours * 3600000 ∧
      w.now + hours * 3600000 ≤ 8640000000000000) :
    ((App.handleCreatePoll net s w).2.requests.drop w.requests.length).head?.bind
      Request.closesAt = some (w.now + hours * 3600000) := by
  have hq2 : ¬ (JS.trim s.pollQuestion = "") := hq
  have hopts2 : ¬ ((s.pollOptions.filter (fun o => JS.trim o != "")).length < 2) := by omega
  have hadd : JS.addHours w.now (JS.parseInt s.pollDuration) = some (w.now + hours * 3600000) := by
    simp [JS.addHours, hparse, hrange]
  have hreq := App.api.createPoll_requests net
    [("question", .str s.pollQuestion),
     ("options", .strs (s.pollOptions.filter (fun o => JS.trim o != ""))),
     ("closesAt", .date (w.now + hours * 3600000))] w
  simp only [App.handleCreatePoll, if_neg hq2, if_neg hopts2, hadd]
  generalize App.api.createPoll net _ w = res at hreq
  obtain ⟨r1, w1⟩ := res
  cases r1 with
  | error m =>
    simp only [] at hreq
    simp [alert, hreq, App.api.createPollRequest, Request.closesAt, List.lookup_cons]
  | ok d =>
    simp only [] at hreq
    simp [alert, App.loadPolls_eq, hreq, App.api.createPollRequest, Request.closesAt,
      List.lookup_cons]

/-- Filtering an enumerated list on "index differs from `m`" keeps everything
when `m` is below the first index. -/
theorem enumFrom_filter_ne_of_lt {α : Type} (l : List α) (n m : Nat) (h : m < n) :
    ((l.enumFrom n).filter (fun p => p.1 != m)).map (fun p => p.2) = l := by
  induction l generalizing n with
  | nil => rfl
  | cons a l ih =>
    have hne : (n != m) = true := by simpa using (Nat.ne_of_gt h)
    simp only [List.enumFrom_cons, List.filter_cons, hne, if_true, List.map_cons]
    rw [ih (n + 1) (by omega)]

/-- Filtering an enumerated list on "index differs from `n + i`" removes the entry
at position `i`. -/
theorem enumFrom_filter_ne_eq_eraseIdx {α : Type} (l : List α) (n i : Nat) :
    ((l.enumFrom n).filter (fun p => p.1 != n + i)).map (fun p => p.2) = l.eraseIdx i := by
  induction l generalizing n i with
  | nil => rfl
  | cons a l ih =>
    cases i with
    | zero =>
      have hne : (n != n + 0) = false := by simp
      simp only [List.enumFrom_cons, List.filter_cons, hne, List.eraseIdx_cons_zero]
      exact enumFrom_filter_ne_of_lt l (n + 1) (n + 0) (by omega)
    | succ k =>
      have hne : (n != n + (k + 1)) = true := by simp
      simp only [List.enumFrom_cons, List.filter_cons, hne, if_true, List.map_cons,
        List.eraseIdx_cons_succ]
      have := ih (n + 1) k
      rw [show n + 1 + k = n + (k + 1) by omega] at this
      rw [this]

/-- The array `pollOptions.filter((_, i) => i !== index)` is the list with the
entry at `index` erased. -/
theorem enum_filter_ne_eq_eraseIdx {α : Type} (l : List α) (i : Nat) :
    (l.enum.filter (fun p => p.1 != i)).map (fun p => p.2) = l.eraseIdx i := by
  have := enumFrom_filter_ne_eq_eraseIdx l 0 i
  simpa [List.enum] using this

theorem App.loadPolls_pollOptions (net : Net) (s : App.State) (w : World) :
    (App.loadPolls net s w).1.pollOptions = s.pollOptions := by
  rw [App.loadPolls_eq]

theorem App.handleLogin_pollOptions (J : JSON) (net : Net) (s : App.State) (w : World) :
    (App.handleLogin J net s w).1.pollOptions = s.pollOptions := by
  unfold App.handleLogin
  split_ifs
  · rfl
  · simp only []
    generalize App.api.login J net s.email s.password w = res
    obtain ⟨r1, w1⟩ := res
    cases r1 <;> rfl

theorem App.handleSignup_pollOptions (J : JSON) (net : Net) (s : App.State) (w : World) :
    (App.handleSignup J net s w).1.pollOptions = s.pollOptions := by
  unfold App.handleSignup
  split_ifs
  · rfl
  · rfl
  · simp only []
    generalize App.api.signup J net s.email s.password s.name w = res
    obtain ⟨r1, w1⟩ := res
    cases r1 <;> rfl

theorem App.handleVote_pollOptions (net : Net) (pollId optionId : String) (s : App.State)
    (w : World) : (App.handleVote net pollId optionId s w).1.pollOptions = s.pollOptions := by
  unfold App.handleVote
  simp only []
  generalize App.api.vote net pollId optionId w = res
  obtain ⟨r1, w1⟩ := res
  cases r1 with
  | error m => rfl
  | ok d => simp [App.loadPolls_eq]

theorem App.handleClosePoll_pollOptions (net : Net) (confirmed : Bool) (pollId : String)
    (s : App.State) (w : World) :
    (App.handleClosePoll net confirmed pollId s w).1.pollOptions = s.pollOptions := by
  unfold App.handleClosePoll
  split_ifs
  · rfl
  · simp only []
    generalize App.api.closePoll net pollId w = res
    obtain ⟨r1, w1⟩ := res
    cases r1 with
    | error m => rfl
    | ok d => simp [App.loadPolls_eq]

theorem App.handleDeletePoll_pollOptions (net : Net) (confirmed : Bool) (pollId : String)
    (s : App.State) (w : World) :
    (App.handleDeletePoll net confirmed pollId s w).1.pollOptions = s.pollOptions := by
  unfold App.handleDeletePoll
  split_ifs
  · rfl
  · simp only []
    generalize App.api.deletePoll net pollId w = res
    obtain ⟨r1, w1⟩ := res
    cases r1 with
    | error m => rfl
    | ok d => simp [App.loadPolls_eq]

theorem App.handleCreatePoll_pollOptions (net : Net) (s : App.State) (w : World) :
    (App.handleCreatePoll net s w).1.pollOptions = s.pollOptions ∨
    (App.handleCreatePoll net s w).1.pollOptions = ["", ""] := by
  unfold App.handleCreatePoll
  simp only []
  split_ifs
  · exact Or.inl rfl
  · exact Or.inl rfl
  · cases JS.addHours w.now (JS.parseInt s.pollDuration) with
    | none => exact Or.inl rfl
    | some t =>
      simp only []
      generalize App.api.createPoll net _ w = res
      obtain ⟨r1, w1⟩ := res
      cases r1 with
      | error m => exact Or.inl rfl
      | ok d => exact Or.inr rfl

theorem App.handleUpdatePoll_pollOptions (net : Net) (s : App.State) (w : World) :
    (App.handleUpdatePoll net s w).1.pollOptions = s.pollOptions ∨
    (App.handleUpdatePoll net s w).1.pollOptions = ["", ""] := by
  unfold App.handleUpdatePoll
  simp only []
  split_ifs
  · exact Or.inl rfl
  · cases s.editingPoll with
    | none => exact Or.inl rfl
    | some p =>
      simp only []
      generalize App.api.updatePoll net _ _ w = res
      obtain ⟨r1, w1⟩ := res
      cases r1 with
      | error m => exact Or.inl rfl
      | ok d => exact Or.inr rfl

theorem ServicesApi.handleCreatePoll_newPollOptions (net : Net) (s : ServicesApi.State)
    (w : World) :
    (ServicesApi.handleCreatePoll net s w).1.newPollOptions = s.newPollOptions ∨
    (ServicesApi.handleCreatePoll net s w).1.newPollOptions = ["", ""] := by
  unfold ServicesApi.handleCreatePoll
  simp only []
  split_ifs
  · exact Or.inl rfl
  · exact Or.inl rfl
  · cases JS.addHours w.now (JS.parseInt s.pollDuration) with
    | none => exact Or.inl rfl
    | some t =>
      simp only []
      generalize ServicesApi.api.createPoll net _ w = res
      obtain ⟨r1, w1⟩ := res
      cases r1 with
      | error m => exact Or.inl rfl
      | ok d => exact Or.inr rfl

/-- Removing an entry from a list of more than two leaves at least two. -/
theorem eraseIdx_length_ge_two {α : Type} (l : List α) (i : Nat) (h : 2 < l.length) :
    2 ≤ (l.eraseIdx i).length := by
  have := List.length_eraseIdx_le l i
  rw [List.length_eraseIdx]
  split <;> omega

/-- Every event that passes `formGuard` keeps at least two entries in the option
list of App.js. -/
theorem App.step_pollOptions_length (J : JSON) (net : Net) (e : App.Event)
    (c c' : App.State × World) (h : 2 ≤ c.1.pollOptions.length)
    (hg : App.formGuard e c.1 = true) (hs : App.step J net e c = some c') :
    2 ≤ c'.1.pollOptions.length := by
  obtain ⟨s, w⟩ := c
  cases e <;> simp only [App.step, Option.some.injEq] at hs
  case restore =>
    simp only [Option.map_eq_some'] at hs
    obtain ⟨s', hr, rfl⟩ := hs
    unfold App.restoreEffect at hr
    split at hr
    · split_ifs at hr
      · split at hr
        · cases hr
          exact h
        · cases hr
      · cases hr
        exact h
    · cases hr
      exact h
  case refresh => subst hs; rw [App.loadPolls_pollOptions]; exact h
  case login => subst hs; rw [App.handleLogin_pollOptions]; exact h
  case signup => subst hs; rw [App.handleSignup_pollOptions]; exact h
  case vote pollId optionId => subst hs; rw [App.handleVote_pollOptions]; exact h
  case closePoll confirmed pollId => subst hs; rw [App.handleClosePoll_pollOptions]; exact h
  case deletePoll confirmed pollId => subst hs; rw [App.handleDeletePoll_pollOptions]; exact h
  case createPoll =>
    subst hs
    rcases App.handleCreatePoll_pollOptions net s w with h1 | h1 <;> rw [h1]
    · exact h
    · decide
  case updatePoll =>
    subst hs
    rcases App.handleUpdatePoll_pollOptions net s w with h1 | h1 <;> rw [h1]
    · exact h
    · decide
  case detectRole =>
    subst hs
    unfold App.detectRoleEffect
    split_ifs <;> exact h
  case editPoll poll =>
    subst hs
    simpa [App.formGuard, App.handleEditPoll] using hg
  case addOption =>
    subst hs
    simp only [App.addOption, List.length_append, List.length_singleton]
    have : 2 ≤ s.pollOptions.length := h
    omega
  case updateOption index value =>
    subst hs
    simpa [App.updateOption] using h
  case removeOption index =>
    subst hs
    unfold App.removeOption
    split_ifs with hlen
    · simp only [enum_filter_ne_eq_eraseIdx]
      exact eraseIdx_length_ge_two _ _ hlen
    · exact h
  case navCreate => subst hs; exact Nat.le_refl 2
  case cancel => subst hs; exact Nat.le_refl 2
  all_goals
    subst hs
    exact h

/-- The code units of a string are as many as its `length` says. -/
theorem JS.units_length (s : String) : (JS.units s).length = JS.length s := by
  unfold JS.units JS.length
  induction s.data with
  | nil => rfl
  | cons c cs ih =>
    simp only [List.map_cons, List.flatten_cons, List.length_append, List.sum_cons, ih]
    congr 1
    unfold JS.charUnits JS.utf16Units
    by_cases h : c.val.toNat < 0x10000 <;> simp [h]

theorem App.foldl_votes (options : List PollOption) (acc : Nat) :
    options.foldl (fun sum opt => sum + opt.votes.getD 0) acc
      = acc + (options.map (fun opt => opt.votes.getD 0)).sum := by
  induction options generalizing acc with
  | nil => simp
  | cons o os ih => simp [List.foldl_cons, ih, Nat.add_assoc]

/-- The total of App.js is the sum of the vote counts, a missing count counting
as 0. -/
theorem App.totalVotes_eq_sum (options : List PollOption) :
    App.totalVotes options = (options.map (fun opt => opt.votes.getD 0)).sum := by
  simp [App.totalVotes, App.foldl_votes]

/-- The figures of a poll card of App.js when every option carries a vote count:
the total is the sum of the counts; with a zero total every percentage is 0; with
a positive total each percentage is `votes * 100 / total`, lies between 0 and
100, and the percentages sum to 100. -/
theorem App.percentages_of_counted_options (options : List PollOption)
    (hall : ∀ o ∈ options, ∃ v, o.votes = some v) :
    App.totalVotes options = (options.map (fun opt => opt.votes.getD 0)).sum ∧
    (App.totalVotes options = 0 → ∀ o ∈ options, App.percentage options o = some 0) ∧
    (0 < App.totalVotes options →
      (∀ o ∈ options, ∀ v, o.votes = some v →
        App.percentage options o = some ((v : ℚ) * 100 / (App.totalVotes options : ℚ)) ∧
        (0 : ℚ) ≤ (v : ℚ) * 100 / (App.totalVotes options : ℚ) ∧
        (v : ℚ) * 100 / (App.totalVotes options : ℚ) ≤ 100) ∧
      (options.map (fun o => (App.percentage options o).getD 0)).sum = 100) := by
  refine ⟨App.totalVotes_eq_sum options, ?_, ?_⟩
  · intro h0 o _
    simp [App.percentage, h0]
  · intro hpos
    have hT : (0 : ℚ) < (App.totalVotes options : ℚ) := by exact_mod_cast hpos
    constructor
    · intro o ho v hv
      have hle : v ≤ App.totalVotes options := by
        rw [App.totalVotes_eq_sum]
        have hmem : o.votes.getD 0 ∈ options.map (fun opt => opt.votes.getD 0) :=
          List.mem_map.2 ⟨o, ho, rfl⟩
        have := List.le_sum_of_mem hmem
        simpa [hv] using this
      have hleq : (v : ℚ) ≤ (App.totalVotes options : ℚ) := by exact_mod_cast hle
      refine ⟨?_, ?_, ?_⟩
      · simp only [App.percentage, if_pos hpos, hv]
        congr 1
        field_simp
      · positivity
      · rw [div_le_iff₀ hT]
        nlinarith
    · have hmap : options.map (fun o => (App.percentage options o).getD 0)
          = options.map (fun o =>
              ((o.votes.getD 0 : ℕ) : ℚ) * (100 / (App.totalVotes options : ℚ))) := by
        apply List.map_congr_left
        intro o ho
        obtain ⟨v, hv⟩ := hall o ho
        simp only [App.percentage, if_pos hpos, hv, Option.getD_some]
        field_simp
      rw [hmap, List.sum_map_mul_right]
      have hcast : (options.map (fun o => ((o.votes.getD 0 : ℕ) : ℚ))).sum
          = (App.totalVotes options : ℚ) := by
        rw [App.totalVotes_eq_sum, Nat.cast_list_sum, List.map_map]
        rfl
      rw [hcast]
      field_simp

theorem ServicesApi.loadPolls_requests (net : Net) (s : ServicesApi.State) (w : World) :
    (ServicesApi.loadPolls net s w).2.requests
      = w.requests ++ [ServicesApi.api.getPollsRequest w] := by
  have hreq := ServicesApi.api.getPolls_issues_one_request net w
  unfold ServicesApi.loadPolls
  simp only []
  generalize ServicesApi.api.getPolls net w = res at hreq
  obtain ⟨r1, w1⟩ := res
  cases r1 <;> exact hreq

/-- An accepted create submission of App.js issues the create request first. -/
theorem App.handleCreatePoll_issues (net : Net) (s : App.State) (w : World) (t : Int)
    (hq : JS.trim s.pollQuestion ≠ "")
    (hopts : 2 ≤ (s.pollOptions.filter (fun o => JS.trim o != "")).length)
    (hdate : JS.addHours w.now (JS.parseInt s.pollDuration) = some t) :
    ∃ rest, (App.handleCreatePoll net s w).2.requests =
      w.requests ++ App.api.createPollRequest w
        [("question", .str s.pollQuestion),
         ("options", .strs (s.pollOptions.filter (fun o => JS.trim o != ""))),
         ("closesAt", .date t)] :: rest := by
  have hq2 : ¬ (JS.trim s.pollQuestion = "") := hq
  have hopts2 : ¬ ((s.pollOptions.filter (fun o => JS.trim o != "")).length < 2) := by omega
  have hreq := App.api.createPoll_requests net
    [("question", .str s.pollQuestion),
     ("options", .strs (s.pollOptions.filter (fun o => JS.trim o != ""))),
     ("closesAt", .date t)] w
  simp only [App.handleCreatePoll, if_neg hq2, if_neg hopts2, hdate]
  generalize App.api.createPoll net _ w = res at hreq
  obtain ⟨r1, w1⟩ := res
  cases r1 with
  | error m => exact ⟨[], by simpa [alert] using hreq⟩
  | ok d =>
    simp only [] at hreq
    exact ⟨[App.api.getPollsRequest w1], by simp [alert, App.loadPolls_eq, hreq]⟩

/-- An accepted update submission of App.js issues the update request first. -/
theorem App.handleUpdatePoll_issues (net : Net) (s : App.State) (w : World) (p : Poll)
    (hq : JS.trim s.pollQuestion ≠ "")
    (hopts : 2 ≤ (s.pollOptions.filter (fun o => JS.trim o != "")).length)
    (hedit : s.editingPoll = some p) :
    ∃ rest, (App.handleUpdatePoll net s w).2.requests =
      w.requests ++ App.api.updatePollRequest w p.id
        [("question", .str s.pollQuestion),
         ("options", .strs (s.pollOptions.filter (fun o => JS.trim o != "")))] :: rest := by
  have hc : ¬ (JS.trim s.pollQuestion = "" ∨
      (s.pollOptions.filter (fun o => JS.trim o != "")).length < 2) := by
    intro hc
    rcases hc with hc | hc
    · exact hq hc
    · omega
  have hreq := App.api.updatePoll_requests net p.id
    [("question", .str s.pollQuestion),
     ("options", .strs (s.pollOptions.filter (fun o => JS.trim o != "")))] w
  simp only [App.handleUpdatePoll, if_neg hc, hedit]
  generalize App.api.updatePoll net _ _ w = res at hreq
  obtain ⟨r1, w1⟩ := res
  cases r1 with
  | error m => exact ⟨[], by simpa [alert] using hreq⟩
  | ok d =>
    simp only [] at hreq
    exact ⟨[App.api.getPollsRequest w1], by simp [alert, App.loadPolls_eq, hreq]⟩

/-- An accepted create submission of services/api.js issues the create request
first. -/
theorem ServicesApi.handleCreatePoll_issues_create_first (net : Net)
    (s : ServicesApi.State) (w : World) (t : Int) (hq : JS.trim s.newPollQuestion ≠ "")
    (hopts : 2 ≤ (s.newPollOptions.filter (fun o => JS.trim o != "")).length)
    (hdate : JS.addHours w.now (JS.parseInt s.pollDuration) = some t) :
    ∃ rest, (ServicesApi.handleCreatePoll net s w).2.requests =
      w.requests ++ ServicesApi.api.createPollRequest w
        [("question", .str s.newPollQuestion),
         ("options", .strs (s.newPollOptions.filter (fun o => JS.trim o != ""))),
         ("closesAt", .date t)] :: rest := by
  have hq2 : ¬ (JS.trim s.newPollQuestion = "") := hq
  have hopts2 : ¬ ((s.newPollOptions.filter (fun o => JS.trim o != "")).length < 2) := by omega
  have hreq := ServicesApi.api.createPoll_issues_one_request net
    [("question", .str s.newPollQuestion),
     ("options", .strs (s.newPollOptions.filter (fun o => JS.trim o != ""))),
     ("closesAt", .date t)] w
  simp only [ServicesApi.handleCreatePoll, if_neg hq2, if_neg hopts2, hdate]
  generalize ServicesApi.api.createPoll net _ w = res at hreq
  obtain ⟨r1, w1⟩ := res
  cases r1 with
  | error m => exact ⟨[], by simpa [alert] using hreq⟩
  | ok d =>
    simp only [] at hreq
    refine ⟨[ServicesApi.api.getPollsRequest w1], ?_⟩
    simp [alert, ServicesApi.loadPolls_requests, hreq]

theorem App.api.vote_fail (net : Net) (pollId optionId : String) (w : World)
    (h : net.answer w.requests (App.api.voteRequest w pollId optionId) = none) :
    ∃ m, App.api.vote net pollId optionId w =
      (.error m, { w with requests := w.requests ++ [App.api.voteRequest w pollId optionId] }) := by
  simp only [Net.answer] at h
  simp only [App.api.vote, fetch]
  cases hn : net w.requests (App.api.voteRequest w pollId optionId) with
  | rejected msg => exact ⟨msg, rfl⟩
  | resolved response =>
    rw [hn] at h
    cases hok : response.ok with
    | false => exact ⟨(if response.text = "" then "Failed to vote" else response.text), by simp [hok]⟩
    | true =>
      cases hj : response.json with
      | error e => exact ⟨e, by simp [hok, hj]⟩
      | ok d => simp [hok, hj] at h

theorem App.api.createPoll_fail (net : Net) (pollData : List (String × JVal)) (w : World)
    (h : net.answer w.requests (App.api.createPollRequest w pollData) = none) :
    ∃ m, App.api.createPoll net pollData w =
      (.error m, { w with requests := w.requests ++ [App.api.createPollRequest w pollData] }) := by
  simp only [Net.answer] at h
  simp only [App.api.createPoll, fetch]
  cases hn : net w.requests (App.api.createPollRequest w pollData) with
  | rejected msg => exact ⟨msg, rfl⟩
  | resolved response =>
    rw [hn] at h
    cases hok : response.ok with
    | false => exact ⟨"Failed to create poll", by simp [hok]⟩
    | true =>
      cases hj : response.json with
      | error e => exact ⟨e, by simp [hok, hj]⟩
      | ok d => simp [hok, hj] at h

theorem App.api.closePoll_fail (net : Net) (pollId : String) (w : World)
    (h : net.answer w.requests (App.api.closePollRequest w pollId) = none) :
    ∃ m, App.api.closePoll net pollId w =
      (.error m, { w with requests := w.requests ++ [App.api.closePollRequest w pollId] }) := by
  simp only [Net.answer] at h
  simp only [App.api.closePoll, fetch]
  cases hn : net w.requests (App.api.closePollRequest w pollId) with
  | rejected msg => exact ⟨msg, rfl⟩
  | resolved response =>
    rw [hn] at h
    cases hok : response.ok with
    | false => exact ⟨"Failed to close poll", by simp [hok]⟩
    | true =>
      cases hj : response.json with
      | error e => exact ⟨e, by simp [hok, hj]⟩
      | ok d => simp [hok, hj] at h

theorem App.api.deletePoll_fail (net : Net) (pollId : String) (w : World)
    (h : net.accepts w.requests (App.api.deletePollRequest w pollId) = false) :
    ∃ m, App.api.deletePoll net pollId w =
      (.error m, { w with requests := w.requests ++ [App.api.deletePollRequest w pollId] }) := by
  simp only [Net.accepts] at h
  simp only [App.api.deletePoll, fetch]
  cases hn : net w.requests (App.api.deletePollRequest w pollId) with
  | rejected msg => exact ⟨msg, rfl⟩
  | resolved response =>
    rw [hn] at h
    simp only [] at h
    exact ⟨"Failed to delete poll", by simp [h]⟩

theorem App.api.login_fail (J : JSON) (net : Net) (email password : String) (w : World)
    (h : net.answer w.requests (App.api.loginRequest w email password) = none) :
    ∃ m, App.api.login J net email password w =
      (.error m, { w with requests := w.requests ++ [App.api.loginRequest w email password] })
    := by
  simp only [Net.answer] at h
  simp only [App.api.login, fetch]
  cases hn : net w.requests (App.api.loginRequest w email password) with
  | rejected msg => exact ⟨msg, rfl⟩
  | resolved response =>
    rw [hn] at h
    cases hok : response.ok with
    | false => exact ⟨"Login failed", by simp [hok]⟩
    | true =>
      cases hj : response.json with
      | error e => exact ⟨e, by simp [hok, hj]⟩
      | ok d => simp [hok, hj] at h

theorem App.api.signup_fail (J : JSON) (net : Net) (email password name : String) (w : World)
    (h : net.answer w.requests (App.api.signupRequest w email password name) = none) :
    ∃ m, App.api.signup J net email password name w =
      (.error m,
        { w with requests := w.requests ++ [App.api.signupRequest w email password name] }) := by
  simp only [Net.answer] at h
  simp only [App.api.signup, fetch]
  cases hn : net w.requests (App.api.signupRequest w email password name) with
  | rejected msg => exact ⟨msg, rfl⟩
  | resolved response =>
    rw [hn] at h
    cases hok : response.ok with
    | false =>
      exact ⟨(if response.text = "" then "Signup failed" else response.text), by simp [hok]⟩
    | true =>
      cases hj : response.json with
      | error e => exact ⟨e, by simp [hok, hj]⟩
      | ok d => simp [hok, hj] at h

theorem App.loadPolls_currentUser (net : Net) (s : App.State) (w : World) :
    (App.loadPolls net s w).1.currentUser = s.currentUser := by
  rw [App.loadPolls_eq]

/-- After a render, the re-run of the refresh effect keeps the invariant of the
timers. -/
theorem App.timersInv_afterRender (net : Net) (c : App.Config) (s' : App.State) (w' : World)
    (h : App.TimersInv c) :
    App.TimersInv (App.afterRender net c.state.currentUser { c with state := s', world := w' })
    := by
  obtain ⟨hids, hnone, hsome⟩ := h
  unfold App.afterRender
  by_cases hsame : s'.currentUser = c.state.currentUser
  · rw [if_pos hsame]
    refine ⟨hids, ?_, ?_⟩
    · intro hn
      exact hnone (hsame ▸ hn)
    · intro hn
      exact hsome (hsame ▸ hn)
  · rw [if_neg hsame]
    have hclean : (App.refreshCleanup c.cleanup c.timers).active = [] ∧
        (App.refreshCleanup c.cleanup c.timers).nextId = c.timers.nextId := by
      by_cases hold : c.state.currentUser = none
      · obtain ⟨ha, hcl⟩ := hnone hold
        simp [App.refreshCleanup, hcl, ha]
      · obtain ⟨id, ha, hcl⟩ := hsome hold
        simp [App.refreshCleanup, hcl, ha, Timers.clearInterval]
    obtain ⟨hca, hcn⟩ := hclean
    cases hu : s'.currentUser with
    | none =>
      simp only [App.refreshEffect, hu]
      refine ⟨?_, ?_, ?_⟩
      · intro i hi
        simp [hca] at hi
      · intro _
        exact ⟨hca, rfl⟩
      · intro hn
        exact absurd hu hn
    | some u =>
      simp only [App.refreshEffect, hu, Timers.setInterval, hca, List.nil_append]
      refine ⟨?_, ?_, ?_⟩
      · intro i hi
        simp only [List.mem_singleton] at hi
        subst hi
        exact Nat.lt_succ_self _
      · intro hn
        rw [App.loadPolls_currentUser] at hn
        exact absurd (hu ▸ hn) (by simp)
      · intro _
        exact ⟨_, rfl, rfl⟩

/-- The invariant of the timers holds over the whole life of the component. -/
theorem App.lifecycle_timersInv (J : JSON) (net : Net) (c : App.Config)
    (h : App.Lifecycle J net c) : App.TimersInv c := by
  induction h with
  | mount w =>
    refine ⟨?_, ?_, ?_⟩
    · intro i hi
      simp at hi
    · intro _
      exact ⟨rfl, rfl⟩
    · intro hn
      exact absurd rfl hn
  | event e c s' w' _ _ _ ih => exact App.timersInv_afterRender net c s' w' ih
  | tick id c _ ih =>
    obtain ⟨hids, hnone, hsome⟩ := ih
    unfold App.tick
    split_ifs
    · refine ⟨hids, ?_, ?_⟩
      · intro hn
        rw [App.loadPolls_currentUser] at hn
        exact hnone hn
      · intro hn
        rw [App.loadPolls_currentUser] at hn
        exact hsome hn
    · exact ⟨hids, hnone, hsome⟩

/-- A create submission of App.js that issues a request passed both local checks
and had a valid closing date. -/
theorem App.handleCreatePoll_submitted (net : Net) (s : App.State) (w : World)
    (h : (App.handleCreatePoll net s w).2.requests ≠ w.requests) :
    JS.trim s.pollQuestion ≠ "" ∧
    2 ≤ (s.pollOptions.filter (fun o => JS.trim o != "")).length ∧
    ∃ t, JS.addHours w.now (JS.parseInt s.pollDuration) = some t := by
  by_cases hq : JS.trim s.pollQuestion = ""
  · exact absurd (by simp [App.handleCreatePoll, hq]) h
  by_cases ho : (s.pollOptions.filter (fun o => JS.trim o != "")).length < 2
  · exact absurd (by simp [App.handleCreatePoll, hq, ho]) h
  cases hd : JS.addHours w.now (JS.parseInt s.pollDuration) with
  | none => exact absurd (by simp [App.handleCreatePoll, hq, ho, hd, alert]) h
  | some t => exact ⟨hq, by omega, t, rfl⟩

/-- An update submission of App.js that issues a request passed the local check
and had a poll being edited. -/
theorem App.handleUpdatePoll_submitted (net : Net) (s : App.State) (w : World)
    (h : (App.handleUpdatePoll net s w).2.requests ≠ w.requests) :
    JS.trim s.pollQuestion ≠ "" ∧
    2 ≤ (s.pollOptions.filter (fun o => JS.trim o != "")).length ∧
    ∃ p, s.editingPoll = some p := by
  by_cases hc : JS.trim s.pollQuestion = "" ∨
      (s.pollOptions.filter (fun o => JS.trim o != "")).length < 2
  · exact absurd (by simp [App.handleUpdatePoll, hc]) h
  cases he : s.editingPoll with
  | none => exact absurd (by simp [App.handleUpdatePoll, hc, he, alert]) h
  | some p =>
    have hq : JS.trim s.pollQuestion ≠ "" := fun hq => hc (Or.inl hq)
    have ho : ¬ (s.pollOptions.filter (fun o => JS.trim o != "")).length < 2 :=
      fun ho => hc (Or.inr ho)
    exact ⟨hq, by omega, p, rfl⟩

/-- A create submission of services/api.js that issues a request passed both
local checks and had a valid closing date. -/
theorem ServicesApi.handleCreatePoll_passed_checks (net : Net) (s : ServicesApi.State) (w : World)
    (h : (ServicesApi.handleCreatePoll net s w).2.requests ≠ w.requests) :
    JS.trim s.newPollQuestion ≠ "" ∧
    2 ≤ (s.newPollOptions.filter (fun o => JS.trim o != "")).length ∧
    ∃ t, JS.addHours w.now (JS.parseInt s.pollDuration) = some t := by
  by_cases hq : JS.trim s.newPollQuestion = ""
  · exact absurd (by simp [ServicesApi.handleCreatePoll, hq]) h
  by_cases ho : (s.newPollOptions.filter (fun o => JS.trim o != "")).length < 2
  · exact absurd (by simp [ServicesApi.handleCreatePoll, hq, ho]) h
  cases hd : JS.addHours w.now (JS.parseInt s.pollDuration) with
  | none => exact absurd (by simp [ServicesApi.handleCreatePoll, hq, ho, hd]) h
  | some t => exact ⟨hq, by omega, t, rfl⟩

/-- A request that is the first one issued and carries the question and the
filtered entries of the form, at least 2 of them, sends the entries of the
form. -/
theorem sendsEntries_of_first_request (w w' : World) (r : Request) (rest : List Request)
    (question : String) (form : List String)
    (hreq : w'.requests = w.requests ++ r :: rest)
    (hq : r.field "question" = some (.str question))
    (ho : r.field "options" = some (.strs (form.filter (fun o => JS.trim o != ""))))
    (h2 : 2 ≤ (form.filter (fun o => JS.trim o != "")).length) :
    SendsEntries w w' question form := by
  refine ⟨r, rest, _, hreq, hq, ho, rfl, List.filter_sublist form, ?_, ?_, h2⟩
  · intro o hne
    exact List.count_filter (by simpa using hne)
  · intro o hmem
    have h := (List.mem_filter.1 hmem).2
    have hne : JS.trim o ≠ "" := by simpa using h
    exact ⟨JS.trim_ne_empty o hne, hne⟩

/-- An action whose handler leaves `currentUser` as it was issues the requests of
its handler: the refresh effect does not run again. -/
theorem App.issues_of_same_user (J : JSON) (net : Net) (e : App.Event) (c : App.Config)
    (r : App.State × World) (reqs : List Request)
    (hs : App.step J net e (c.state, c.world) = some r)
    (hu : r.1.currentUser = c.state.currentUser)
    (hr : r.2.requests = c.world.requests ++ reqs) : App.Issues J net e c reqs := by
  refine ⟨{ c with state := r.1, world := r.2 }, ?_, hr⟩
  simp [App.act, hs, App.afterRender, hu]

/-- An action whose handler sets a current user where there was none issues the
requests of its handler and then the `getPolls` of the refresh effect. -/
theorem App.issues_of_new_user (J : JSON) (net : Net) (e : App.Event) (c : App.Config)
    (r : App.State × World) (reqs : List Request) (user : User)
    (hs : App.step J net e (c.state, c.world) = some r)
    (hold : c.state.currentUser = none) (hu : r.1.currentUser = some user)
    (hr : r.2.requests = c.world.requests ++ reqs) :
    App.Issues J net e c (reqs ++ [App.api.getPollsRequest r.2]) := by
  refine ⟨_, by simp only [App.act, hs, Option.map_some']; rfl, ?_⟩
  simp [App.afterRender, hold, App.refreshEffect, hu, App.loadPolls_eq, hr]

/-- What `api.login` (App.js) does with a successful response whose body
parses. -/
theorem App.api.login_eq (J : JSON) (net : Net) (email password : String) (w : World) (d : Data)
    (h : net.answer w.requests (App.api.loginRequest w email password) = some d) :
    App.api.login J net email password w =
      if d = .null then
        (.error (JS.typeErrorMessage "null" "token"),
          { w with requests := w.requests ++ [App.api.loginRequest w email password] })
      else
        (.ok d,
          { w with localStorage := (w.localStorage.setItem "token" (JS.toStr d.token)).setItem
                                      "user" (J.stringifyOpt d.user),
                   requests := w.requests ++ [App.api.loginRequest w email password] }) := by
  simp only [App.api.login, fetch]
  simp only [Net.answer] at h
  cases hn : net w.requests (App.api.loginRequest w email password) with
  | rejected msg => simp [hn] at h
  | resolved response =>
    cases hok : response.ok <;> cases hj : response.json <;> simp_all

/-- What `api.signup` (App.js) does with a successful response whose body
parses. -/
theorem App.api.signup_eq (J : JSON) (net : Net) (email password name : String) (w : World)
    (d : Data)
    (h : net.answer w.requests (App.api.signupRequest w email password name) = some d) :
    App.api.signup J net email password name w =
      if d = .null then
        (.error (JS.typeErrorMessage "null" "token"),
          { w with requests := w.requests ++ [App.api.signupRequest w email password name] })
      else
        (.ok d,
          { w with localStorage := (w.localStorage.setItem "token" (JS.toStr d.token)).setItem
                                      "user" (J.stringifyOpt d.user),
                   requests := w.requests ++ [App.api.signupRequest w email password name] })
    := by
  simp only [App.api.signup, fetch]
  simp only [Net.answer] at h
  cases hn : net w.requests (App.api.signupRequest w email password name) with
  | rejected msg => simp [hn] at h
  | resolved response =>
    cases hok : response.ok <;> cases hj : response.json <;> simp_all

/-- The requests of a login submission that passes the local check, from a state
with no current user. -/
theorem App.login_issues (J : JSON) (net : Net) (c : App.Config)
    (hold : c.state.currentUser = none) (he : c.state.email ≠ "") (hp : c.state.password ≠ "") :
    App.Issues J net .login c
      (App.api.loginRequest c.world c.state.email c.state.password ::
        match net.answer c.world.requests
            (App.api.loginRequest c.world c.state.email c.state.password) with
        | some (.auth token user) =>
          [App.api.getPollsRequest
            { c.world with localStorage := (c.world.localStorage.setItem "token" token).setItem
                                             "user" (J.stringify user) }]
        | _ => []) := by
  have hc : ¬ (c.state.email = "" ∨ c.state.password = "") := by tauto
  have hstep : App.step J net .login (c.state, c.world)
      = some (App.handleLogin J net c.state c.world) := rfl
  cases ha : net.answer c.world.requests
      (App.api.loginRequest c.world c.state.email c.state.password) with
  | none =>
    obtain ⟨m, hm⟩ := App.api.login_fail J net c.state.email c.state.password c.world ha
    refine App.issues_of_same_user J net .login c _ _ hstep ?_ ?_ <;>
      simp [App.handleLogin, hc, hm]
  | some d =>
    have hm := App.api.login_eq J net c.state.email c.state.password c.world d ha
    cases d with
    | auth token user =>
      have h := App.issues_of_new_user J net .login c _
        [App.api.loginRequest c.world c.state.email c.state.password] user hstep hold
        (by simp [App.handleLogin, hc, hm, Data.user])
        (by simp [App.handleLogin, hc, hm])
      simpa [App.handleLogin, hc, hm, Data.token, Data.user, JS.toStr, JSON.stringifyOpt,
        App.api.getPollsRequest, App.api.bearer] using h
    | polls ps =>
      refine App.issues_of_same_user J net .login c _ _ hstep ?_ ?_ <;>
        simp [App.handleLogin, hc, hm, Data.user, hold]
    | poll q =>
      refine App.issues_of_same_user J net .login c _ _ hstep ?_ ?_ <;>
        simp [App.handleLogin, hc, hm, Data.user, hold]
    | errorObj e =>
      refine App.issues_of_same_user J net .login c _ _ hstep ?_ ?_ <;>
        simp [App.handleLogin, hc, hm, Data.user, hold]
    | null =>
      refine App.issues_of_same_user J net .login c _ _ hstep ?_ ?_ <;>
        simp [App.handleLogin, hc, hm]

/-- The requests of a signup submission that passes the local checks, from a
state with no current user. -/
theorem App.signup_issues (J : JSON) (net : Net) (c : App.Config)
    (hold : c.state.currentUser = none) (he : c.state.email ≠ "") (hn : c.state.name ≠ "")
    (hp : 6 ≤ JS.length c.state.password) :
    App.Issues J net .signup c
      (App.api.signupRequest c.world c.state.email c.state.password c.state.name ::
        match net.answer c.world.requests
            (App.api.signupRequest c.world c.state.email c.state.password c.state.name) with
        | some (.auth token user) =>
          [App.api.getPollsRequest
            { c.world with localStorage := (c.world.localStorage.setItem "token" token).setItem
                                             "user" (J.stringify user) }]
        | _ => []) := by
  have hpw : c.state.password ≠ "" := JS.length_pos_ne_empty _ (by omega)
  have hc : ¬ (c.state.email = "" ∨ c.state.password = "" ∨ c.state.name = "") := by tauto
  have hl : ¬ (JS.length c.state.password < 6) := by omega
  have hstep : App.step J net .signup (c.state, c.world)
      = some (App.handleSignup J net c.state c.world) := rfl
  cases ha : net.answer c.world.requests
      (App.api.signupRequest c.world c.state.email c.state.password c.state.name) with
  | none =>
    obtain ⟨m, hm⟩ :=
      App.api.signup_fail J net c.state.email c.state.password c.state.name c.world ha
    refine App.issues_of_same_user J net .signup c _ _ hstep ?_ ?_ <;>
      simp [App.handleSignup, hc, hl, hm]
  | some d =>
    have hm := App.api.signup_eq J net c.state.email c.state.password c.state.name c.world d ha
    cases d with
    | auth token user =>
      have h := App.issues_of_new_user J net .signup c _
        [App.api.signupRequest c.world c.state.email c.state.password c.state.name] user hstep
        hold (by simp [App.handleSignup, hc, hl, hm, Data.user])
        (by simp [App.handleSignup, hc, hl, hm])
      simpa [App.handleSignup, hc, hl, hm, Data.token, Data.user, JS.toStr, JSON.stringifyOpt,
        App.api.getPollsRequest, App.api.bearer] using h
    | polls ps =>
      refine App.issues_of_same_user J net .signup c _ _ hstep ?_ ?_ <;>
        simp [App.handleSignup, hc, hl, hm, Data.user, hold]
    | poll q =>
      refine App.issues_of_same_user J net .signup c _ _ hstep ?_ ?_ <;>
        simp [App.handleSignup, hc, hl, hm, Data.user, hold]
    | errorObj e =>
      refine App.issues_of_same_user J net .signup c _ _ hstep ?_ ?_ <;>
        simp [App.handleSignup, hc, hl, hm, Data.user, hold]
    | null =>
      refine App.issues_of_same_user J net .signup c _ _ hstep ?_ ?_ <;>
        simp [App.handleSignup, hc, hl, hm]

/-- The requests of a vote. -/
theorem App.vote_issues (J : JSON) (net : Net) (c : App.Config) (pollId optionId : String) :
    App.Issues J net (.vote pollId optionId) c
      (App.api.voteRequest c.world pollId optionId ::
        if (net.answer c.world.requests (App.api.voteRequest c.world pollId optionId)).isSome
        then [App.api.getPollsRequest c.world] else []) := by
  have hstep : App.step J net (.vote pollId optionId) (c.state, c.world)
      = some (App.handleVote net pollId optionId c.state c.world) := rfl
  cases ha : net.answer c.world.requests (App.api.voteRequest c.world pollId optionId) with
  | none =>
    obtain ⟨m, hm⟩ := App.api.vote_fail net pollId optionId c.world ha
    refine App.issues_of_same_user J net _ c _ _ hstep ?_ ?_ <;>
      simp [App.handleVote, hm, alert]
  | some d =>
    refine App.issues_of_same_user J net _ c _ _ hstep ?_ ?_ <;>
      simp [App.handleVote, App.api.vote_eq net pollId optionId c.world d ha, App.loadPolls_eq,
        alert, App.api.getPollsRequest, App.api.bearer]

/-- The requests of a close. -/
theorem App.closePoll_issues (J : JSON) (net : Net) (c : App.Config) (pollId : String) :
    App.Issues J net (.closePoll false pollId) c [] ∧
    App.Issues J net (.closePoll true pollId) c
      (App.api.closePollRequest c.world pollId ::
        if (net.answer c.world.requests (App.api.closePollRequest c.world pollId)).isSome
        then [App.api.getPollsRequest c.world] else []) := by
  refine ⟨App.issues_of_same_user J net _ c (c.state, c.world) _ rfl rfl (by simp), ?_⟩
  have hstep : App.step J net (.closePoll true pollId) (c.state, c.world)
      = some (App.handleClosePoll net true pollId c.state c.world) := rfl
  cases ha : net.answer c.world.requests (App.api.closePollRequest c.world pollId) with
  | none =>
    obtain ⟨m, hm⟩ := App.api.closePoll_fail net pollId c.world ha
    refine App.issues_of_same_user J net _ c _ _ hstep ?_ ?_ <;>
      simp [App.handleClosePoll, hm, alert]
  | some d =>
    refine App.issues_of_same_user J net _ c _ _ hstep ?_ ?_ <;>
      simp [App.handleClosePoll, App.api.closePoll_eq net pollId c.world d ha, App.loadPolls_eq,
        alert, App.api.getPollsRequest, App.api.bearer]

/-- The requests of a delete. -/
theorem App.deletePoll_issues (J : JSON) (net : Net) (c : App.Config) (pollId : String) :
    App.Issues J net (.deletePoll false pollId) c [] ∧
    App.Issues J net (.deletePoll true pollId) c
      (App.api.deletePollRequest c.world pollId ::
        if net.accepts c.world.requests (App.api.deletePollRequest c.world pollId) = true
        then [App.api.getPollsRequest c.world] else []) := by
  refine ⟨App.issues_of_same_user J net _ c (c.state, c.world) _ rfl rfl (by simp), ?_⟩
  have hstep : App.step J net (.deletePoll true pollId) (c.state, c.world)
      = some (App.handleDeletePoll net true pollId c.state c.world) := rfl
  cases ha : net.accepts c.world.requests (App.api.deletePollRequest c.world pollId) with
  | false =>
    obtain ⟨m, hm⟩ := App.api.deletePoll_fail net pollId c.world ha
    refine App.issues_of_same_user J net _ c _ _ hstep ?_ ?_ <;>
      simp [App.handleDeletePoll, hm, alert]
  | true =>
    refine App.issues_of_same_user J net _ c _ _ hstep ?_ ?_ <;>
      simp [App.handleDeletePoll, App.api.deletePoll_eq net pollId c.world ha, App.loadPolls_eq,
        alert, App.api.getPollsRequest, App.api.bearer]

/-- The requests of a create submission that passes the local checks: none when
the duration gives no valid closing date. -/
theorem App.createPoll_issues (J : JSON) (net : Net) (c : App.Config)
    (hq : JS.trim c.state.pollQuestion ≠ "")
    (hopts : 2 ≤ (c.state.pollOptions.filter (fun o => JS.trim o != "")).length) :
    App.Issues J net .createPoll c
      (match JS.addHours c.world.now (JS.parseInt c.state.pollDuration) with
        | none => []
        | some t =>
          App.api.createPollRequest c.world
            [("question", .str c.state.pollQuestion),
             ("options", .strs (c.state.pollOptions.filter (fun o => JS.trim o != ""))),
             ("closesAt", .date t)] ::
          if (net.answer c.world.requests (App.api.createPollRequest c.world
              [("question", .str c.state.pollQuestion),
               ("options", .strs (c.state.pollOptions.filter (fun o => JS.trim o != ""))),
               ("closesAt", .date t)])).isSome
          then [App.api.getPollsRequest c.world] else []) := by
  have hq2 : ¬ (JS.trim c.state.pollQuestion = "") := hq
  have hopts2 : ¬ ((c.state.pollOptions.filter (fun o => JS.trim o != "")).length < 2) := by
    omega
  have hstep : App.step J net .createPoll (c.state, c.world)
      = some (App.handleCreatePoll net c.state c.world) := rfl
  cases hdate : JS.addHours c.world.now (JS.parseInt c.state.pollDuration) with
  | none =>
    refine App.issues_of_same_user J net _ c _ _ hstep ?_ ?_ <;>
      simp [App.handleCreatePoll, hq2, hopts2, hdate, alert]
  | some t =>
    cases ha : net.answer c.world.requests (App.api.createPollRequest c.world
        [("question", .str c.state.pollQuestion),
         ("options", .strs (c.state.pollOptions.filter (fun o => JS.trim o != ""))),
         ("closesAt", .date t)]) with
    | none =>
      obtain ⟨m, hm⟩ := App.api.createPoll_fail net _ c.world ha
      refine App.issues_of_same_user J net _ c _ _ hstep ?_ ?_ <;>
        simp [App.handleCreatePoll, hq2, hopts2, hdate, hm, alert, ha]
    | some d =>
      refine App.issues_of_same_user J net _ c _ _ hstep ?_ ?_ <;>
        simp [App.handleCreatePoll, hq2, hopts2, hdate, App.api.createPoll_eq net _ c.world d ha,
          App.loadPolls_eq, alert, App.api.getPollsRequest, App.api.bearer, ha]

/-- The requests of an update submission that passes the local check: none when
no poll is being edited. -/
theorem App.updatePoll_issues (J : JSON) (net : Net) (c : App.Config)
    (hq : JS.trim c.state.pollQuestion ≠ "")
    (hopts : 2 ≤ (c.state.pollOptions.filter (fun o => JS.trim o != "")).length) :
    App.Issues J net .updatePoll c
      (match c.state.editingPoll with
        | none => []
        | some p =>
          App.api.updatePollRequest c.world p.id
            [("question", .str c.state.pollQuestion),
             ("options", .strs (c.state.pollOptions.filter (fun o => JS.trim o != "")))] ::
          if (net.answer c.world.requests (App.api.updatePollRequest c.world p.id
              [("question", .str c.state.pollQuestion),
               ("options", .strs (c.state.pollOptions.filter (fun o => JS.trim o != "")))])).isSome
          then [App.api.getPollsRequest c.world] else []) := by
  have hc : ¬ (JS.trim c.state.pollQuestion = "" ∨
      (c.state.pollOptions.filter (fun o => JS.trim o != "")).length < 2) := by
    intro hc
    rcases hc with hc | hc
    · exact hq hc
    · omega
  have hstep : App.step J net .updatePoll (c.state, c.world)
      = some (App.handleUpdatePoll net c.state c.world) := rfl
  cases hedit : c.state.editingPoll with
  | none =>
    refine App.issues_of_same_user J net _ c _ _ hstep ?_ ?_ <;>
      simp [App.handleUpdatePoll, hc, hedit, alert]
  | some p =>
    cases ha : net.answer c.world.requests (App.api.updatePollRequest c.world p.id
        [("question", .str c.state.pollQuestion),
         ("options", .strs (c.state.pollOptions.filter (fun o => JS.trim o != "")))]) with
    | none =>
      obtain ⟨m, hm⟩ := App.api.updatePoll_fail net p.id _ c.world ha
      refine App.issues_of_same_user J net _ c _ _ hstep ?_ ?_ <;>
        simp [App.handleUpdatePoll, hc, hedit, hm, alert, ha]
    | some d =>
      refine App.issues_of_same_user J net _ c _ _ hstep ?_ ?_ <;>
        simp [App.handleUpdatePoll, hc, hedit, App.api.updatePoll_eq net p.id _ c.world d ha,
          App.loadPolls_eq, alert, App.api.getPollsRequest, App.api.bearer, ha]

/-- A submission stopped by a local check issues no request. -/
theorem App.rejected_issues_nothing (J : JSON) (net : Net) (c : App.Config) :
    ((c.state.email = "" ∨ c.state.password = "") → App.Issues J net .login c []) ∧
    ((c.state.email = "" ∨ c.state.password = "" ∨ c.state.name = "" ∨
        JS.length c.state.password < 6) → App.Issues J net .signup c []) ∧
    ((JS.trim c.state.pollQuestion = "" ∨
        (c.state.pollOptions.filter (fun o => JS.trim o != "")).length < 2) →
      App.Issues J net .createPoll c [] ∧ App.Issues J net .updatePoll c []) := by
  refine ⟨?_, ?_, ?_⟩
  · intro h
    refine App.issues_of_same_user J net .login c (App.handleLogin J net c.state c.world) _ rfl
      ?_ ?_ <;> simp [App.handleLogin, h]
  · intro h
    refine App.issues_of_same_user J net .signup c (App.handleSignup J net c.state c.world) _ rfl
      ?_ ?_ <;>
    · by_cases h1 : c.state.email = "" ∨ c.state.password = "" ∨ c.state.name = ""
      · simp [App.handleSignup, h1]
      · have h2 : JS.length c.state.password < 6 := by tauto
        simp [App.handleSignup, h1, h2]
  · intro h
    refine ⟨?_, ?_⟩
    · refine App.issues_of_same_user J net .createPoll c
        (App.handleCreatePoll net c.state c.world) _ rfl ?_ ?_ <;>
      · by_cases h1 : JS.trim c.state.pollQuestion = ""
        · simp [App.handleCreatePoll, h1]
        · have h2 : (c.state.pollOptions.filter (fun o => JS.trim o != "")).length < 2 := by
            tauto
          simp [App.handleCreatePoll, h1, h2]
    · refine App.issues_of_same_user J net .updatePoll c
        (App.handleUpdatePoll net c.state c.world) _ rfl ?_ ?_ <;>
        simp [App.handleUpdatePoll, h]

/-- A request that belongs to a trace belongs to the trace extended by one
request. -/
theorem App.Pending.sound_append (net : Net) (trace : List Request) (r : Request)
    (p : App.Pending) (h : p.Sound net trace) : p.Sound net (trace ++ [r]) := by
  obtain ⟨⟨hist, rest, htrace, hres⟩, hget⟩ := h
  exact ⟨⟨hist, rest ++ [r], by simp [htrace], hres⟩, hget⟩

/-- Issuing a request extends the configuration by that request. -/
theorem App.Async.extends_issue (net : Net) (req : Request) (k : App.Cont) (c : App.Async)
    (hk : ∀ caller, k = App.Cont.loadPolls caller → req.method = "GET") :
    App.Async.Extends net c (c.issue net req k) :=
  ⟨rfl, Or.inr ⟨req, k, hk, rfl, rfl⟩⟩

/-- Starting an event leaves `polls` as it was and issues at most one request. -/
theorem App.start_extends (J : JSON) (net : Net) (e : App.Event) (c c' : App.Async)
    (hs : App.start J net e c = some c') :
    c'.state.polls = c.state.polls ∧ App.Async.Extends net c c' := by
  have hsame : ∀ s : App.State, s.polls = c.state.polls →
      ({ c with state := s } : App.Async).state.polls = c.state.polls ∧
      App.Async.Extends net c { c with state := s } :=
    fun s hp => ⟨hp, rfl, Or.inl ⟨rfl, rfl⟩⟩
  have hissue : ∀ (s : App.State) (req : Request) (k : App.Cont), s.polls = c.state.polls →
      (∀ caller, k = App.Cont.loadPolls caller → req.method = "GET") →
      (App.Async.issue net req k { c with state := s }).state.polls = c.state.polls ∧
      App.Async.Extends net c (App.Async.issue net req k { c with state := s }) :=
    fun s req k hp hk => ⟨hp, rfl, Or.inr ⟨req, k, hk, rfl, rfl⟩⟩
  have hnot : ∀ (m : App.Mutation) (caller : Option App.Mutation),
      App.Cont.mutation m = App.Cont.loadPolls caller → False := fun _ _ h => by cases h
  cases e with
  | refresh =>
    simp only [App.start, Option.some.injEq] at hs
    subst hs
    exact ⟨rfl, App.Async.extends_issue net _ _ c (fun _ _ => rfl)⟩
  | login =>
    simp only [App.start, Option.some.injEq] at hs
    subst hs
    unfold App.handleLoginStart
    split_ifs
    · exact hsame _ rfl
    · exact hissue _ _ _ rfl (fun _ h => by cases h)
  | signup =>
    simp only [App.start, Option.some.injEq] at hs
    subst hs
    unfold App.handleSignupStart
    split_ifs
    · exact hsame _ rfl
    · exact hsame _ rfl
    · exact hissue _ _ _ rfl (fun _ h => by cases h)
  | vote pollId optionId =>
    simp only [App.start, Option.some.injEq] at hs
    subst hs
    exact hissue _ _ _ rfl (fun _ h => by cases h)
  | createPoll =>
    simp only [App.start, Option.some.injEq] at hs
    subst hs
    unfold App.handleCreatePollStart
    simp only []
    split_ifs
    · exact hsame _ rfl
    · exact hsame _ rfl
    · cases JS.addHours c.world.now (JS.parseInt c.state.pollDuration) with
      | none => exact ⟨rfl, rfl, Or.inl ⟨rfl, rfl⟩⟩
      | some t => exact hissue _ _ _ rfl (fun _ h => by cases h)
  | updatePoll =>
    simp only [App.start, Option.some.injEq] at hs
    subst hs
    unfold App.handleUpdatePollStart
    simp only []
    split_ifs
    · exact hsame _ rfl
    · cases c.state.editingPoll with
      | none => exact ⟨rfl, rfl, Or.inl ⟨rfl, rfl⟩⟩
      | some p => exact hissue _ _ _ rfl (fun _ h => by cases h)
  | closePoll confirmed pollId =>
    simp only [App.start, Option.some.injEq] at hs
    subst hs
    unfold App.handleClosePollStart
    split_ifs
    · exact ⟨rfl, rfl, Or.inl ⟨rfl, rfl⟩⟩
    · exact hissue _ _ _ rfl (fun _ h => by cases h)
  | deletePoll confirmed pollId =>
    simp only [App.start, Option.some.injEq] at hs
    subst hs
    unfold App.handleDeletePollStart
    split_ifs
    · exact ⟨rfl, rfl, Or.inl ⟨rfl, rfl⟩⟩
    · exact hissue _ _ _ rfl (fun _ h => by cases h)
  | restore =>
    simp only [App.start, App.step, Option.map_map] at hs
    unfold App.restoreEffect at hs
    split at hs
    · split_ifs at hs
      · split at hs
        · simp only [Option.map_some', Function.comp_apply, Option.some.injEq] at hs
          subst hs
          exact hsame _ rfl
        · simp at hs
      · simp only [Option.map_some', Function.comp_apply, Option.some.injEq] at hs
        subst hs
        exact ⟨rfl, rfl, Or.inl ⟨rfl, rfl⟩⟩
    · simp only [Option.map_some', Function.comp_apply, Option.some.injEq] at hs
      subst hs
      exact ⟨rfl, rfl, Or.inl ⟨rfl, rfl⟩⟩
  | detectRole =>
    simp only [App.start, App.step, Option.map_some', Option.some.injEq] at hs
    subst hs
    refine ⟨?_, rfl, Or.inl ⟨rfl, rfl⟩⟩
    simp only [App.detectRoleEffect]
    split_ifs <;> rfl
  | removeOption index =>
    simp only [App.start, App.step, Option.map_some', Option.some.injEq] at hs
    subst hs
    refine ⟨?_, rfl, Or.inl ⟨rfl, rfl⟩⟩
    simp only [App.removeOption]
    split_ifs <;> rfl
  | _ =>
    simp only [App.start, App.step, Option.map_some', Option.some.injEq] at hs
    subst hs
    exact ⟨rfl, rfl, Or.inl ⟨rfl, rfl⟩⟩

/-- The rest of `api.login` after `fetch` issues no request. -/
theorem App.api.loginResult_requests (J : JSON) (r : FetchResult) (w : World) :
    (App.api.loginResult J r w).2.requests = w.requests := by
  unfold App.api.loginResult
  cases r with
  | rejected msg => rfl
  | resolved response =>
    cases hok : response.ok <;> cases hj : response.json <;> simp [hok, hj]
    split_ifs <;> rfl

/-- The rest of `api.signup` after `fetch` issues no request. -/
theorem App.api.signupResult_requests (J : JSON) (r : FetchResult) (w : World) :
    (App.api.signupResult J r w).2.requests = w.requests := by
  unfold App.api.signupResult
  cases r with
  | rejected msg => rfl
  | resolved response =>
    cases hok : response.ok <;> cases hj : response.json <;> simp [hok, hj]
    split_ifs <;> rfl

/-- A resumed call changes `polls` only when it is a `loadPolls` whose `getPolls`
succeeded, to the body of the response; it issues at most one request. -/
theorem App.resume_extends (J : JSON) (net : Net) (p : App.Pending) (c : App.Async) :
    (App.resume J net p c).state.polls = p.polls.getD c.state.polls ∧
    App.Async.Extends net c (App.resume J net p c) := by
  unfold App.resume App.Pending.polls
  cases hk : p.cont with
  | login =>
    simp only []
    have hw := App.api.loginResult_requests J p.result c.world
    generalize App.api.loginResult J p.result c.world = res at hw
    obtain ⟨r1, w1⟩ := res
    cases r1 <;> exact ⟨rfl, rfl, Or.inl ⟨hw, rfl⟩⟩
  | signup =>
    simp only []
    have hw := App.api.signupResult_requests J p.result c.world
    generalize App.api.signupResult J p.result c.world = res at hw
    obtain ⟨r1, w1⟩ := res
    cases r1 <;> exact ⟨rfl, rfl, Or.inl ⟨hw, rfl⟩⟩
  | mutation m =>
    simp only []
    cases App.mutationResult m p.result with
    | ok u => exact ⟨rfl, App.Async.extends_issue net _ _ c (fun _ _ => rfl)⟩
    | error message =>
      cases m <;> exact ⟨rfl, rfl, Or.inl ⟨rfl, rfl⟩⟩
  | loadPolls caller =>
    simp only []
    cases App.api.getPollsResult p.result with
    | ok data =>
      cases caller with
      | none => exact ⟨rfl, rfl, Or.inl ⟨rfl, rfl⟩⟩
      | some m => cases m <;> exact ⟨rfl, rfl, Or.inl ⟨rfl, rfl⟩⟩
    | error message =>
      cases caller with
      | none => exact ⟨rfl, rfl, Or.inl ⟨rfl, rfl⟩⟩
      | some m => cases m <;> exact ⟨rfl, rfl, Or.inl ⟨rfl, rfl⟩⟩

/-- The successful `getPolls` response delivered last, after one more
delivery. -/
theorem App.lastArrivedPolls_append (delivered : List App.Pending) (p : App.Pending) :
    App.lastArrivedPolls (delivered ++ [p]) =
      match p.polls with
      | some data => some data
      | none => App.lastArrivedPolls delivered := by
  unfold App.lastArrivedPolls
  cases hp : p.polls <;> simp [List.filterMap_append, List.filterMap_cons, hp]

/-- A configuration that extends one whose requests belong to the trace has its
requests belonging to the trace. -/
theorem App.Async.sound_of_extends (net : Net) (c c' : App.Async)
    (hext : App.Async.Extends net c c')
    (hp : ∀ p ∈ c.pending, p.Sound net c.world.requests)
    (hd : ∀ p ∈ c.delivered, p.Sound net c.world.requests) :
    (∀ p ∈ c'.pending, p.Sound net c'.world.requests) ∧
    (∀ p ∈ c'.delivered, p.Sound net c'.world.requests) := by
  obtain ⟨hdel, hcase⟩ := hext
  rcases hcase with ⟨hreq, hpend⟩ | ⟨req, k, hk, hreq, hpend⟩
  · rw [hreq, hpend, hdel]
    exact ⟨hp, hd⟩
  · rw [hreq, hpend, hdel]
    refine ⟨?_, fun p hmem => App.Pending.sound_append net _ req p (hd p hmem)⟩
    intro p hmem
    rcases List.mem_append.1 hmem with h | h
    · exact App.Pending.sound_append net _ req p (hp p h)
    · have hpe : p = { request := req, result := net c.world.requests req, cont := k } := by
        simpa using h
      subst hpe
      exact ⟨⟨c.world.requests, [], rfl, rfl⟩, hk⟩

/-- Starting an event keeps the invariant of the component with requests in
flight. -/
theorem App.asyncInv_start (J : JSON) (net : Net) (e : App.Event) (c c' : App.Async)
    (h : App.AsyncInv net c) (hs : App.start J net e c = some c') : App.AsyncInv net c' := by
  obtain ⟨hpolls, hext⟩ := App.start_extends J net e c c' hs
  obtain ⟨h1, h2, h3⟩ := h
  obtain ⟨hp, hd⟩ := App.Async.sound_of_extends net c c' hext h2 h3
  exact ⟨by rw [hpolls, h1, hext.1], hp, hd⟩

/-- The delivery of a response keeps the invariant of the component with requests
in flight. -/
theorem App.asyncInv_deliver (J : JSON) (net : Net) (i : Nat) (c c' : App.Async)
    (h : App.AsyncInv net c) (hd : App.deliver J net i c = some c') : App.AsyncInv net c' := by
  obtain ⟨h1, h2, h3⟩ := h
  unfold App.deliver at hd
  cases hp : c.pending[i]? with
  | none => simp [hp] at hd
  | some p =>
    simp only [hp, Option.some.injEq] at hd
    subst hd
    have hmem : p ∈ c.pending := List.getElem?_mem hp
    obtain ⟨hpolls, hext⟩ := App.resume_extends J net p
      { c with pending := c.pending.eraseIdx i, delivered := c.delivered ++ [p] }
    have hsound := App.Async.sound_of_extends net _ _ hext
      (fun q hq => h2 q (List.mem_of_mem_eraseIdx hq))
      (fun q hq => by
        rcases List.mem_append.1 hq with hq | hq
        · exact h3 q hq
        · have hqp : q = p := by simpa using hq
          subst hqp
          exact h2 q hmem)
    refine ⟨?_, hsound.1, hsound.2⟩
    rw [hpolls, hext.1, App.lastArrivedPolls_append]
    cases p.polls with
    | none => exact h1
    | some data => rfl

/-- Every configuration the component can be in when responses arrive in any
order satisfies the invariant. -/
theorem App.asyncReachable_inv (J : JSON) (net : Net) (c : App.Async)
    (h : App.AsyncReachable J net c) : App.AsyncInv net c := by
  induction h with
  | init w hw =>
    refine ⟨rfl, ?_, ?_⟩ <;> intro p hp <;> simp at hp
  | start e c c' _ hs ih => exact App.asyncInv_start J net e c c' ih hs
  | deliver i c c' _ hd ih => exact App.asyncInv_deliver J net i c c' ih hd

/-- A body that a successful `getPolls` response delivered is the answer of the
server to a GET request of the trace, after the requests issued before it. -/
theorem App.lastArrivedPolls_answer (net : Net) (c : App.Async) (h : App.AsyncInv net c)
    (data : Data) (hd : App.lastArrivedPolls c.delivered = some data) :
    ∃ hist req rest, c.world.requests = hist ++ req :: rest ∧ req.method = "GET" ∧
      net.answer hist req = some data := by
  unfold App.lastArrivedPolls at hd
  have hmem : data ∈ c.delivered.filterMap App.Pending.polls := List.mem_of_mem_getLast? hd
  obtain ⟨p, hp, hpolls⟩ := List.mem_filterMap.1 hmem
  obtain ⟨⟨hist, rest, htrace, hres⟩, hget⟩ := h.2.2 p hp
  refine ⟨hist, p.request, rest, htrace, ?_, ?_⟩
  · unfold App.Pending.polls at hpolls
    cases hk : p.cont with
    | loadPolls caller => exact hget caller hk
    | login => simp [hk] at hpolls
    | signup => simp [hk] at hpolls
    | mutation m => simp [hk] at hpolls
  · unfold App.Pending.polls at hpolls
    cases hk : p.cont with
    | loadPolls caller =>
      simp only [hk, hres] at hpolls
      unfold Net.answer
      unfold App.api.getPollsResult at hpolls
      cases hn : net hist p.request with
      | rejected msg => simp [hn] at hpolls
      | resolved response =>
        cases hok : response.ok <;> cases hj : response.json <;> simp_all
    | login => simp [hk] at hpolls
    | signup => simp [hk] at hpolls
    | mutation m => simp [hk] at hpolls

/-- The function `loadPolls` run with no other event in between is its start
followed by the delivery of the answer. -/
theorem App.loadPolls_eq_result (net : Net) (s : App.State) (w : World) :
    App.loadPolls net s w =
      ((match App.api.getPollsResult (net w.requests (App.api.getPollsRequest w)) with
        | .ok data => { s with polls := data }
        | .error _ => s),
        { w with requests := w.requests ++ [App.api.getPollsRequest w] }) := by
  simp only [App.loadPolls, App.api.getPolls, App.api.getPollsResult, fetch]
  cases net w.requests (App.api.getPollsRequest w) with
  | rejected msg => rfl
  | resolved response =>
    cases hok : response.ok <;> cases hj : response.json <;> simp [hok, hj]

/-- The function `api.login` is its `fetch` followed by `loginResult`. -/
theorem App.api.login_eq_result (J : JSON) (net : Net) (email password : String) (w : World) :
    App.api.login J net email password w =
      App.api.loginResult J (net w.requests (App.api.loginRequest w email password))
        { w with requests := w.requests ++ [App.api.loginRequest w email password] } := by
  simp only [App.api.login, App.api.loginResult, fetch]
  cases net w.requests (App.api.loginRequest w email password) <;> rfl

/-- The function `api.signup` is its `fetch` followed by `signupResult`. -/
theorem App.api.signup_eq_result (J : JSON) (net : Net) (email password name : String)
    (w : World) :
    App.api.signup J net email password name w =
      App.api.signupResult J (net w.requests (App.api.signupRequest w email password name))
        { w with requests := w.requests ++ [App.api.signupRequest w email password name] } := by
  simp only [App.api.signup, App.api.signupResult, fetch]
  cases net w.requests (App.api.signupRequest w email password name) <;> rfl

/-- The handler `handleVote` is `mutationRun` for its request. -/
theorem App.handleVote_eq_run (net : Net) (pollId optionId : String) (s : App.State)
    (w : World) :
    App.handleVote net pollId optionId s w =
      App.mutationRun net .vote (App.api.voteRequest w pollId optionId)
        { s with loading := true, error := "" } w := by
  simp only [App.handleVote, App.mutationRun, App.mutationResult, App.api.vote,
    App.api.voteResult, fetch, App.mutationDone, App.mutationFailed]
  cases net w.requests (App.api.voteRequest w pollId optionId) with
  | rejected msg => rfl
  | resolved response =>
    cases hok : response.ok <;> cases hj : response.json <;> simp [hok, hj, Except.map]

/-- The handler `handleClosePoll`, once confirmed, is `mutationRun` for its
request. -/
theorem App.handleClosePoll_eq_run (net : Net) (pollId : String) (s : App.State) (w : World) :
    App.handleClosePoll net true pollId s w =
      App.mutationRun net .closePoll (App.api.closePollRequest w pollId)
        { s with loading := true } w := by
  simp only [App.handleClosePoll, App.mutationRun, App.mutationResult, App.api.closePoll,
    App.api.closePollResult, fetch, App.mutationDone, App.mutationFailed]
  cases net w.requests (App.api.closePollRequest w pollId) with
  | rejected msg => rfl
  | resolved response =>
    cases hok : response.ok <;> cases hj : response.json <;> simp [hok, hj, Except.map]

/-- The handler `handleDeletePoll`, once confirmed, is `mutationRun` for its
request. -/
theorem App.handleDeletePoll_eq_run (net : Net) (pollId : String) (s : App.State) (w : World) :
    App.handleDeletePoll net true pollId s w =
      App.mutationRun net .deletePoll (App.api.deletePollRequest w pollId)
        { s with loading := true } w := by
  simp only [App.handleDeletePoll, App.mutationRun, App.mutationResult, App.api.deletePoll,
    App.api.deletePollResult, fetch, App.mutationDone, App.mutationFailed]
  cases net w.requests (App.api.deletePollRequest w pollId) with
  | rejected msg => rfl
  | resolved response =>
    cases hok : response.ok <;> simp [hok]

/-- The call `api.createPoll` followed by the rest of `handleCreatePoll` is
`mutationRun` for its request. -/
theorem App.createPoll_eq_run (net : Net) (pollData : List (String × JVal)) (s1 : App.State)
    (w : World) :
    (match App.api.createPoll net pollData w with
      | (.ok _, w1) =>
        let (s2, w2) := App.loadPolls net s1 w1
        ({ s2 with pollQuestion := "", pollOptions := ["", ""], pollDuration := "24",
                   view := "polls", loading := false },
          alert " Poll created successfully!" w2)
      | (.error _, w1) =>
        ({ s1 with error := "Failed to create poll", loading := false },
          alert "Failed to create poll" w1)) =
      App.mutationRun net .createPoll (App.api.createPollRequest w pollData) s1 w := by
  simp only [App.mutationRun, App.mutationResult, App.api.createPoll,
    App.api.createPollResult, fetch, App.mutationDone, App.mutationFailed]
  cases net w.requests (App.api.createPollRequest w pollData) with
  | rejected msg => rfl
  | resolved response =>
    cases hok : response.ok <;> cases hj : response.json <;> simp [hok, hj, Except.map]

/-- The call `api.updatePoll` followed by the rest of `handleUpdatePoll` is
`mutationRun` for its request. -/
theorem App.updatePoll_eq_run (net : Net) (pollId : String) (pollData : List (String × JVal))
    (s1 : App.State) (w : World) :
    (match App.api.updatePoll net pollId pollData w with
      | (.ok _, w1) =>
        let (s2, w2) := App.loadPolls net s1 w1
        ({ s2 with pollQuestion := "", pollOptions := ["", ""], editingPoll := none,
                   view := "polls", loading := false },
          alert " Poll updated successfully!" w2)
      | (.error _, w1) =>
        ({ s1 with error := "Failed to update poll", loading := false },
          alert "Failed to update poll" w1)) =
      App.mutationRun net .updatePoll (App.api.updatePollRequest w pollId pollData) s1 w := by
  simp only [App.mutationRun, App.mutationResult, App.api.updatePoll,
    App.api.updatePollResult, fetch, App.mutationDone, App.mutationFailed]
  cases net w.requests (App.api.updatePollRequest w pollId pollData) with
  | rejected msg => rfl
  | resolved response =>
    cases hok : response.ok <;> cases hj : response.json <;> simp [hok, hj, Except.map]

/-- With one request in flight, the delivery of its response resumes its call. -/
theorem App.asyncReachable_deliver_single (J : JSON) (net : Net) (p : App.Pending)
    (s : App.State) (w : World) (log : List App.Pending)
    (h : App.AsyncReachable J net { state := s, world := w, pending := [p], delivered := log }) :
    App.AsyncReachable J net
      (App.resume J net p { state := s, world := w, pending := [], delivered := log ++ [p] }) :=
  App.AsyncReachable.deliver 0 _ _ h rfl

/-- A mutating handler that has issued its request, with no other request in
flight, reaches the outcome of `mutationRun` when its answers are delivered at
once. -/
theorem App.mutation_settles (J : JSON) (net : Net) (m : App.Mutation) (req : Request)
    (s : App.State) (w : World) (log : List App.Pending)
    (h : App.AsyncReachable J net
      { state := s, world := { w with requests := w.requests ++ [req] },
        pending := [{ request := req, result := net w.requests req, cont := .mutation m }],
        delivered := log }) :
    ∃ log', App.AsyncReachable J net
      { state := (App.mutationRun net m req s w).1, world := (App.mutationRun net m req s w).2,
        pending := [], delivered := log' } := by
  have h1 := App.asyncReachable_deliver_single J net _ _ _ _ h
  simp only [App.resume] at h1
  cases hres : App.mutationResult m (net w.requests req) with
  | error message =>
    simp only [hres] at h1
    simp only [App.mutationRun, hres]
    exact ⟨_, h1⟩
  | ok u =>
    simp only [hres] at h1
    have h2 := App.asyncReachable_deliver_single J net _ _ _ _ h1
    simp only [App.resume] at h2
    simp only [App.mutationRun, hres, App.loadPolls_eq_result]
    exact ⟨_, h2⟩

/-- Every event run with no other event in between is a run of the component
with requests in flight: the event starts and its answers are delivered at
once. -/
theorem App.asyncReachable_step (J : JSON) (net : Net) (e : App.Event)
    (c c' : App.State × World) (log : List App.Pending)
    (h : App.AsyncReachable J net { state := c.1, world := c.2, pending := [], delivered := log })
    (hs : App.step J net e c = some c') :
    ∃ log', App.AsyncReachable J net
      { state := c'.1, world := c'.2, pending := [], delivered := log' } := by
  obtain ⟨s, w⟩ := c
  have hstart : ∀ a, App.start J net e
      { state := s, world := w, pending := [], delivered := log } = some a →
      App.AsyncReachable J net a := fun a ha => App.AsyncReachable.start e _ _ h ha
  cases e with
  | refresh =>
    simp only [App.step, Option.some.injEq] at hs
    subst hs
    have h1 : App.AsyncReachable J net
        { state := s, world := { w with requests := w.requests ++ [App.api.getPollsRequest w] },
          pending := [{ request := App.api.getPollsRequest w,
                        result := net w.requests (App.api.getPollsRequest w),
                        cont := .loadPolls none }],
          delivered := log } := App.AsyncReachable.start .refresh _ _ h rfl
    have h2 := App.asyncReachable_deliver_single J net _ _ _ _ h1
    simp only [App.resume] at h2
    simp only [App.loadPolls_eq_result]
    exact ⟨_, h2⟩
  | login =>
    simp only [App.step, Option.some.injEq] at hs
    subst hs
    have h1 := App.AsyncReachable.start .login _ _ h rfl
    by_cases hg : s.email = "" ∨ s.password = ""
    · refine ⟨log, ?_⟩
      simpa [App.handleLoginStart, App.handleLogin, hg] using h1
    · have h1' : App.AsyncReachable J net
          { state := { s with loading := true, error := "" },
            world := { w with requests :=
              w.requests ++ [App.api.loginRequest w s.email s.password] },
            pending := [{ request := App.api.loginRequest w s.email s.password,
                          result := net w.requests (App.api.loginRequest w s.email s.password),
                          cont := .login }],
            delivered := log } := by
        simpa [App.handleLoginStart, hg, App.Async.issue] using h1
      have h2 := App.asyncReachable_deliver_single J net _ _ _ _ h1'
      simp only [App.resume] at h2
      simp only [App.handleLogin, if_neg hg, App.api.login_eq_result]
      generalize App.api.loginResult J _ _ = res at h2 ⊢
      obtain ⟨r1, w1⟩ := res
      cases r1 <;> exact ⟨_, h2⟩
  | signup =>
    simp only [App.step, Option.some.injEq] at hs
    subst hs
    have h1 := App.AsyncReachable.start .signup _ _ h rfl
    by_cases hg : s.email = "" ∨ s.password = "" ∨ s.name = ""
    · refine ⟨log, ?_⟩
      simpa [App.handleSignupStart, App.handleSignup, hg] using h1
    · by_cases hl : JS.length s.password < 6
      · refine ⟨log, ?_⟩
        simpa [App.handleSignupStart, App.handleSignup, hg, hl] using h1
      · have h1' : App.AsyncReachable J net
            { state := { s with loading := true, error := "" },
              world := { w with requests :=
                w.requests ++ [App.api.signupRequest w s.email s.password s.name] },
              pending := [{ request := App.api.signupRequest w s.email s.password s.name,
                            result := net w.requests
                              (App.api.signupRequest w s.email s.password s.name),
                            cont := .signup }],
              delivered := log } := by
          simpa [App.handleSignupStart, hg, hl, App.Async.issue] using h1
        have h2 := App.asyncReachable_deliver_single J net _ _ _ _ h1'
        simp only [App.resume] at h2
        simp only [App.handleSignup, if_neg hg, if_neg hl, App.api.signup_eq_result]
        generalize App.api.signupResult J _ _ = res at h2 ⊢
        obtain ⟨r1, w1⟩ := res
        cases r1 <;> exact ⟨_, h2⟩
  | vote pollId optionId =>
    simp only [App.step, Option.some.injEq] at hs
    subst hs
    rw [App.handleVote_eq_run]
    exact App.mutation_settles J net .vote _ _ w log
      (App.AsyncReachable.start (.vote pollId optionId) _ _ h rfl)
  | closePoll confirmed pollId =>
    simp only [App.step, Option.some.injEq] at hs
    subst hs
    cases confirmed with
    | false => exact ⟨log, App.AsyncReachable.start (.closePoll false pollId) _ _ h rfl⟩
    | true =>
      rw [App.handleClosePoll_eq_run]
      exact App.mutation_settles J net .closePoll _ _ w log
        (App.AsyncReachable.start (.closePoll true pollId) _ _ h rfl)
  | deletePoll confirmed pollId =>
    simp only [App.step, Option.some.injEq] at hs
    subst hs
    cases confirmed with
    | false => exact ⟨log, App.AsyncReachable.start (.deletePoll false pollId) _ _ h rfl⟩
    | true =>
      rw [App.handleDeletePoll_eq_run]
      exact App.mutation_settles J net .deletePoll _ _ w log
        (App.AsyncReachable.start (.deletePoll true pollId) _ _ h rfl)
  | createPoll =>
    simp only [App.step, Option.some.injEq] at hs
    subst hs
    have h1 := App.AsyncReachable.start .createPoll _ _ h rfl
    simp only [App.handleCreatePollStart] at h1
    simp only [App.handleCreatePoll]
    by_cases hq : JS.trim s.pollQuestion = ""
    · exact ⟨log, by simpa [hq] using h1⟩
    · by_cases ho : (s.pollOptions.filter (fun o => JS.trim o != "")).length < 2
      · exact ⟨log, by simpa [hq, ho] using h1⟩
      · simp only [if_neg hq, if_neg ho] at h1 ⊢
        cases hd : JS.addHours w.now (JS.parseInt s.pollDuration) with
        | none => exact ⟨log, by simpa [hd, App.mutationFailed] using h1⟩
        | some t =>
          simp only [hd] at h1 ⊢
          rw [App.createPoll_eq_run]
          exact App.mutation_settles J net .createPoll _ _ w log h1
  | updatePoll =>
    simp only [App.step, Option.some.injEq] at hs
    subst hs
    have h1 := App.AsyncReachable.start .updatePoll _ _ h rfl
    simp only [App.handleUpdatePollStart] at h1
    simp only [App.handleUpdatePoll]
    by_cases hc : JS.trim s.pollQuestion = "" ∨
        (s.pollOptions.filter (fun o => JS.trim o != "")).length < 2
    · exact ⟨log, by simpa [hc] using h1⟩
    · simp only [if_neg hc] at h1 ⊢
      cases he : s.editingPoll with
      | none => exact ⟨log, by simpa [he, App.mutationFailed] using h1⟩
      | some p =>
        simp only [he] at h1 ⊢
        rw [App.updatePoll_eq_run]
        exact App.mutation_settles J net .updatePoll _ _ w log h1
  | _ =>
    refine ⟨log, hstart _ ?_⟩
    simp only [App.start, hs, Option.map_some']

/-- Every state the component reaches when each event runs with no other event in
between is one it reaches with requests in flight, none being left in flight. -/
theorem App.asyncReachable_of_reachable (J : JSON) (net : Net) (c : App.State × World)
    (h : App.Reachable J net c) :
    ∃ log, App.AsyncReachable J net
      { state := c.1, world := c.2, pending := [], delivered := log } := by
  induction h with
  | init w hw => exact ⟨[], App.AsyncReachable.init w hw⟩
  | step e c c' _ hs ih =>
    obtain ⟨log, hlog⟩ := ih
    exact App.asyncReachable_step J net e c c' log hlog hs

/-- A run of starts and deliveries from a configuration the component can be in
ends in a configuration it can be in. -/
theorem App.asyncReachable_run (J : JSON) (net : Net) (es : List App.AsyncEvent)
    (c c' : App.Async) (h : App.AsyncReachable J net c)
    (hr : App.asyncRun J net es c = some c') : App.AsyncReachable J net c' := by
  induction es generalizing c with
  | nil =>
    simp only [App.asyncRun, Option.some.injEq] at hr
    exact hr ▸ h
  | cons e es ih =>
    cases e with
    | start ev =>
      simp only [App.asyncRun] at hr
      split_ifs at hr
      cases hs : App.start J net ev c with
      | none => simp [hs] at hr
      | some c1 =>
        simp only [hs] at hr
        exact ih c1 (App.AsyncReachable.start ev c c1 h hs) hr
    | deliver i =>
      simp only [App.asyncRun] at hr
      cases hd : App.deliver J net i c with
      | none => simp [hd] at hr
      | some c1 =>
        simp only [hd] at hr
        exact ih c1 (App.AsyncReachable.deliver i c c1 h hd) hr

/-- In every state the component reaches when each event runs with no other event
in between, `polls` is the body of the most recent successful `getPolls` of the
request trace, or the initial empty list. -/
theorem App.reachable_pollsInv (J : JSON) (net : Net) (c : App.State × World)
    (h : App.Reachable J net c) : App.PollsInv net c := by
  induction h with
  | init w hw => simp [App.PollsInv, App.State.init, hw, App.latestPolls, App.latestPollsRev]
  | step e c c' _ hs ih => exact App.pollsInv_step J net e c c' ih hs

/-! ## The claims -/

/-- C1: with a password of fewer than 6 characters (`password.length < 6`, the
empty password included), `handleSignup` of either component issues no request,
leaves local storage as it was, leaves `currentUser` and `view` as they were (so
`currentUser` stays null) and sets a non-empty error message. -/
theorem C1_handleSignup_short_password_rejected (J : JSON) (net : Net) (w : World)
    (s : App.State) (t : ServicesApi.State)
    (hs : JS.length s.password < 6) (ht : JS.length t.password < 6) :
    ((App.handleSignup J net s w).2.requests = w.requests ∧
      (App.handleSignup J net s w).2.localStorage = w.localStorage ∧
      (App.handleSignup J net s w).1.currentUser = s.currentUser ∧
      (App.handleSignup J net s w).1.view = s.view ∧
      (App.handleSignup J net s w).1.error ≠ "") ∧
    ((ServicesApi.handleSignup J net t w).2.requests = w.requests ∧
      (ServicesApi.handleSignup J net t w).2.localStorage = w.localStorage ∧
      (ServicesApi.handleSignup J net t w).1.currentUser = t.currentUser ∧
      (ServicesApi.handleSignup J net t w).1.view = t.view ∧
      (ServicesApi.handleSignup J net t w).1.error ≠ "") := by
  constructor
  · unfold App.handleSignup
    split_ifs with h1
    · exact ⟨rfl, rfl, rfl, rfl, by simp⟩
    · exact ⟨rfl, rfl, rfl, rfl, by simp⟩
  · unfold ServicesApi.handleSignup
    split_ifs with h1
    · exact ⟨rfl, rfl, rfl, rfl, by simp⟩
    · exact ⟨rfl, rfl, rfl, rfl, by simp⟩

/-- C1 at a concrete input: the five-character password `abcde`, with name and
email filled in, against a server that would accept the signup. -/
theorem C1_handleSignup_short_password_rejected_witness :
    JS.length "abcde" < 6 ∧
    (App.handleSignup sampleJSON (constNet (okResponse (.auth "tok" sampleUser)))
      { App.State.init with view := "signup", name := "Ada", email := "ada@example.com",
                            password := "abcde" } sampleWorld).2.requests = [] ∧
    (ServicesApi.handleSignup sampleJSON (constNet (okResponse (.auth "tok" sampleUser)))
      { ServicesApi.State.init with view := "signup", name := "Ada", email := "ada@example.com",
                                    password := "abcde" } sampleWorld).2.requests = [] :=
  ⟨by decide,
    (C1_handleSignup_short_password_rejected sampleJSON
      (constNet (okResponse (.auth "tok" sampleUser))) sampleWorld
      { App.State.init with view := "signup", name := "Ada", email := "ada@example.com",
                            password := "abcde" }
      { ServicesApi.State.init with view := "signup", name := "Ada", email := "ada@example.com",
                                    password := "abcde" }
      (by decide) (by decide)).1.1,
    (C1_handleSignup_short_password_rejected sampleJSON
      (constNet (okResponse (.auth "tok" sampleUser))) sampleWorld
      { App.State.init with view := "signup", name := "Ada", email := "ada@example.com",
                            password := "abcde" }
      { ServicesApi.State.init with view := "signup", name := "Ada", email := "ada@example.com",
                                    password := "abcde" }
      (by decide) (by decide)).2.1⟩

/-- C2: when fewer than 2 entries of the option list are non-empty,
`handleCreatePoll` of either component issues no request, sets a non-empty error
message, and leaves the polls, the view and the form fields (question, options,
duration) as they were. -/
theorem C2_handleCreatePoll_few_options_rejected (net : Net) (w : World)
    (s : App.State) (t : ServicesApi.State)
    (hs : (s.pollOptions.filter (fun o => o != "")).length < 2)
    (ht : (t.newPollOptions.filter (fun o => o != "")).length < 2) :
    ((App.handleCreatePoll net s w).2.requests = w.requests ∧
      (App.handleCreatePoll net s w).1.error ≠ "" ∧
      (App.handleCreatePoll net s w).1.polls = s.polls ∧
      (App.handleCreatePoll net s w).1.view = s.view ∧
      (App.handleCreatePoll net s w).1.pollQuestion = s.pollQuestion ∧
      (App.handleCreatePoll net s w).1.pollOptions = s.pollOptions ∧
      (App.handleCreatePoll net s w).1.pollDuration = s.pollDuration) ∧
    ((ServicesApi.handleCreatePoll net t w).2.requests = w.requests ∧
      (ServicesApi.handleCreatePoll net t w).1.error ≠ "" ∧
      (ServicesApi.handleCreatePoll net t w).1.polls = t.polls ∧
      (ServicesApi.handleCreatePoll net t w).1.view = t.view ∧
      (ServicesApi.handleCreatePoll net t w).1.newPollQuestion = t.newPollQuestion ∧
      (ServicesApi.handleCreatePoll net t w).1.newPollOptions = t.newPollOptions ∧
      (ServicesApi.handleCreatePoll net t w).1.pollDuration = t.pollDuration) := by
  have hs2 := lt_of_le_of_lt (filter_trim_length_le s.pollOptions) hs
  have ht2 := lt_of_le_of_lt (filter_trim_length_le t.newPollOptions) ht
  constructor
  · unfold App.handleCreatePoll
    simp only []
    split_ifs with h1
    · exact ⟨rfl, by simp, rfl, rfl, rfl, rfl, rfl⟩
    · exact ⟨rfl, by simp, rfl, rfl, rfl, rfl, rfl⟩
  · unfold ServicesApi.handleCreatePoll
    simp only []
    split_ifs with h1
    · exact ⟨rfl, by simp, rfl, rfl, rfl, rfl, rfl⟩
    · exact ⟨rfl, by simp, rfl, rfl, rfl, rfl, rfl⟩

/-- C2 at a concrete input: a question with one filled option and one empty
one, against a server that would accept the poll. -/
theorem C2_handleCreatePoll_few_options_rejected_witness :
    ((["Tea", ""] : List String).filter (fun o => o != "")).length < 2 ∧
    (App.handleCreatePoll (constNet (okResponse (.polls [])))
      { App.State.init with view := "create", pollQuestion := "Drink?",
                            pollOptions := ["Tea", ""] } sampleWorld).2.requests = [] ∧
    (ServicesApi.handleCreatePoll (constNet (okResponse (.polls [])))
      { ServicesApi.State.init with view := "create", newPollQuestion := "Drink?",
                                    newPollOptions := ["Tea", ""] } sampleWorld).2.requests
      = [] :=
  ⟨by decide,
    (C2_handleCreatePoll_few_options_rejected (constNet (okResponse (.polls []))) sampleWorld
      { App.State.init with view := "create", pollQuestion := "Drink?",
                            pollOptions := ["Tea", ""] }
      { ServicesApi.State.init with view := "create", newPollQuestion := "Drink?",
                                    newPollOptions := ["Tea", ""] }
      (by decide) (by decide)).1.1,
    (C2_handleCreatePoll_few_options_rejected (constNet (okResponse (.polls []))) sampleWorld
      { App.State.init with view := "create", pollQuestion := "Drink?",
                            pollOptions := ["Tea", ""] }
      { ServicesApi.State.init with view := "create", newPollQuestion := "Drink?",
                                    newPollOptions := ["Tea", ""] }
      (by decide) (by decide)).2.1⟩

/-- C3: with a non-empty email and password, when the login request is answered
by a successful response whose body is `{token, user}`, `handleLogin` (App.js)
leaves local storage holding the token under `token` and the serialised user
under `user`, sets `currentUser` to the user and `view` to `polls`, clears the
email field, the password field and the error, and ends with `loading` false. -/
theorem C3_handleLogin_success (J : JSON) (net : Net) (s : App.State) (w : World)
    (response : Response) (token : String) (user : User)
    (hemail : s.email ≠ "") (hpassword : s.password ≠ "")
    (hnet : net w.requests (App.api.loginRequest w s.email s.password) = .resolved response)
    (hok : response.ok = true) (hjson : response.json = .ok (.auth token user)) :
    (App.handleLogin J net s w).2.localStorage.getItem "token" = some token ∧
    (App.handleLogin J net s w).2.localStorage.getItem "user" = some (J.stringify user) ∧
    (App.handleLogin J net s w).1.currentUser = some user ∧
    (App.handleLogin J net s w).1.view = "polls" ∧
    (App.handleLogin J net s w).1.email = "" ∧
    (App.handleLogin J net s w).1.password = "" ∧
    (App.handleLogin J net s w).1.error = "" ∧
    (App.handleLogin J net s w).1.loading = false := by
  have hcond : ¬ (s.email = "" ∨ s.password = "") := by
    intro h
    rcases h with h | h
    · exact hemail h
    · exact hpassword h
  have hrun : App.handleLogin J net s w =
      ({ s with currentUser := some user, view := "polls", email := "", password := "",
                loading := false, error := "" },
        { w with requests := w.requests ++ [App.api.loginRequest w s.email s.password],
                 localStorage := (w.localStorage.setItem "token" token).setItem "user"
                   (J.stringify user) }) := by
    simp [App.handleLogin, App.api.login, fetch, hcond, hnet, hok, hjson, Data.token, Data.user,
      JS.toStr, JSON.stringifyOpt]
  rw [hrun]
  refine ⟨?_, ?_, rfl, rfl, rfl, rfl, rfl, rfl⟩
  · show ((w.localStorage.setItem "token" token).setItem "user" (J.stringify user)).getItem
      "token" = some token
    rw [Storage.getItem_setItem_ne _ _ _ _ (by decide)]
    exact Storage.getItem_setItem_self _ _ _
  · exact Storage.getItem_setItem_self _ _ _

/-- C3 at a concrete input: the login form filled in, the server answering with
a token and the sample user. -/
theorem C3_handleLogin_success_witness :
    (App.handleLogin sampleJSON (constNet (okResponse (.auth "tok" sampleUser)))
      { App.State.init with email := "ada@example.com", password := "secret" }
      sampleWorld).1.currentUser = some sampleUser ∧
    (App.handleLogin sampleJSON (constNet (okResponse (.auth "tok" sampleUser)))
      { App.State.init with email := "ada@example.com", password := "secret" }
      sampleWorld).2.localStorage.getItem "token" = some "tok" :=
  have h := C3_handleLogin_success sampleJSON (constNet (okResponse (.auth "tok" sampleUser)))
    { App.State.init with email := "ada@example.com", password := "secret" } sampleWorld
    { ok := true, text := "", json := .ok (.auth "tok" sampleUser) } "tok" sampleUser
    (by decide) (by decide) rfl rfl rfl
  ⟨h.2.2.1, h.1⟩

/-- C4, as stated, fails for the empty token: the server answers a login with
`{token: "", user}`, `api.login` succeeds and stores both entries, and the
restore effect run on that storage restores nothing, the stored token being
falsy: `currentUser` stays null and `view` stays `login`. -/
theorem C4_restore_after_login_with_empty_token :
    (App.api.login sampleJSON (constNet (okResponse (.auth "" sampleUser))) "ada@example.com"
      "secret" sampleWorld).1 = .ok (.auth "" sampleUser) ∧
    (App.api.login sampleJSON (constNet (okResponse (.auth "" sampleUser))) "ada@example.com"
      "secret" sampleWorld).2.localStorage.getItem "user"
      = some (sampleJSON.stringify sampleUser) ∧
    sampleJSON.parse (sampleJSON.stringify sampleUser) = some sampleUser ∧
    App.restoreEffect sampleJSON App.State.init
      (App.api.login sampleJSON (constNet (okResponse (.auth "" sampleUser))) "ada@example.com"
        "secret" sampleWorld).2 = some App.State.init ∧
    App.State.init.currentUser = none ∧ App.State.init.view = "login" := by
  refine ⟨rfl, by decide, by decide, by decide, rfl, rfl⟩

/-- C4, amended: for every user record and every non-empty token that a
successful `api.login` or `api.signup` (App.js) wrote, `JSON.parse` inverting
`JSON.stringify` on that record, the mount-time restore effect of either
component, run on the resulting local storage, sets `currentUser` to the user the
server returned and `view` to `polls`; and on a storage where `user` or `token`
is absent it leaves `currentUser` null and `view` at `login`. -/
theorem C4_session_round_trip (J : JSON) (net : Net) (w : World) (email password name : String)
    (response : Response) (token : String) (user : User)
    (htoken : token ≠ "")
    (hparse : J.parse (J.stringify user) = some user) (hstr : J.stringify user ≠ "")
    (hlogin : net w.requests (App.api.loginRequest w email password) = .resolved response)
    (hsignup : net w.requests (App.api.signupRequest w email password name) = .resolved response)
    (hok : response.ok = true) (hjson : response.json = .ok (.auth token user)) :
    (App.restoreEffect J App.State.init (App.api.login J net email password w).2
        = some { App.State.init with currentUser := some user, view := "polls" } ∧
      App.restoreEffect J App.State.init (App.api.signup J net email password name w).2
        = some { App.State.init with currentUser := some user, view := "polls" } ∧
      ServicesApi.restoreEffect J ServicesApi.State.init (App.api.login J net email password w).2
        = some { ServicesApi.State.init with currentUser := some user, view := "polls" } ∧
      ServicesApi.restoreEffect J ServicesApi.State.init
          (App.api.signup J net email password name w).2
        = some { ServicesApi.State.init with currentUser := some user, view := "polls" }) ∧
    (∀ w0 : World, w0.localStorage.getItem "user" = none ∨ w0.localStorage.getItem "token" = none →
      App.restoreEffect J App.State.init w0 = some App.State.init ∧
      ServicesApi.restoreEffect J ServicesApi.State.init w0 = some ServicesApi.State.init) := by
  have hl : (App.api.login J net email password w).2.localStorage
      = (w.localStorage.setItem "token" token).setItem "user" (J.stringify user) := by
    simp [App.api.login, fetch, hlogin, hok, hjson, Data.token, Data.user, JS.toStr,
      JSON.stringifyOpt]
  have hs : (App.api.signup J net email password name w).2.localStorage
      = (w.localStorage.setItem "token" token).setItem "user" (J.stringify user) := by
    simp [App.api.signup, fetch, hsignup, hok, hjson, Data.token, Data.user, JS.toStr,
      JSON.stringifyOpt]
  have hu : ((w.localStorage.setItem "token" token).setItem "user" (J.stringify user)).getItem
      "user" = some (J.stringify user) := Storage.getItem_setItem_self _ _ _
  have ht : ((w.localStorage.setItem "token" token).setItem "user" (J.stringify user)).getItem
      "token" = some token := by
    rw [Storage.getItem_setItem_ne _ _ _ _ (by decide)]
    exact Storage.getItem_setItem_self _ _ _
  refine ⟨⟨?_, ?_, ?_, ?_⟩, ?_⟩
  · simp [App.restoreEffect, hl, hu, ht, htoken, hstr, hparse]
  · simp [App.restoreEffect, hs, hu, ht, htoken, hstr, hparse]
  · simp [ServicesApi.restoreEffect, hl, hu, ht, htoken, hstr, hparse]
  · simp [ServicesApi.restoreEffect, hs, hu, ht, htoken, hstr, hparse]
  · intro w0 h0
    rcases h0 with h0 | h0
    · constructor
      · simp [App.restoreEffect, h0]
      · simp [ServicesApi.restoreEffect, h0]
    · constructor
      · unfold App.restoreEffect
        rw [h0]
        cases w0.localStorage.getItem "user" <;> rfl
      · unfold ServicesApi.restoreEffect
        rw [h0]
        cases w0.localStorage.getItem "user" <;> rfl

/-- C4 amended, at a concrete input: the token `tok` and the sample user. -/
theorem C4_session_round_trip_witness :
    App.restoreEffect sampleJSON App.State.init
      (App.api.login sampleJSON (constNet (okResponse (.auth "tok" sampleUser)))
        "ada@example.com" "secret" sampleWorld).2
      = some { App.State.init with currentUser := some sampleUser, view := "polls" } :=
  (C4_session_round_trip sampleJSON (constNet (okResponse (.auth "tok" sampleUser))) sampleWorld
    "ada@example.com" "secret" "Ada"
    { ok := true, text := "", json := .ok (.auth "tok" sampleUser) } "tok" sampleUser
    (by decide) (by decide) (by decide) rfl rfl rfl rfl).1.1

/-- C5: from every state (a logged-in one in particular), the logout action of
either component leaves local storage with no `token` and no `user` entry, sets
`currentUser` to null and `view` to `login`, and the restore effect run
afterwards, on the state logout left or on a freshly mounted component, restores
no session. -/
theorem C5_logout_clears_session (J : JSON) (s : App.State) (t : ServicesApi.State) (w : World) :
    ((App.logout s w).2.localStorage.getItem "token" = none ∧
      (App.logout s w).2.localStorage.getItem "user" = none ∧
      (App.logout s w).1.currentUser = none ∧
      (App.logout s w).1.view = "login" ∧
      App.restoreEffect J (App.logout s w).1 (App.logout s w).2 = some (App.logout s w).1 ∧
      App.restoreEffect J App.State.init (App.logout s w).2 = some App.State.init) ∧
    ((ServicesApi.handleLogout t w).2.localStorage.getItem "token" = none ∧
      (ServicesApi.handleLogout t w).2.localStorage.getItem "user" = none ∧
      (ServicesApi.handleLogout t w).1.currentUser = none ∧
      (ServicesApi.handleLogout t w).1.view = "login" ∧
      ServicesApi.restoreEffect J (ServicesApi.handleLogout t w).1 (ServicesApi.handleLogout t w).2
        = some (ServicesApi.handleLogout t w).1 ∧
      ServicesApi.restoreEffect J ServicesApi.State.init (ServicesApi.handleLogout t w).2
        = some ServicesApi.State.init) := by
  have hu : ((w.localStorage.removeItem "token").removeItem "user").getItem "user" = none :=
    Storage.getItem_removeItem_self _ _
  have ht : ((w.localStorage.removeItem "token").removeItem "user").getItem "token" = none := by
    rw [Storage.getItem_removeItem_ne _ _ _ (by decide)]
    exact Storage.getItem_removeItem_self _ _
  refine ⟨⟨rfl, rfl, rfl, rfl, rfl, rfl⟩, ⟨ht, hu, rfl, rfl, ?_, ?_⟩⟩
  · simp [ServicesApi.restoreEffect, ServicesApi.handleLogout, hu]
  · simp [ServicesApi.restoreEffect, ServicesApi.handleLogout, hu]

/-- C6: `handleLogin` of either component issues a request exactly when the email
and the password are both non-empty, whatever else they are; the request is then
the one login request, a POST to `/auth/login` whose body holds the entered email
and password unmodified. -/
theorem C6_handleLogin_request_iff_nonempty (J : JSON) (net : Net) (w : World)
    (s : App.State) (t : ServicesApi.State) :
    (App.handleLogin J net s w).2.requests =
      (if s.email ≠ "" ∧ s.password ≠ "" then
        w.requests ++ [{ method := "POST", url := API_BASE_URL w.env ++ "/auth/login",
                         headers := [("Content-Type", "application/json")],
                         body := some [("email", .str s.email), ("password", .str s.password)] }]
      else w.requests) ∧
    (ServicesApi.handleLogin J net t w).2.requests =
      (if t.email ≠ "" ∧ t.password ≠ "" then
        w.requests ++ [{ method := "POST", url := API_BASE_URL w.env ++ "/auth/login",
                         headers := [("Content-Type", "application/json")],
                         body := some [("email", .str t.email), ("password", .str t.password)] }]
      else w.requests) := by
  constructor
  · unfold App.handleLogin
    by_cases h : s.email = "" ∨ s.password = ""
    · have h2 : ¬ (s.email ≠ "" ∧ s.password ≠ "") := by tauto
      rw [if_pos h, if_neg h2]
    · have h2 : s.email ≠ "" ∧ s.password ≠ "" := by tauto
      rw [if_neg h, if_pos h2]
      have hreq := App.api.login_requests J net s.email s.password w
      simp only []
      split <;> rename_i heq <;> rw [heq] at hreq <;> exact hreq
  · unfold ServicesApi.handleLogin
    by_cases h : t.email = "" ∨ t.password = ""
    · have h2 : ¬ (t.email ≠ "" ∧ t.password ≠ "") := by tauto
      rw [if_pos h, if_neg h2]
    · have h2 : t.email ≠ "" ∧ t.password ≠ "" := by tauto
      rw [if_neg h, if_pos h2]
      have hreq := ServicesApi.api.login_issues_one_request J net t.email t.password w
      simp only []
      split <;> rename_i heq <;> rw [heq] at hreq <;> exact hreq

/-- C7: with a non-empty name, a non-empty email and a password of at least 6
characters, `handleSignup` (App.js) issues exactly one request: a POST to
`/auth/signup` whose only header is the content type (no `Authorization`) and
whose body is `{name, email, password}` with the entered name, email and password
each in its own field, unmodified. -/
theorem C7_handleSignup_request (J : JSON) (net : Net) (s : App.State) (w : World)
    (hname : s.name ≠ "") (hemail : s.email ≠ "") (hpassword : 6 ≤ JS.length s.password) :
    (App.handleSignup J net s w).2.requests =
      w.requests ++ [{ method := "POST", url := API_BASE_URL w.env ++ "/auth/signup",
                       headers := [("Content-Type", "application/json")],
                       body := some [("name", .str s.name), ("email", .str s.email),
                                     ("password", .str s.password)] }] := by
  have hpw : s.password ≠ "" := JS.length_pos_ne_empty _ (by omega)
  have h1 : ¬ (s.email = "" ∨ s.password = "" ∨ s.name = "") := by tauto
  have h2 : ¬ (JS.length s.password < 6) := by omega
  unfold App.handleSignup
  rw [if_neg h1, if_neg h2]
  have hreq := App.api.signup_requests J net s.email s.password s.name w
  simp only []
  split <;> rename_i heq <;> rw [heq] at hreq <;> exact hreq

/-- C7 at a concrete input: the signup form filled in with a six-character
password, the server refusing the signup. -/
theorem C7_handleSignup_request_witness :
    (App.handleSignup sampleJSON (constNet (failResponse "Email already exists"))
      { App.State.init with view := "signup", name := "Ada", email := "ada@example.com",
                            password := "secret" } sampleWorld).2.requests =
      [{ method := "POST", url := "http://localhost:8080/api/auth/signup",
         headers := [("Content-Type", "application/json")],
         body := some [("name", .str "Ada"), ("email", .str "ada@example.com"),
                       ("password", .str "secret")] }] :=
  C7_handleSignup_request sampleJSON (constNet (failResponse "Email already exists"))
    { App.State.init with view := "signup", name := "Ada", email := "ada@example.com",
                          password := "secret" } sampleWorld
    (by decide) (by decide) (by decide)

/-- C8: after the role detection effect (App.js), `detectedRole` is `ADMIN` when
the lower-cased email contains `admin` as a substring and `USER` otherwise; the
email `admin@example.com` yields `ADMIN`. -/
theorem C8_detectRole (s : App.State) :
    (App.detectRoleEffect s).detectedRole =
      (if "admin".data <:+: (JS.toLowerCase s.email).data then "ADMIN" else "USER") ∧
    (App.detectRoleEffect { s with email := "admin@example.com" }).detectedRole = "ADMIN" := by
  constructor
  · unfold App.detectRoleEffect JS.includes
    by_cases h : "admin".data <:+: (JS.toLowerCase s.email).data
    · rw [if_pos h, if_pos ((JS.includesAux_iff _ _).2 h)]
    · have h2 : ¬ (JS.includesAux "admin".data (JS.toLowerCase s.email).data = true) :=
        fun hc => h ((JS.includesAux_iff _ _).1 hc)
      rw [if_neg h, if_neg h2]
  · have h : JS.includes (JS.toLowerCase "admin@example.com") "admin" = true := by decide
    simp [App.detectRoleEffect, h]

/-- C9, as stated, fails on both copies of `api.signup`.  In App.js nothing
overrides the role: for the email `admin@example.com` and a server answer whose
user has role `USER`, the record returned and the record stored under `user` keep
role `USER`.  In services/api.js the test is made on the lower-cased email: the
email `ADMIN@example.com` does not contain `admin`, yet the role the server
returned, `USER`, is replaced by `ADMIN`. -/
theorem C9_signup_role_counterexample :
    ("admin".data <:+: "admin@example.com".data ∧
      sampleUser.role = "USER" ∧
      (App.api.signup sampleJSON (constNet (okResponse (.auth "tok" sampleUser)))
        "admin@example.com" "secret" "Ada" sampleWorld).1 = .ok (.auth "tok" sampleUser) ∧
      (App.api.signup sampleJSON (constNet (okResponse (.auth "tok" sampleUser)))
        "admin@example.com" "secret" "Ada" sampleWorld).2.localStorage.getItem "user"
        = some (sampleJSON.stringify sampleUser)) ∧
    (¬ "admin".data <:+: "ADMIN@example.com".data ∧
      (ServicesApi.api.signup sampleJSON (constNet (okResponse (.auth "tok" sampleUser)))
        "ADMIN@example.com" "secret" "Ada" sampleWorld).1
        = .ok (.auth "tok" { sampleUser with role := "ADMIN" })) := by
  refine ⟨⟨by decide, rfl, rfl, by decide⟩, ⟨by decide, rfl⟩⟩

/-- C9, amended: on a successful signup answered with `{token, user}`, the
`api.signup` of services/api.js returns, and stores under `user`, the user record
with role `ADMIN` when the lower-cased email contains `admin`, whatever role the
server sent, and with the server's role otherwise; the `api.signup` of App.js
returns and stores the server's record, role included, for every email. -/
theorem C9_signup_role (J : JSON) (net : Net) (w : World) (email password name : String)
    (response : Response) (token : String) (user : User)
    (hnetS : net w.requests (ServicesApi.api.signupRequest w email password name)
      = .resolved response)
    (hnetA : net w.requests (App.api.signupRequest w email password name) = .resolved response)
    (hok : response.ok = true) (hjson : response.json = .ok (.auth token user)) :
    ((ServicesApi.api.signup J net email password name w).1
        = .ok (.auth token { user with role :=
            if "admin".data <:+: (JS.toLowerCase email).data then "ADMIN" else user.role }) ∧
      (ServicesApi.api.signup J net email password name w).2.localStorage.getItem "user"
        = some (J.stringify { user with role :=
            if "admin".data <:+: (JS.toLowerCase email).data then "ADMIN" else user.role })) ∧
    ((App.api.signup J net email password name w).1 = .ok (.auth token user) ∧
      (App.api.signup J net email password name w).2.localStorage.getItem "user"
        = some (J.stringify user)) := by
  constructor
  · by_cases h : "admin".data <:+: (JS.toLowerCase email).data
    · have hinc : JS.includes (JS.toLowerCase email) "admin" = true :=
        (JS.includesAux_iff _ _).2 h
      by_cases hr : user.role = "ADMIN"
      · have hu : ({ user with role := "ADMIN" } : User) = user := by
          cases user
          simp_all
        simp [ServicesApi.api.signup, fetch, hnetS, hok, hjson, hinc, hr, h, hu, Data.token,
          Data.user, JS.toStr, JSON.stringifyOpt, Storage.getItem_setItem_self]
      · simp [ServicesApi.api.signup, fetch, hnetS, hok, hjson, hinc, hr, h, Data.token,
          Data.user, JS.toStr, JSON.stringifyOpt, Storage.getItem_setItem_self]
    · have hinc : ¬ (JS.includes (JS.toLowerCase email) "admin" = true) :=
        fun hc => h ((JS.includesAux_iff _ _).1 hc)
      simp [ServicesApi.api.signup, fetch, hnetS, hok, hjson, hinc, h, Data.token,
        Data.user, JS.toStr, JSON.stringifyOpt, Storage.getItem_setItem_self]
  · simp [App.api.signup, fetch, hnetA, hok, hjson, Data.token, Data.user, JS.toStr,
      JSON.stringifyOpt, Storage.getItem_setItem_self]

/-- C9 amended, at a concrete input: the email `admin@example.com` and a server
answer whose user has role `USER`. -/
theorem C9_signup_role_witness :
    (ServicesApi.api.signup sampleJSON (constNet (okResponse (.auth "tok" sampleUser)))
      "admin@example.com" "secret" "Ada" sampleWorld).1
      = .ok (.auth "tok" { sampleUser with role :=
          if "admin".data <:+: (JS.toLowerCase "admin@example.com").data then "ADMIN"
          else sampleUser.role }) :=
  (C9_signup_role sampleJSON (constNet (okResponse (.auth "tok" sampleUser))) sampleWorld
    "admin@example.com" "secret" "Ada"
    { ok := true, text := "", json := .ok (.auth "tok" sampleUser) } "tok" sampleUser
    rfl rfl rfl rfl).1.1

/-- C10, as stated, fails when the mutating request fails: the vote request is
issued, the server rejects it, and `handleVote` (App.js) ends having issued that
one request and no `getPolls`. -/
theorem C10_failed_vote_not_followed_by_getPolls :
    (App.handleVote (constNet (failResponse "Already voted")) "p1" "o1" App.State.init
      sampleWorld).2.requests = [App.api.voteRequest sampleWorld "p1" "o1"] ∧
    App.api.getPollsRequest sampleWorld ∉
      (App.handleVote (constNet (failResponse "Already voted")) "p1" "o1" App.State.init
        sampleWorld).2.requests := by
  refine ⟨rfl, by decide⟩

/-- C10, amended: for each of the five mutating handlers of App.js, whenever the
mutating request is issued and succeeds (the response is successful and, for all
but delete, its body parses), the handler issues exactly that request followed
by one `getPolls` request, and `polls` ends as the body of the `getPolls` answer
when that fetch succeeds (and as it was when it fails). -/
theorem C10_mutation_followed_by_reload (net : Net) (s : App.State) (w : World) :
    (∀ (pollId optionId : String) (d : Data),
      net.answer w.requests (App.api.voteRequest w pollId optionId) = some d →
      App.ReloadedAfter net s w (App.api.voteRequest w pollId optionId)
        (App.handleVote net pollId optionId s w)) ∧
    (∀ (t : Int) (d : Data),
      JS.trim s.pollQuestion ≠ "" →
      2 ≤ (s.pollOptions.filter (fun o => JS.trim o != "")).length →
      JS.addHours w.now (JS.parseInt s.pollDuration) = some t →
      net.answer w.requests (App.api.createPollRequest w
        [("question", .str s.pollQuestion),
         ("options", .strs (s.pollOptions.filter (fun o => JS.trim o != ""))),
         ("closesAt", .date t)]) = some d →
      App.ReloadedAfter net s w (App.api.createPollRequest w
        [("question", .str s.pollQuestion),
         ("options", .strs (s.pollOptions.filter (fun o => JS.trim o != ""))),
         ("closesAt", .date t)])
        (App.handleCreatePoll net s w)) ∧
    (∀ (p : Poll) (d : Data),
      s.editingPoll = some p →
      JS.trim s.pollQuestion ≠ "" →
      2 ≤ (s.pollOptions.filter (fun o => JS.trim o != "")).length →
      net.answer w.requests (App.api.updatePollRequest w p.id
        [("question", .str s.pollQuestion),
         ("options", .strs (s.pollOptions.filter (fun o => JS.trim o != "")))]) = some d →
      App.ReloadedAfter net s w (App.api.updatePollRequest w p.id
        [("question", .str s.pollQuestion),
         ("options", .strs (s.pollOptions.filter (fun o => JS.trim o != "")))])
        (App.handleUpdatePoll net s w)) ∧
    (∀ (pollId : String) (d : Data),
      net.answer w.requests (App.api.closePollRequest w pollId) = some d →
      App.ReloadedAfter net s w (App.api.closePollRequest w pollId)
        (App.handleClosePoll net true pollId s w)) ∧
    (∀ (pollId : String),
      net.accepts w.requests (App.api.deletePollRequest w pollId) = true →
      App.ReloadedAfter net s w (App.api.deletePollRequest w pollId)
        (App.handleDeletePoll net true pollId s w)) := by
  refine ⟨?_, ?_, ?_, ?_, ?_⟩
  · intro pollId optionId d h
    simp only [App.handleVote, App.api.vote_eq net pollId optionId w d h, App.loadPolls_eq]
    exact ⟨by simp [App.api.getPollsRequest, App.api.bearer, alert], rfl⟩
  · intro t d hq hopts ht h
    have hq2 : ¬ (JS.trim s.pollQuestion = "") := hq
    have hopts2 : ¬ ((s.pollOptions.filter (fun o => JS.trim o != "")).length < 2) := by omega
    simp only [App.handleCreatePoll, if_neg hq2, if_neg hopts2, ht,
      App.api.createPoll_eq net _ w d h, App.loadPolls_eq]
    exact ⟨by simp [App.api.getPollsRequest, App.api.bearer, alert], rfl⟩
  · intro p d hp hq hopts h
    have hc : ¬ (JS.trim s.pollQuestion = "" ∨
        (s.pollOptions.filter (fun o => JS.trim o != "")).length < 2) := by
      intro hc
      rcases hc with hc | hc
      · exact hq hc
      · omega
    simp only [App.handleUpdatePoll, if_neg hc, hp, App.api.updatePoll_eq net _ _ w d h,
      App.loadPolls_eq]
    exact ⟨by simp [App.api.getPollsRequest, App.api.bearer, alert], rfl⟩
  · intro pollId d h
    simp only [App.handleClosePoll, App.api.closePoll_eq net pollId w d h, App.loadPolls_eq]
    exact ⟨by simp [App.api.getPollsRequest, App.api.bearer, alert], rfl⟩
  · intro pollId h
    simp only [App.handleDeletePoll, App.api.deletePoll_eq net pollId w h, App.loadPolls_eq]
    exact ⟨by simp [App.api.getPollsRequest, App.api.bearer, alert], rfl⟩

/-- C10 amended, at a concrete input: a vote the server accepts, the poll list
it then reports being the list holding the sample poll. -/
theorem C10_mutation_followed_by_reload_witness :
    (App.handleVote (constNet (okResponse (.polls [samplePoll]))) "p1" "o1" App.State.init
      sampleWorld).1.polls = .polls [samplePoll] :=
  ((C10_mutation_followed_by_reload (constNet (okResponse (.polls [samplePoll])))
    App.State.init sampleWorld).1 "p1" "o1" _ rfl).2

/-- C11, as stated, fails when requests overlap.  A user logs in, the list loads,
and the user votes; `handleVote` then awaits `loadPolls`, and the interval of the
refresh effect, which `loading` does not hold back, calls `loadPolls` as well.
When the answer to the older `getPolls` arrives last, `polls` ends holding it,
the poll with one vote, while the most recent successful `getPolls` of the trace
was answered with the poll with two votes; no request is in flight any more.
Every event of the run is one the component offers. -/
theorem C11_older_getPolls_answer_arrives_last :
    (App.asyncRun sampleJSON overlapNet overlappingRefresh
        { state := App.State.init, world := sampleWorld, pending := [], delivered := [] }).map
      (fun c => (c.state.polls, App.latestPolls overlapNet c.world.requests, c.pending.length))
      = some (.polls [votedPoll], some (.polls [votedTwicePoll]), 0) ∧
    Data.polls [votedPoll] ≠ Data.polls [votedTwicePoll] := by
  exact ⟨by decide, by decide⟩

/-- C11, amended: in every state the App.js component can be in, responses
arriving in any order, `polls` is the initial empty list or the body of the
successful `getPolls` response that was delivered last, and that body is the
answer of the server to a `getPolls` of the trace.  Nothing else changes `polls`:
no event changes it when it starts (the handlers for vote, create, update, close
and delete and the option editing among them), and the delivery of a response
changes it only when it is a successful answer to a `getPolls`, whose body it
then holds; a failed `getPolls` and the answer to any other request leave it as
it was.  When every event runs with no other event in between, the response
delivered last is that of the most recent `getPolls`: `polls` is then the body of
the most recent successful `getPolls` of the trace. -/
theorem C11_polls_is_last_delivered_getPolls (J : JSON) (net : Net) (c : App.Async)
    (h : App.AsyncReachable J net c) :
    c.state.polls = (App.lastArrivedPolls c.delivered).getD (.polls []) ∧
    (∀ data : Data, App.lastArrivedPolls c.delivered = some data →
      ∃ hist req rest, c.world.requests = hist ++ req :: rest ∧ req.method = "GET" ∧
        net.answer hist req = some data) ∧
    (∀ (e : App.Event) (c' : App.Async), App.start J net e c = some c' →
      c'.state.polls = c.state.polls) ∧
    (∀ (i : Nat) (p : App.Pending) (c' : App.Async), c.pending[i]? = some p →
      App.deliver J net i c = some c' →
      c'.state.polls = p.polls.getD c.state.polls ∧
      (∀ (caller : Option App.Mutation) (message : String), p.cont = .loadPolls caller →
        App.api.getPollsResult p.result = .error message → c'.state.polls = c.state.polls)) ∧
    (∀ (s : App.State) (index : Nat) (value : String),
      (App.addOption s).polls = s.polls ∧ (App.updateOption index value s).polls = s.polls ∧
      (App.removeOption index s).polls = s.polls) ∧
    (∀ c0 : App.State × World, App.Reachable J net c0 →
      (∃ log, App.AsyncReachable J net
        { state := c0.1, world := c0.2, pending := [], delivered := log }) ∧
      c0.1.polls = (App.latestPolls net c0.2.requests).getD (.polls [])) := by
  have hinv := App.asyncReachable_inv J net c h
  refine ⟨hinv.1, App.lastArrivedPolls_answer net c hinv, ?_, ?_, ?_, ?_⟩
  · intro e c' hs
    exact (App.start_extends J net e c c' hs).1
  · intro i p c' hp hd
    simp only [App.deliver, hp, Option.some.injEq] at hd
    subst hd
    have hpolls := (App.resume_extends J net p
      { c with pending := c.pending.eraseIdx i, delivered := c.delivered ++ [p] }).1
    refine ⟨hpolls, ?_⟩
    intro caller message hk hres
    rw [hpolls]
    simp [App.Pending.polls, hk, hres]
  · intro s index value
    refine ⟨rfl, rfl, ?_⟩
    unfold App.removeOption
    split_ifs <;> rfl
  · intro c0 h0
    exact ⟨App.asyncReachable_of_reachable J net c0 h0, App.reachable_pollsInv J net c0 h0⟩

/-- C11 amended, at a concrete input: at the end of the run in which the answer
to the older `getPolls` arrives last, `polls` holds the body delivered last, the
poll with one vote. -/
theorem C11_polls_is_last_delivered_getPolls_witness :
    overlapEnd.state.polls = (App.lastArrivedPolls overlapEnd.delivered).getD (.polls []) ∧
    overlapEnd.state.polls = .polls [votedPoll] :=
  ⟨(C11_polls_is_last_delivered_getPolls sampleJSON overlapNet overlapEnd
      (App.asyncReachable_run sampleJSON overlapNet overlappingRefresh _ overlapEnd
        (App.AsyncReachable.init sampleWorld rfl) rfl)).1,
    by decide⟩

/-- C12, as stated, fails on the `api` object of services/api.js: it has no
`updatePoll` and no `closePoll` operation, so not all eight operations exist
there. -/
theorem C12_services_api_lacks_two_operations :
    "updatePoll" ∉ ServicesApi.api.operations ∧ "closePoll" ∉ ServicesApi.api.operations ∧
    ServicesApi.api.operations.length = 6 := by
  decide

/-- C12, amended: the `api` object of App.js has all eight operations and each
issues one request with the method and path of the interface table, for every
argument: login POST /auth/login, signup POST /auth/signup, getPolls GET /polls,
createPoll POST /polls, updatePoll PUT /polls/{id}, closePoll POST
/polls/{id}/close, vote POST /polls/{id}/vote with body {optionId}, deletePoll
DELETE /polls/{id}.  The `api` object of services/api.js has six of them, all
but updatePoll and closePoll, built the same way. -/
theorem C12_api_requests (J : JSON) (net : Net) (w : World)
    (email password name pollId optionId : String) (pollData : List (String × JVal)) :
    (App.api.operations = ["login", "signup", "getPolls", "createPoll", "updatePoll",
        "closePoll", "vote", "deletePoll"] ∧
      IssuesOne w (App.api.login J net email password w).2 "POST" "/auth/login"
        (some [("email", .str email), ("password", .str password)]) ∧
      IssuesOne w (App.api.signup J net email password name w).2 "POST" "/auth/signup"
        (some [("name", .str name), ("email", .str email), ("password", .str password)]) ∧
      IssuesOne w (App.api.getPolls net w).2 "GET" "/polls" none ∧
      IssuesOne w (App.api.createPoll net pollData w).2 "POST" "/polls" (some pollData) ∧
      IssuesOne w (App.api.updatePoll net pollId pollData w).2 "PUT" ("/polls/" ++ pollId)
        (some pollData) ∧
      IssuesOne w (App.api.closePoll net pollId w).2 "POST" ("/polls/" ++ pollId ++ "/close")
        none ∧
      IssuesOne w (App.api.vote net pollId optionId w).2 "POST" ("/polls/" ++ pollId ++ "/vote")
        (some [("optionId", .str optionId)]) ∧
      IssuesOne w (App.api.deletePoll net pollId w).2 "DELETE" ("/polls/" ++ pollId) none) ∧
    (ServicesApi.api.operations = ["login", "signup", "getPolls", "createPoll", "vote",
        "deletePoll"] ∧
      IssuesOne w (ServicesApi.api.login J net email password w).2 "POST" "/auth/login"
        (some [("email", .str email), ("password", .str password)]) ∧
      IssuesOne w (ServicesApi.api.signup J net email password name w).2 "POST" "/auth/signup"
        (some [("name", .str name), ("email", .str email), ("password", .str password)]) ∧
      IssuesOne w (ServicesApi.api.getPolls net w).2 "GET" "/polls" none ∧
      IssuesOne w (ServicesApi.api.createPoll net pollData w).2 "POST" "/polls"
        (some pollData) ∧
      IssuesOne w (ServicesApi.api.vote net pollId optionId w).2 "POST"
        ("/polls/" ++ pollId ++ "/vote") (some [("optionId", .str optionId)]) ∧
      IssuesOne w (ServicesApi.api.deletePoll net pollId w).2 "DELETE" ("/polls/" ++ pollId)
        none) := by
  refine ⟨⟨rfl, ?_, ?_, ?_, ?_, ?_, ?_, ?_, ?_⟩, ⟨rfl, ?_, ?_, ?_, ?_, ?_, ?_⟩⟩
  · exact ⟨_, App.api.login_requests J net email password w, rfl, rfl, rfl⟩
  · exact ⟨_, App.api.signup_requests J net email password name w, rfl, rfl, rfl⟩
  · exact ⟨_, App.api.getPolls_requests net w, rfl, rfl, rfl⟩
  · exact ⟨_, App.api.createPoll_requests net pollData w, rfl, rfl, rfl⟩
  · exact ⟨_, App.api.updatePoll_requests net pollId pollData w, rfl,
      by simp [App.api.updatePollRequest, String.append_assoc], rfl⟩
  · exact ⟨_, App.api.closePoll_requests net pollId w, rfl,
      by simp [App.api.closePollRequest, String.append_assoc], rfl⟩
  · exact ⟨_, App.api.vote_requests net pollId optionId w, rfl,
      by simp [App.api.voteRequest, String.append_assoc], rfl⟩
  · exact ⟨_, App.api.deletePoll_requests net pollId w, rfl,
      by simp [App.api.deletePollRequest, String.append_assoc], rfl⟩
  · exact ⟨_, ServicesApi.api.login_issues_one_request J net email password w, rfl, rfl, rfl⟩
  · exact ⟨_, ServicesApi.api.signup_issues_one_request J net email password name w, rfl, rfl,
      rfl⟩
  · exact ⟨_, ServicesApi.api.getPolls_issues_one_request net w, rfl, rfl, rfl⟩
  · exact ⟨_, ServicesApi.api.createPoll_issues_one_request net pollData w, rfl, rfl, rfl⟩
  · exact ⟨_, ServicesApi.api.vote_issues_one_request net pollId optionId w, rfl,
      by simp [ServicesApi.api.voteRequest, String.append_assoc], rfl⟩
  · exact ⟨_, ServicesApi.api.deletePoll_issues_one_request net pollId w, rfl,
      by simp [ServicesApi.api.deletePollRequest, String.append_assoc], rfl⟩

/-- C13: with the token `t` in local storage when the call is made, each of
getPolls, createPoll, updatePoll, closePoll, vote and deletePoll (App.js) sends
the header `Authorization` with value `Bearer ` followed by `t`; login and signup
send no `Authorization` header. -/
theorem C13_bearer_token_header (J : JSON) (net : Net) (w : World) (t : String)
    (email password name pollId optionId : String) (pollData : List (String × JVal))
    (ht : w.localStorage.getItem "token" = some t) :
    (SendsAuth w (App.api.getPolls net w).2 (some ("Bearer " ++ t)) ∧
      SendsAuth w (App.api.createPoll net pollData w).2 (some ("Bearer " ++ t)) ∧
      SendsAuth w (App.api.updatePoll net pollId pollData w).2 (some ("Bearer " ++ t)) ∧
      SendsAuth w (App.api.closePoll net pollId w).2 (some ("Bearer " ++ t)) ∧
      SendsAuth w (App.api.vote net pollId optionId w).2 (some ("Bearer " ++ t)) ∧
      SendsAuth w (App.api.deletePoll net pollId w).2 (some ("Bearer " ++ t))) ∧
    (SendsAuth w (App.api.login J net email password w).2 none ∧
      SendsAuth w (App.api.signup J net email password name w).2 none) := by
  have hb : App.api.bearer w = "Bearer " ++ t := by simp [App.api.bearer, ht, JS.template]
  have hne : ("Authorization" == "Content-Type") = false := by decide
  refine ⟨⟨?_, ?_, ?_, ?_, ?_, ?_⟩, ⟨?_, ?_⟩⟩
  · exact ⟨_, App.api.getPolls_requests net w, by simp [App.api.getPollsRequest, hb]⟩
  · exact ⟨_, App.api.createPoll_requests net pollData w,
      by simp [App.api.createPollRequest, hb, List.lookup_cons, hne]⟩
  · exact ⟨_, App.api.updatePoll_requests net pollId pollData w,
      by simp [App.api.updatePollRequest, hb, List.lookup_cons, hne]⟩
  · exact ⟨_, App.api.closePoll_requests net pollId w, by simp [App.api.closePollRequest, hb]⟩
  · exact ⟨_, App.api.vote_requests net pollId optionId w,
      by simp [App.api.voteRequest, hb, List.lookup_cons, hne]⟩
  · exact ⟨_, App.api.deletePoll_requests net pollId w,
      by simp [App.api.deletePollRequest, hb]⟩
  · exact ⟨_, App.api.login_requests J net email password w,
      by simp [App.api.loginRequest, List.lookup_cons, hne]⟩
  · exact ⟨_, App.api.signup_requests J net email password name w,
      by simp [App.api.signupRequest, List.lookup_cons, hne]⟩

/-- C13 at a concrete input: the token `tok` in local storage, a call of
getPolls. -/
theorem C13_bearer_token_header_witness :
    SendsAuth { sampleWorld with localStorage := [("token", "tok")] }
      (App.api.getPolls (constNet (okResponse (.polls [])))
        { sampleWorld with localStorage := [("token", "tok")] }).2
      (some ("Bearer " ++ "tok")) :=
  (C13_bearer_token_header sampleJSON (constNet (okResponse (.polls [])))
    { sampleWorld with localStorage := [("token", "tok")] } "tok" "ada@example.com" "secret"
    "Ada" "p1" "o1" [] rfl).1.1

/-- C14, as stated, fails: a successful response whose body is the JSON text
`null` parses, and the login and the signup of App.js throw on it, a `TypeError`
raised by the read of `data.token`; nothing is written to local storage. -/
theorem C14_login_throws_on_null_body :
    (throws (App.api.login sampleJSON (constNet nullResponse) "ada@example.com" "secret"
        sampleWorld).1 = true ∧
      thrownMessage (App.api.login sampleJSON (constNet nullResponse) "ada@example.com" "secret"
        sampleWorld).1 = some (JS.typeErrorMessage "null" "token") ∧
      (App.api.login sampleJSON (constNet nullResponse) "ada@example.com" "secret"
        sampleWorld).2.localStorage = []) ∧
    throws (App.api.signup sampleJSON (constNet nullResponse) "ada@example.com" "secret" "Ada"
      sampleWorld).1 = true ∧
    nullResponse = .resolved { ok := true, text := "null", json := .ok .null } := by
  exact ⟨⟨rfl, rfl, rfl⟩, rfl, rfl⟩

/-- C14, amended: when the server answers with a response whose body, if the
response is successful, parses to `d`, each of getPolls, createPoll, updatePoll,
closePoll and vote of App.js throws exactly when the response is not successful;
login and signup throw exactly when the response is not successful or `d` is
`null`; deletePoll throws exactly when the response is not successful and returns
on every successful response, whatever its body, which it does not read. -/
theorem C14_throws_iff_not_ok_or_null (J : JSON) (net : Net) (w : World) (response : Response)
    (email password name pollId optionId : String) (pollData : List (String × JVal))
    (hnet : ∀ req : Request, net w.requests req = .resolved response) :
    (∀ d : Data, (response.ok = true → response.json = .ok d) →
      ((throws (App.api.login J net email password w).1 = true ↔
          (response.ok = false ∨ d = .null)) ∧
        (throws (App.api.signup J net email password name w).1 = true ↔
          (response.ok = false ∨ d = .null))) ∧
      ((throws (App.api.getPolls net w).1 = true ↔ response.ok = false) ∧
        (throws (App.api.createPoll net pollData w).1 = true ↔ response.ok = false) ∧
        (throws (App.api.updatePoll net pollId pollData w).1 = true ↔ response.ok = false) ∧
        (throws (App.api.closePoll net pollId w).1 = true ↔ response.ok = false) ∧
        (throws (App.api.vote net pollId optionId w).1 = true ↔ response.ok = false))) ∧
    (throws (App.api.deletePoll net pollId w).1 = true ↔ response.ok = false) ∧
    (response.ok = true → (App.api.deletePoll net pollId w).1 = .ok ()) := by
  refine ⟨?_, ?_, ?_⟩
  · intro d hjson
    cases hok : response.ok with
    | false =>
      simp [App.api.login, App.api.signup, App.api.getPolls, App.api.createPoll,
        App.api.updatePoll, App.api.closePoll, App.api.vote, fetch, hnet, hok, throws]
    | true =>
      have hd := hjson hok
      by_cases hnull : d = .null <;>
        simp [App.api.login, App.api.signup, App.api.getPolls, App.api.createPoll,
          App.api.updatePoll, App.api.closePoll, App.api.vote, fetch, hnet, hok, hd, hnull,
          throws]
  · cases hok : response.ok <;> simp [App.api.deletePoll, fetch, hnet, hok, throws]
  · intro hok
    simp [App.api.deletePoll, fetch, hnet, hok]

/-- C14 amended, at concrete inputs: a successful response that carries a token
and a user record, on which login returns, and a successful response with the
body `null`, on which it throws. -/
theorem C14_throws_iff_not_ok_or_null_witness :
    throws (App.api.login sampleJSON (constNet (okResponse (.auth "tok" sampleUser)))
      "ada@example.com" "secret" sampleWorld).1 = false ∧
    throws (App.api.login sampleJSON (constNet nullResponse) "ada@example.com" "secret"
      sampleWorld).1 = true :=
  ⟨by
    have h := ((C14_throws_iff_not_ok_or_null sampleJSON
      (constNet (okResponse (.auth "tok" sampleUser))) sampleWorld
      { ok := true, text := "", json := .ok (.auth "tok" sampleUser) }
      "ada@example.com" "secret" "Ada" "p1" "o1" [] (fun _ => rfl)).1
        (.auth "tok" sampleUser) (fun _ => rfl)).1.1
    cases ht : throws (App.api.login sampleJSON (constNet (okResponse (.auth "tok" sampleUser)))
      "ada@example.com" "secret" sampleWorld).1 with
    | false => rfl
    | true => exact absurd (h.1 ht) (by decide),
   (((C14_throws_iff_not_ok_or_null sampleJSON (constNet nullResponse) sampleWorld
      { ok := true, text := "null", json := .ok .null }
      "ada@example.com" "secret" "Ada" "p1" "o1" [] (fun _ => rfl)).1
        .null (fun _ => rfl)).1.1).2 (Or.inr rfl)⟩

/-- C15, as stated, fails: on a failed response whose body is the text
`Bad credentials`, the login of App.js throws the fixed message `Login failed`,
and getPolls throws `Failed to fetch polls`. -/
theorem C15_login_ignores_body :
    thrownMessage (App.api.login sampleJSON (constNet (failResponse "Bad credentials"))
      "ada@example.com" "secret" sampleWorld).1 = some "Login failed" ∧
    thrownMessage (App.api.getPolls (constNet (failResponse "Bad credentials"))
      sampleWorld).1 = some "Failed to fetch polls" := by
  exact ⟨rfl, rfl⟩

/-- C15, amended: on a failed response, signup and vote of App.js and login and
signup of services/api.js throw an error whose message is the body text when the
body is not empty (and `Signup failed`, `Failed to vote`, `Login failed`,
`Signup failed` when it is); the other operations throw a fixed message whatever
the body; the vote of services/api.js reads the parsed body: it throws a
`TypeError` when that is `null`, the `error` field when the body has a non-empty
one, and `Failed to vote` otherwise, also when the body does not parse. -/
theorem C15_thrown_messages (J : JSON) (net : Net) (w : World) (response : Response)
    (email password name pollId optionId : String) (pollData : List (String × JVal))
    (hnet : ∀ req : Request, net w.requests req = .resolved response)
    (hok : response.ok = false) :
    (response.text ≠ "" →
      thrownMessage (App.api.signup J net email password name w).1 = some response.text ∧
      thrownMessage (App.api.vote net pollId optionId w).1 = some response.text ∧
      thrownMessage (ServicesApi.api.login J net email password w).1 = some response.text ∧
      thrownMessage (ServicesApi.api.signup J net email password name w).1
        = some response.text) ∧
    (response.text = "" →
      thrownMessage (App.api.signup J net email password name w).1 = some "Signup failed" ∧
      thrownMessage (App.api.vote net pollId optionId w).1 = some "Failed to vote" ∧
      thrownMessage (ServicesApi.api.login J net email password w).1 = some "Login failed" ∧
      thrownMessage (ServicesApi.api.signup J net email password name w).1
        = some "Signup failed") ∧
    (thrownMessage (App.api.login J net email password w).1 = some "Login failed" ∧
      thrownMessage (App.api.getPolls net w).1 = some "Failed to fetch polls" ∧
      thrownMessage (App.api.createPoll net pollData w).1 = some "Failed to create poll" ∧
      thrownMessage (App.api.updatePoll net pollId pollData w).1
        = some "Failed to update poll" ∧
      thrownMessage (App.api.closePoll net pollId w).1 = some "Failed to close poll" ∧
      thrownMessage (App.api.deletePoll net pollId w).1 = some "Failed to delete poll" ∧
      thrownMessage (ServicesApi.api.getPolls net w).1 = some "Failed to fetch polls" ∧
      thrownMessage (ServicesApi.api.createPoll net pollData w).1
        = some "Failed to create poll. Admin access required." ∧
      thrownMessage (ServicesApi.api.deletePoll net pollId w).1
        = some "Failed to delete poll") ∧
    thrownMessage (ServicesApi.api.vote net pollId optionId w).1 =
      some (match response.json with
        | .ok .null => JS.typeErrorMessage "null" "error"
        | .ok (.errorObj e) => if e = "" then "Failed to vote" else e
        | _ => "Failed to vote") := by
  refine ⟨fun htext => ⟨?_, ?_, ?_, ?_⟩, fun htext => ⟨?_, ?_, ?_, ?_⟩,
    ⟨?_, ?_, ?_, ?_, ?_, ?_, ?_, ?_, ?_⟩, ?_⟩
  · simp [App.api.signup, fetch, hnet, hok, htext, thrownMessage]
  · simp [App.api.vote, fetch, hnet, hok, htext, thrownMessage]
  · simp [ServicesApi.api.login, fetch, hnet, hok, htext, thrownMessage]
  · simp [ServicesApi.api.signup, fetch, hnet, hok, htext, thrownMessage]
  · simp [App.api.signup, fetch, hnet, hok, htext, thrownMessage]
  · simp [App.api.vote, fetch, hnet, hok, htext, thrownMessage]
  · simp [ServicesApi.api.login, fetch, hnet, hok, htext, thrownMessage]
  · simp [ServicesApi.api.signup, fetch, hnet, hok, htext, thrownMessage]
  · simp [App.api.login, fetch, hnet, hok, thrownMessage]
  · simp [App.api.getPolls, fetch, hnet, hok, thrownMessage]
  · simp [App.api.createPoll, fetch, hnet, hok, thrownMessage]
  · simp [App.api.updatePoll, fetch, hnet, hok, thrownMessage]
  · simp [App.api.closePoll, fetch, hnet, hok, thrownMessage]
  · simp [App.api.deletePoll, fetch, hnet, hok, thrownMessage]
  · simp [ServicesApi.api.getPolls, fetch, hnet, hok, thrownMessage]
  · simp [ServicesApi.api.createPoll, fetch, hnet, hok, thrownMessage]
  · simp [ServicesApi.api.deletePoll, fetch, hnet, hok, thrownMessage]
  · simp only [ServicesApi.api.vote, fetch, hnet, hok]
    cases hj : response.json with
    | error e => simp [thrownMessage]
    | ok d => cases d <;> simp [Data.error, thrownMessage]

/-- C15 amended, at concrete inputs: a failed signup whose body is the text
`Email already exists`, and a failed vote of services/api.js whose body is
`null`. -/
theorem C15_thrown_messages_witness :
    thrownMessage (App.api.signup sampleJSON (constNet (failResponse "Email already exists"))
      "ada@example.com" "secret" "Ada" sampleWorld).1 = some "Email already exists" ∧
    thrownMessage (ServicesApi.api.vote (constNet failedNullResponse) "p1" "o1" sampleWorld).1
      = some (JS.typeErrorMessage "null" "error") :=
  ⟨((C15_thrown_messages sampleJSON (constNet (failResponse "Email already exists")) sampleWorld
      { ok := false, text := "Email already exists", json := .error "Unexpected token" }
      "ada@example.com" "secret" "Ada" "p1" "o1" [] (fun _ => rfl) rfl).1 (by decide)).1,
   (C15_thrown_messages sampleJSON (constNet failedNullResponse) sampleWorld
      { ok := false, text := "null", json := .ok .null }
      "ada@example.com" "secret" "Ada" "p1" "o1" [] (fun _ => rfl) rfl).2.2.2⟩

/-- C16: the two vote functions differ on failures.  On a failed response whose
body is the JSON text of `{error: Already voted}`, the vote of App.js throws the
whole body text and the vote of services/api.js throws `Already voted`, two
different messages; on a failed response with an empty body, which does not
parse, both throw `Failed to vote`. -/
theorem C16_vote_error_messages (net : Net) (w : World) (response : Response)
    (pollId optionId e : String)
    (hnet : ∀ req : Request, net w.requests req = .resolved response)
    (hok : response.ok = false) (htext : response.text = "")
    (hjson : response.json = .error e) :
    (thrownMessage (App.api.vote net pollId optionId w).1 = some "Failed to vote" ∧
      thrownMessage (ServicesApi.api.vote net pollId optionId w).1 = some "Failed to vote") ∧
    (thrownMessage (App.api.vote (constNet alreadyVotedResponse) "p1" "o1" sampleWorld).1
        = some "\x7b\"error\":\"Already voted\"\x7d" ∧
      thrownMessage (ServicesApi.api.vote (constNet alreadyVotedResponse) "p1" "o1"
        sampleWorld).1 = some "Already voted" ∧
      thrownMessage (App.api.vote (constNet alreadyVotedResponse) "p1" "o1" sampleWorld).1
        ≠ thrownMessage (ServicesApi.api.vote (constNet alreadyVotedResponse) "p1" "o1"
            sampleWorld).1) := by
  refine ⟨⟨?_, ?_⟩, ⟨rfl, rfl, by decide⟩⟩
  · simp [App.api.vote, fetch, hnet, hok, htext, thrownMessage]
  · simp [ServicesApi.api.vote, fetch, hnet, hok, hjson, thrownMessage]

/-- C16 at a concrete input: a failed response with an empty body. -/
theorem C16_vote_error_messages_witness :
    thrownMessage (App.api.vote (constNet (failResponse "")) "p1" "o1" sampleWorld).1
      = some "Failed to vote" ∧
    thrownMessage (ServicesApi.api.vote (constNet (failResponse "")) "p1" "o1" sampleWorld).1
      = some "Failed to vote" :=
  (C16_vote_error_messages (constNet (failResponse "")) sampleWorld
    { ok := false, text := "", json := .error "Unexpected token" } "p1" "o1" "Unexpected token"
    (fun _ => rfl) rfl rfl rfl).1

/-- C17, as stated, fails on the `handleVote` of App.js: two votes rejected by
the server with different bodies leave different error messages and different
alert texts, each showing the body it received. -/
theorem C17_failed_votes_distinguishable :
    (App.handleVote (constNet (failResponse "Already voted")) "p1" "o1" App.State.init
      sampleWorld).1.error = "Already voted" ∧
    (App.handleVote (constNet (failResponse "Poll expired")) "p1" "o1" App.State.init
      sampleWorld).1.error = "Poll expired" ∧
    (App.handleVote (constNet (failResponse "Already voted")) "p1" "o1" App.State.init
      sampleWorld).2.alerts = [" Already voted"] ∧
    (App.handleVote (constNet (failResponse "Poll expired")) "p1" "o1" App.State.init
      sampleWorld).2.alerts = [" Poll expired"] := by
  exact ⟨rfl, rfl, rfl, rfl⟩

/-- C17, amended: for every poll id and option id, any two failed vote
submissions, whatever the cause of each failure, leave the `handleVote` of
services/api.js with the same state and world: the one generic error message and
the one alert text.  The `handleVote` of App.js reports the failure it met: on a
failed response, the body text, or `Failed to vote` when the body is empty, as the
error message and, after a blank, as the alert text. -/
theorem C17_failed_votes_same_state (net1 net2 : Net) (pollId optionId : String)
    (t : ServicesApi.State) (s : App.State) (w : World) (response : Response)
    (h1 : net1.answer w.requests (ServicesApi.api.voteRequest w pollId optionId) = none)
    (h2 : net2.answer w.requests (ServicesApi.api.voteRequest w pollId optionId) = none)
    (hnet : net1 w.requests (App.api.voteRequest w pollId optionId) = .resolved response)
    (hok : response.ok = false) :
    (ServicesApi.handleVote net1 pollId optionId t w
        = ServicesApi.handleVote net2 pollId optionId t w ∧
      (ServicesApi.handleVote net1 pollId optionId t w).1.error
        = "Failed to submit vote. You may have already voted." ∧
      (ServicesApi.handleVote net1 pollId optionId t w).2.alerts
        = w.alerts ++ ["Failed to submit vote. You may have already voted."]) ∧
    ((App.handleVote net1 pollId optionId s w).1.error
        = (if response.text = "" then "Failed to vote" else response.text) ∧
      (App.handleVote net1 pollId optionId s w).2.alerts
        = w.alerts ++ [" " ++ (if response.text = "" then "Failed to vote"
            else response.text)]) := by
  refine ⟨⟨?_, ?_, ?_⟩, ?_⟩
  · rw [ServicesApi.handleVote_failed net1 pollId optionId t w h1,
      ServicesApi.handleVote_failed net2 pollId optionId t w h2]
  · rw [ServicesApi.handleVote_failed net1 pollId optionId t w h1]
  · rw [ServicesApi.handleVote_failed net1 pollId optionId t w h1]
  · by_cases htext : response.text = ""
    · simp [App.handleVote, App.api.vote, fetch, hnet, hok, htext, alert]
    · simp [App.handleVote, App.api.vote, fetch, hnet, hok, htext, alert]

/-- C17 amended, at a concrete input: a vote rejected with the body `Already
voted` and a vote that met a network failure. -/
theorem C17_failed_votes_same_state_witness :
    ServicesApi.handleVote (constNet (failResponse "Already voted")) "p1" "o1"
        ServicesApi.State.init sampleWorld
      = ServicesApi.handleVote (constNet (.rejected "Failed to fetch")) "p1" "o1"
          ServicesApi.State.init sampleWorld :=
  (C17_failed_votes_same_state (constNet (failResponse "Already voted"))
    (constNet (.rejected "Failed to fetch")) "p1" "o1" ServicesApi.State.init App.State.init
    sampleWorld { ok := false, text := "Already voted", json := .error "Unexpected token" }
    rfl rfl rfl rfl).1.1

/-- C18, the code at the failing inputs: with the duration input `0` the
create-poll request of either component carries a `closesAt` equal to the
submission time, and with the duration input `-5` one that lies five hours
before it; neither is later than the submission time. -/
theorem C18_closesAt_not_later_than_submission :
    ((App.handleCreatePoll (constNet (okResponse (.polls []))) (sampleForm "0")
        sampleWorld).2.requests.head?.bind Request.closesAt = some sampleWorld.now ∧
      (App.handleCreatePoll (constNet (okResponse (.polls []))) (sampleForm "-5")
        sampleWorld).2.requests.head?.bind Request.closesAt
        = some (sampleWorld.now - 5 * 3600000)) ∧
    ((ServicesApi.handleCreatePoll (constNet (okResponse (.polls []))) (sampleServicesForm "0")
        sampleWorld).2.requests.head?.bind Request.closesAt = some sampleWorld.now ∧
      (ServicesApi.handleCreatePoll (constNet (okResponse (.polls [])))
        (sampleServicesForm "-5") sampleWorld).2.requests.head?.bind Request.closesAt
        = some (sampleWorld.now - 5 * 3600000)) := by
  decide

/-- C19: `handleUpdatePoll` (App.js), a poll being edited, issues no request when
the question is blank or fewer than 2 options are non-blank; otherwise it issues
exactly one PUT, to `/polls/{id}` with the id of the poll being edited, whose body
holds the two fields `question` and `options` and nothing else, `options` being
the non-blank entries of the form; the only other request it may issue is the
`getPolls` that follows a successful update. -/
theorem C19_handleUpdatePoll_request (net : Net) (s : App.State) (w : World) (p : Poll)
    (hp : s.editingPoll = some p) :
    (App.handleUpdatePoll net s w).2.requests =
      (if JS.trim s.pollQuestion = "" ∨
          (s.pollOptions.filter (fun o => JS.trim o != "")).length < 2 then w.requests
        else
          w.requests ++
            ({ method := "PUT", url := API_BASE_URL w.env ++ "/polls/" ++ p.id,
               headers := [("Content-Type", "application/json"),
                           ("Authorization", App.api.bearer w)],
               body := some [("question", .str s.pollQuestion),
                             ("options",
                               .strs (s.pollOptions.filter (fun o => JS.trim o != "")))] } ::
              (if (net.answer w.requests (App.api.updatePollRequest w p.id
                    [("question", .str s.pollQuestion),
                     ("options", .strs (s.pollOptions.filter (fun o => JS.trim o != "")))])).isSome
                then [App.api.getPollsRequest w] else []))) := by
  by_cases hc : JS.trim s.pollQuestion = "" ∨
      (s.pollOptions.filter (fun o => JS.trim o != "")).length < 2
  · simp only [App.handleUpdatePoll, if_pos hc]
  · simp only [App.handleUpdatePoll, if_neg hc, hp]
    cases ha : net.answer w.requests (App.api.updatePollRequest w p.id
        [("question", .str s.pollQuestion),
         ("options", .strs (s.pollOptions.filter (fun o => JS.trim o != "")))]) with
    | none =>
      obtain ⟨m, hm⟩ := App.api.updatePoll_fail net p.id _ w ha
      simp [hm, alert, App.api.updatePollRequest]
    | some d =>
      simp [App.api.updatePoll_eq net p.id _ w d ha, App.loadPolls_eq, alert,
        App.api.updatePollRequest, App.api.getPollsRequest, App.api.bearer]

/-- C19 at a concrete input: the edit form open on the sample poll with the
question reworded, the server refusing the update. -/
theorem C19_handleUpdatePoll_request_witness :
    (App.handleUpdatePoll (constNet (failResponse "Forbidden")) sampleEditForm
      sampleWorld).2.requests =
      [{ method := "PUT", url := "http://localhost:8080/api/polls/p1",
         headers := [("Content-Type", "application/json"), ("Authorization", "Bearer null")],
         body := some [("question", .str "Hot drink?"), ("options", .strs ["Tea", "Coffee"])] }]
    := by
  have h := C19_handleUpdatePoll_request (constNet (failResponse "Forbidden")) sampleEditForm
    sampleWorld samplePoll rfl
  rw [h]
  decide

/-- C20, as stated, fails on services/api.js: its poll card tests the status and
`hasVoted` only, so an ADMIN viewing an open poll on which he has not voted is
offered the vote buttons. -/
theorem C20_services_card_offers_vote_to_admin :
    sampleAdmin.role = "ADMIN" ∧
    ServicesApi.pollCard sampleAdmin openPoll = .voteButtons [("p2", "o1"), ("p2", "o2")] := by
  decide

/-- C20, amended: for every poll and every current user, the poll card of App.js
shows the vote buttons, one per option and each calling `handleVote` with the
poll's id and the option's id, exactly when the poll's status is `OPEN`, its
`hasVoted` is false and the user's role is not `ADMIN`, and shows the results in
every other case; the poll card of services/api.js shows the vote buttons exactly
when the status is `OPEN` and `hasVoted` is false, whatever the role, and the
results otherwise. -/
theorem C20_vote_offered (u : User) (p : Poll) :
    (App.pollCard u p =
        (if p.status = "OPEN" ∧ p.hasVoted = false ∧ u.role ≠ "ADMIN" then
          .voteButtons (p.options.map (fun o => (p.id, o.id)))
        else .results) ∧
      ((∃ actions, App.pollCard u p = .voteButtons actions) ↔
        (p.status = "OPEN" ∧ p.hasVoted = false ∧ u.role ≠ "ADMIN"))) ∧
    (ServicesApi.pollCard u p =
        (if p.status = "OPEN" ∧ p.hasVoted = false then
          .voteButtons (p.options.map (fun o => (p.id, o.id)))
        else .results) ∧
      ((∃ actions, ServicesApi.pollCard u p = .voteButtons actions) ↔
        (p.status = "OPEN" ∧ p.hasVoted = false))) := by
  refine ⟨⟨rfl, ?_⟩, ⟨rfl, ?_⟩⟩
  · unfold App.pollCard
    split_ifs with h
    · exact ⟨fun _ => h, fun _ => ⟨_, rfl⟩⟩
    · exact ⟨fun ⟨_, ha⟩ => (by cases ha), fun hc => absurd hc h⟩
  · unfold ServicesApi.pollCard
    split_ifs with h
    · exact ⟨fun _ => h, fun _ => ⟨_, rfl⟩⟩
    · exact ⟨fun ⟨_, ha⟩ => (by cases ha), fun hc => absurd hc h⟩

/-- C26: the option list of the poll form always has at least 2 entries.  In
App.js, in every state reached from the initial one (option list `['', '']`) by
any events, `handleEditPoll` being called on polls with at least two options and
`updateOption` at indices inside the list; in services/api.js, in every state
reached from an option list `['', '']` by addOption, updateOption at an index
inside the list, removeOption, cancel and submission.  In both, removeOption
changes nothing when the list has exactly 2 entries. -/
theorem C26_option_list_has_two_entries (J : JSON) (net : Net) (c : App.State × World)
    (t : ServicesApi.State) (hc : App.FormReachable J net c)
    (ht : ServicesApi.FormReachable net t) :
    (2 ≤ c.1.pollOptions.length ∧
      ∀ (s : App.State) (index : Nat), s.pollOptions.length = 2 → App.removeOption index s = s) ∧
    (2 ≤ t.newPollOptions.length ∧
      ∀ (s : ServicesApi.State) (index : Nat), s.newPollOptions.length = 2 →
        ServicesApi.removeOption index s = s) := by
  refine ⟨⟨?_, ?_⟩, ⟨?_, ?_⟩⟩
  · induction hc with
    | init w => exact Nat.le_refl 2
    | step e c c' _ hg hs ih => exact App.step_pollOptions_length J net e c c' ih hg hs
  · intro s index hlen
    unfold App.removeOption
    rw [if_neg (by omega)]
  · induction ht with
    | start s h => rw [h]; exact Nat.le_refl 2
    | addOption s _ ih =>
      simp only [ServicesApi.addOption, List.length_append, List.length_singleton]
      omega
    | updateOption s index value _ _ ih => simpa [ServicesApi.updateOption] using ih
    | removeOption s index _ ih =>
      unfold ServicesApi.removeOption
      split_ifs with hlen
      · simp only [enum_filter_ne_eq_eraseIdx]
        exact eraseIdx_length_ge_two _ _ hlen
      · exact ih
    | cancel s _ ih => exact Nat.le_refl 2
    | createPoll s w _ ih =>
      rcases ServicesApi.handleCreatePoll_newPollOptions net s w with h1 | h1 <;> rw [h1]
      · exact ih
      · exact Nat.le_refl 2
  · intro s index hlen
    unfold ServicesApi.removeOption
    rw [if_neg (by omega)]

/-- C26 at concrete states: one option added and one removed in App.js, one option
added and two removals tried in services/api.js. -/
theorem C26_option_list_has_two_entries_witness :
    2 ≤ (App.removeOption 0 (App.addOption App.State.init)).pollOptions.length ∧
    2 ≤ (ServicesApi.removeOption 1 (ServicesApi.removeOption 0
      (ServicesApi.addOption ServicesApi.State.init))).newPollOptions.length :=
  have h := C26_option_list_has_two_entries sampleJSON (constNet (failResponse ""))
    (App.removeOption 0 (App.addOption App.State.init), sampleWorld)
    (ServicesApi.removeOption 1 (ServicesApi.removeOption 0
      (ServicesApi.addOption ServicesApi.State.init)))
    (App.FormReachable.step (.removeOption 0) (App.addOption App.State.init, sampleWorld) _
      (App.FormReachable.step .addOption (App.State.init, sampleWorld) _
        (App.FormReachable.init sampleWorld) rfl rfl) rfl rfl)
    (ServicesApi.FormReachable.removeOption _ 1
      (ServicesApi.FormReachable.removeOption _ 0
        (ServicesApi.FormReachable.addOption _
          (ServicesApi.FormReachable.start ServicesApi.State.init rfl))))
  ⟨h.1.1, h.2.1⟩

/-- C29: for an index inside the option list, in either component: updateOption
yields a list of the same length that holds the value at the index and the old
entry at every other index; removeOption on a list longer than 2 yields the list
with the entry at the index removed, the entries before it keeping their place
and those after it moving up by one; addOption yields the list followed by one
empty string. -/
theorem C29_option_editing (s : App.State) (t : ServicesApi.State) (i : Nat) (v : String)
    (hs : i < s.pollOptions.length) (ht : i < t.newPollOptions.length) :
    (((App.updateOption i v s).pollOptions.length = s.pollOptions.length ∧
        (App.updateOption i v s).pollOptions[i]? = some v ∧
        ∀ j, j ≠ i → (App.updateOption i v s).pollOptions[j]? = s.pollOptions[j]?) ∧
      (2 < s.pollOptions.length →
        (App.removeOption i s).pollOptions = s.pollOptions.eraseIdx i ∧
        (App.removeOption i s).pollOptions.length + 1 = s.pollOptions.length ∧
        ∀ j, (App.removeOption i s).pollOptions[j]?
          = if j < i then s.pollOptions[j]? else s.pollOptions[j + 1]?) ∧
      (App.addOption s).pollOptions = s.pollOptions ++ [""]) ∧
    (((ServicesApi.updateOption i v t).newPollOptions.length = t.newPollOptions.length ∧
        (ServicesApi.updateOption i v t).newPollOptions[i]? = some v ∧
        ∀ j, j ≠ i →
          (ServicesApi.updateOption i v t).newPollOptions[j]? = t.newPollOptions[j]?) ∧
      (2 < t.newPollOptions.length →
        (ServicesApi.removeOption i t).newPollOptions = t.newPollOptions.eraseIdx i ∧
        (ServicesApi.removeOption i t).newPollOptions.length + 1 = t.newPollOptions.length ∧
        ∀ j, (ServicesApi.removeOption i t).newPollOptions[j]?
          = if j < i then t.newPollOptions[j]? else t.newPollOptions[j + 1]?) ∧
      (ServicesApi.addOption t).newPollOptions = t.newPollOptions ++ [""]) := by
  refine ⟨⟨⟨?_, ?_, ?_⟩, ?_, rfl⟩, ⟨⟨?_, ?_, ?_⟩, ?_, rfl⟩⟩
  · simp [App.updateOption]
  · simp [App.updateOption, hs]
  · intro j hj
    simp [App.updateOption, List.getElem?_set, Ne.symm hj]
  · intro hlen
    have he : (App.removeOption i s).pollOptions = s.pollOptions.eraseIdx i := by
      unfold App.removeOption
      rw [if_pos hlen]
      exact enum_filter_ne_eq_eraseIdx _ _
    refine ⟨he, ?_, ?_⟩
    · rw [he, List.length_eraseIdx, if_pos hs]
      omega
    · intro j
      rw [he, List.getElem?_eraseIdx]
  · simp [ServicesApi.updateOption]
  · simp [ServicesApi.updateOption, ht]
  · intro j hj
    simp [ServicesApi.updateOption, List.getElem?_set, Ne.symm hj]
  · intro hlen
    have he : (ServicesApi.removeOption i t).newPollOptions = t.newPollOptions.eraseIdx i := by
      unfold ServicesApi.removeOption
      rw [if_pos hlen]
      exact enum_filter_ne_eq_eraseIdx _ _
    refine ⟨he, ?_, ?_⟩
    · rw [he, List.length_eraseIdx, if_pos ht]
      omega
    · intro j
      rw [he, List.getElem?_eraseIdx]

/-- C29 at a concrete input: the list of three options `a`, `b`, `c`, index 1. -/
theorem C29_option_editing_witness :
    (App.updateOption 1 "x" { App.State.init with pollOptions := ["a", "b", "c"] }).pollOptions[1]?
      = some "x" ∧
    (App.removeOption 1 { App.State.init with pollOptions := ["a", "b", "c"] }).pollOptions
      = (["a", "b", "c"] : List String).eraseIdx 1 :=
  have h := C29_option_editing { App.State.init with pollOptions := ["a", "b", "c"] }
    { ServicesApi.State.init with newPollOptions := ["a", "b", "c"] } 1 "x"
    (by decide) (by decide)
  ⟨h.1.1.2.1, (h.1.2.1 (by decide)).1⟩

/-- C30, as stated, fails on services/api.js: its `getChartData` cuts at 15
characters, not 20, and passes the vote count through as it is.  An option whose
text has 16 characters gets a name of 18 characters, the first 15 followed by
three dots, where App.js gives the text itself; and a missing vote count stays
`undefined`. -/
theorem C30_services_chart_cuts_at_fifteen :
    JS.length sixteenCharOption.text = 16 ∧
    (ServicesApi.getChartData [sixteenCharOption]).map (fun e => e.name)
      = [(JS.units sixteenCharOption.text).take 15 ++ JS.units "..."] ∧
    (App.getChartData [sixteenCharOption]).map (fun e => e.name)
      = [JS.units sixteenCharOption.text] ∧
    (ServicesApi.getChartData optionsWithMissingCount).map (fun e => e.votes)
      = [some 3, none] := by
  decide

/-- C30, amended: for every option list, `getChartData` returns a list of the
same length and order.  In App.js entry `i` has as name the option's text when
the text has at most 20 characters (UTF-16 code units, what `length` counts) and
otherwise its first 20 characters followed by three dots, so at most 23
characters, and as votes the option's vote count, or 0 when the count is missing.
In services/api.js the cut is at 15 characters, so a name has at most 18, and the
votes are the option's vote count as it is, missing when it is missing. -/
theorem C30_getChartData (options : List PollOption) :
    ((App.getChartData options).length = options.length ∧
      (∀ i : Nat, (App.getChartData options)[i]? = options[i]?.map (fun opt =>
        { name := if JS.length opt.text ≤ 20 then JS.units opt.text
                  else (JS.units opt.text).take 20 ++ JS.units "...",
          votes := some (opt.votes.getD 0) })) ∧
      (∀ e ∈ App.getChartData options, e.name.length ≤ 23)) ∧
    ((ServicesApi.getChartData options).length = options.length ∧
      (∀ i : Nat, (ServicesApi.getChartData options)[i]? = options[i]?.map (fun opt =>
        { name := if JS.length opt.text ≤ 15 then JS.units opt.text
                  else (JS.units opt.text).take 15 ++ JS.units "...",
          votes := opt.votes })) ∧
      (∀ e ∈ ServicesApi.getChartData options, e.name.length ≤ 18)) := by
  have hdots : (JS.units "...").length = 3 := by decide
  refine ⟨⟨?_, ?_, ?_⟩, ⟨?_, ?_, ?_⟩⟩
  · simp [App.getChartData]
  · intro i
    simp only [App.getChartData, List.getElem?_map]
    congr 1
    funext opt
    by_cases h : JS.length opt.text ≤ 20
    · rw [if_pos h, if_neg (by omega)]
    · rw [if_neg h, if_pos (by omega)]
  · intro e he
    simp only [App.getChartData, List.mem_map] at he
    obtain ⟨opt, _, rfl⟩ := he
    simp only []
    split_ifs with h
    · simp only [List.length_append, List.length_take, hdots]
      omega
    · rw [JS.units_length]
      omega
  · simp [ServicesApi.getChartData]
  · intro i
    simp only [ServicesApi.getChartData, List.getElem?_map]
    congr 1
    funext opt
    by_cases h : JS.length opt.text ≤ 15
    · rw [if_pos h, if_neg (by omega)]
    · rw [if_neg h, if_pos (by omega)]
  · intro e he
    simp only [ServicesApi.getChartData, List.mem_map] at he
    obtain ⟨opt, _, rfl⟩ := he
    simp only []
    split_ifs with h
    · simp only [List.length_append, List.length_take, hdots]
      omega
    · rw [JS.units_length]
      omega

/-- C28, the code at the failing input: a poll with the options Tea, 3 votes,
and Coffee, vote count missing.  In App.js the total is 3 and the percentage of
Tea is 100, but the percentage of Coffee is `NaN`, not 0: the quotient
`option.votes / totalVotes` is taken on the missing count itself.  In
services/api.js the total is `NaN` and both percentages are 0. -/
theorem C28_missing_count_percentage_is_NaN :
    (App.totalVotes optionsWithMissingCount = 3 ∧
      App.percentage optionsWithMissingCount { id := "o1", text := "Tea", votes := some 3 }
        = some 100 ∧
      App.percentage optionsWithMissingCount { id := "o2", text := "Coffee", votes := none }
        = none) ∧
    (ServicesApi.totalVotes optionsWithMissingCount = none ∧
      ServicesApi.percentage optionsWithMissingCount
        { id := "o1", text := "Tea", votes := some 3 } = some 0 ∧
      ServicesApi.percentage optionsWithMissingCount
        { id := "o2", text := "Coffee", votes := none } = some 0) := by
  refine ⟨⟨by decide, ?_, by decide⟩, ⟨by decide, by decide, by decide⟩⟩
  have h3 : App.totalVotes optionsWithMissingCount = 3 := by decide
  simp only [App.percentage, h3]
  norm_num

/-- C27: every create or update submission that is accepted, that is, for which
a request is issued, sends in that request the question with its original text
and, as options, the form entries that are non-empty after trimming and no
others, in their original order and with their original text; no option sent is
empty or blank, and at least 2 options are sent.  This holds for
`handleCreatePoll` and `handleUpdatePoll` of App.js in every state, for the
submit button of App.js, which calls one or the other, and for
`handleCreatePoll` of services/api.js. -/
theorem C27_submitted_question_and_options (net : Net) (w : World) (s u : App.State)
    (t : ServicesApi.State) :
    ((App.handleCreatePoll net s w).2.requests ≠ w.requests →
      SendsEntries w (App.handleCreatePoll net s w).2 s.pollQuestion s.pollOptions) ∧
    ((App.handleUpdatePoll net u w).2.requests ≠ w.requests →
      SendsEntries w (App.handleUpdatePoll net u w).2 u.pollQuestion u.pollOptions) ∧
    ((App.submit net s w).2.requests ≠ w.requests →
      SendsEntries w (App.submit net s w).2 s.pollQuestion s.pollOptions) ∧
    ((ServicesApi.handleCreatePoll net t w).2.requests ≠ w.requests →
      SendsEntries w (ServicesApi.handleCreatePoll net t w).2 t.newPollQuestion
        t.newPollOptions) := by
  have hcreate : ∀ s : App.State, (App.handleCreatePoll net s w).2.requests ≠ w.requests →
      SendsEntries w (App.handleCreatePoll net s w).2 s.pollQuestion s.pollOptions := by
    intro s h
    obtain ⟨hq, hopts, closesAt, hdate⟩ := App.handleCreatePoll_submitted net s w h
    obtain ⟨rest, hr⟩ := App.handleCreatePoll_issues net s w closesAt hq hopts hdate
    exact sendsEntries_of_first_request w _ _ rest _ _ hr rfl rfl hopts
  have hupdate : ∀ s : App.State, (App.handleUpdatePoll net s w).2.requests ≠ w.requests →
      SendsEntries w (App.handleUpdatePoll net s w).2 s.pollQuestion s.pollOptions := by
    intro s h
    obtain ⟨hq, hopts, p, hedit⟩ := App.handleUpdatePoll_submitted net s w h
    obtain ⟨rest, hr⟩ := App.handleUpdatePoll_issues net s w p hq hopts hedit
    exact sendsEntries_of_first_request w _ _ rest _ _ hr rfl rfl hopts
  refine ⟨hcreate s, hupdate u, ?_, ?_⟩
  · unfold App.submit
    split_ifs
    · exact hupdate s
    · exact hcreate s
  · intro h
    obtain ⟨hq, hopts, closesAt, hdate⟩ := ServicesApi.handleCreatePoll_passed_checks net t w h
    obtain ⟨rest, hr⟩ :=
      ServicesApi.handleCreatePoll_issues_create_first net t w closesAt hq hopts hdate
    exact sendsEntries_of_first_request w _ _ rest _ _ hr rfl rfl hopts

/-- C27 at concrete inputs: the create form of App.js, no poll being edited, with
a blank entry between its two options; the edit form open on the sample poll with
a blank third entry added; and the create form of services/api.js. -/
theorem C27_submitted_question_and_options_witness :
    SendsEntries sampleWorld
      (App.handleCreatePoll (constNet (okResponse (.polls [])))
        (App.updateOption 2 "Coffee" (App.updateOption 1 "  " (App.addOption (sampleForm "24"))))
        sampleWorld).2
      "Drink?" ["Tea", "  ", "Coffee"] ∧
    SendsEntries sampleWorld
      (App.handleUpdatePoll (constNet (okResponse (.polls [])))
        (App.updateOption 2 "  " (App.addOption sampleEditForm)) sampleWorld).2
      "Hot drink?" ["Tea", "Coffee", "  "] ∧
    SendsEntries sampleWorld
      (ServicesApi.handleCreatePoll (constNet (okResponse (.polls []))) (sampleServicesForm "24")
        sampleWorld).2
      "Drink?" ["Tea", "Coffee"] :=
  ⟨(C27_submitted_question_and_options (constNet (okResponse (.polls []))) sampleWorld
      (App.updateOption 2 "Coffee" (App.updateOption 1 "  " (App.addOption (sampleForm "24"))))
      (App.updateOption 2 "  " (App.addOption sampleEditForm)) (sampleServicesForm "24")).1
      (by decide),
   (C27_submitted_question_and_options (constNet (okResponse (.polls []))) sampleWorld
      (App.updateOption 2 "Coffee" (App.updateOption 1 "  " (App.addOption (sampleForm "24"))))
      (App.updateOption 2 "  " (App.addOption sampleEditForm)) (sampleServicesForm "24")).2.1
      (by decide),
   (C27_submitted_question_and_options (constNet (okResponse (.polls []))) sampleWorld
      (App.updateOption 2 "Coffee" (App.updateOption 1 "  " (App.addOption (sampleForm "24"))))
      (App.updateOption 2 "  " (App.addOption sampleEditForm)) (sampleServicesForm "24")).2.2.2
      (by decide)⟩

/-- C25: when the request of login, signup, vote, create, update, close or delete
fails (the call throws: network failure, unsuccessful response, or a body that
does not parse where one is read), the handler of App.js leaves local storage as
it was, leaves every cell of the state as it was except the error message and
`loading`, which ends false, so `currentUser`, `polls`, `view`, `editingPoll` and
the form fields are untouched, and the failed request is the only request it
issued: no `getPolls` follows. -/
theorem C25_failed_request_is_atomic (J : JSON) (net : Net) (s : App.State) (w : World) :
    (s.email ≠ "" → s.password ≠ "" →
      net.answer w.requests (App.api.loginRequest w s.email s.password) = none →
      App.FailedAtomically s w (App.api.loginRequest w s.email s.password)
        (App.handleLogin J net s w)) ∧
    (s.email ≠ "" → s.name ≠ "" → 6 ≤ JS.length s.password →
      net.answer w.requests (App.api.signupRequest w s.email s.password s.name) = none →
      App.FailedAtomically s w (App.api.signupRequest w s.email s.password s.name)
        (App.handleSignup J net s w)) ∧
    (∀ pollId optionId : String,
      net.answer w.requests (App.api.voteRequest w pollId optionId) = none →
      App.FailedAtomically s w (App.api.voteRequest w pollId optionId)
        (App.handleVote net pollId optionId s w)) ∧
    (∀ t : Int, JS.trim s.pollQuestion ≠ "" →
      2 ≤ (s.pollOptions.filter (fun o => JS.trim o != "")).length →
      JS.addHours w.now (JS.parseInt s.pollDuration) = some t →
      net.answer w.requests (App.api.createPollRequest w
        [("question", .str s.pollQuestion),
         ("options", .strs (s.pollOptions.filter (fun o => JS.trim o != ""))),
         ("closesAt", .date t)]) = none →
      App.FailedAtomically s w (App.api.createPollRequest w
        [("question", .str s.pollQuestion),
         ("options", .strs (s.pollOptions.filter (fun o => JS.trim o != ""))),
         ("closesAt", .date t)])
        (App.handleCreatePoll net s w)) ∧
    (∀ p : Poll, s.editingPoll = some p → JS.trim s.pollQuestion ≠ "" →
      2 ≤ (s.pollOptions.filter (fun o => JS.trim o != "")).length →
      net.answer w.requests (App.api.updatePollRequest w p.id
        [("question", .str s.pollQuestion),
         ("options", .strs (s.pollOptions.filter (fun o => JS.trim o != "")))]) = none →
      App.FailedAtomically s w (App.api.updatePollRequest w p.id
        [("question", .str s.pollQuestion),
         ("options", .strs (s.pollOptions.filter (fun o => JS.trim o != "")))])
        (App.handleUpdatePoll net s w)) ∧
    (∀ pollId : String,
      net.answer w.requests (App.api.closePollRequest w pollId) = none →
      App.FailedAtomically s w (App.api.closePollRequest w pollId)
        (App.handleClosePoll net true pollId s w)) ∧
    (∀ pollId : String,
      net.accepts w.requests (App.api.deletePollRequest w pollId) = false →
      App.FailedAtomically s w (App.api.deletePollRequest w pollId)
        (App.handleDeletePoll net true pollId s w)) := by
  refine ⟨?_, ?_, ?_, ?_, ?_, ?_, ?_⟩
  · intro he hp hfail
    obtain ⟨m, hm⟩ := App.api.login_fail J net s.email s.password w hfail
    have hc : ¬ (s.email = "" ∨ s.password = "") := by tauto
    simp only [App.handleLogin, if_neg hc, hm]
    exact ⟨⟨_, rfl⟩, rfl, rfl⟩
  · intro he hn hp hfail
    obtain ⟨m, hm⟩ := App.api.signup_fail J net s.email s.password s.name w hfail
    have hpw : s.password ≠ "" := JS.length_pos_ne_empty _ (by omega)
    have hc : ¬ (s.email = "" ∨ s.password = "" ∨ s.name = "") := by tauto
    have hl : ¬ (JS.length s.password < 6) := by omega
    simp only [App.handleSignup, if_neg hc, if_neg hl, hm]
    exact ⟨⟨_, rfl⟩, rfl, rfl⟩
  · intro pollId optionId hfail
    obtain ⟨m, hm⟩ := App.api.vote_fail net pollId optionId w hfail
    simp only [App.handleVote, hm]
    exact ⟨⟨_, rfl⟩, rfl, rfl⟩
  · intro t hq hopts hdate hfail
    obtain ⟨m, hm⟩ := App.api.createPoll_fail net _ w hfail
    have hq2 : ¬ (JS.trim s.pollQuestion = "") := hq
    have hopts2 : ¬ ((s.pollOptions.filter (fun o => JS.trim o != "")).length < 2) := by omega
    simp only [App.handleCreatePoll, if_neg hq2, if_neg hopts2, hdate, hm]
    exact ⟨⟨_, rfl⟩, rfl, rfl⟩
  · intro p hedit hq hopts hfail
    obtain ⟨m, hm⟩ := App.api.updatePoll_fail net p.id _ w hfail
    have hc : ¬ (JS.trim s.pollQuestion = "" ∨
        (s.pollOptions.filter (fun o => JS.trim o != "")).length < 2) := by
      intro hc
      rcases hc with hc | hc
      · exact hq hc
      · omega
    simp only [App.handleUpdatePoll, if_neg hc, hedit, hm]
    exact ⟨⟨"Failed to update poll", by simp [hedit]⟩, rfl, rfl⟩
  · intro pollId hfail
    obtain ⟨m, hm⟩ := App.api.closePoll_fail net pollId w hfail
    simp only [App.handleClosePoll, hm]
    exact ⟨⟨s.error, rfl⟩, rfl, rfl⟩
  · intro pollId hfail
    obtain ⟨m, hm⟩ := App.api.deletePoll_fail net pollId w hfail
    simp only [App.handleDeletePoll, hm]
    exact ⟨⟨s.error, rfl⟩, rfl, rfl⟩

/-- C25 at a concrete input: a vote the server rejects. -/
theorem C25_failed_request_is_atomic_witness :
    App.FailedAtomically { App.State.init with polls := .polls [samplePoll], view := "polls" }
      sampleWorld (App.api.voteRequest sampleWorld "p1" "o1")
      (App.handleVote (constNet (failResponse "Already voted")) "p1" "o1"
        { App.State.init with polls := .polls [samplePoll], view := "polls" } sampleWorld) :=
  (C25_failed_request_is_atomic sampleJSON (constNet (failResponse "Already voted"))
    { App.State.init with polls := .polls [samplePoll], view := "polls" } sampleWorld).2.2.1
    "p1" "o1" rfl

/-- C22, as stated, fails: a vote the server accepts makes `handleVote` (App.js)
issue two requests, the vote and then a `getPolls`; a delete that the user does
not confirm issues none. -/
theorem C22_successful_vote_issues_two_requests :
    (App.handleVote (constNet (okResponse (.polls [samplePoll]))) "p1" "o1" App.State.init
      sampleWorld).2.requests
      = [App.api.voteRequest sampleWorld "p1" "o1", App.api.getPollsRequest sampleWorld] ∧
    (App.handleDeletePoll (constNet (okResponse (.polls []))) false "p1" App.State.init
      sampleWorld).2.requests = [] := by
  exact ⟨rfl, rfl⟩

/-- C22, amended: the requests of each action of the App.js component, the
handler followed by the refresh effect when `currentUser` changed.
A timer tick issues one request, the `getPolls`.
A login or signup that passes the local checks, from the form shown when there is
no current user, issues the login or signup request; when the answer carries a
token and a user record the refresh effect then issues one `getPolls`, with the
new token, and in every other case (failure, a body without a user record, the
body `null`) nothing follows.
A vote, a confirmed close and a confirmed delete issue the mutating request and,
when it succeeds, one `getPolls` after it, nothing after it when it fails.
A create or an update that passes the local checks does the same, except that a
create whose duration gives no valid closing date and an update with no poll
being edited issue no request.
An action stopped by a local check, and a close or delete that is not confirmed,
issue no request. -/
theorem C22_requests_per_action (J : JSON) (net : Net) (c : App.Config) :
    (∀ id : Nat, (App.tick net id c).world.requests = c.world.requests ++
      (if c.timers.active.any (fun i => i.id == id) then [App.api.getPollsRequest c.world]
        else [])) ∧
    (c.state.currentUser = none → c.state.email ≠ "" → c.state.password ≠ "" →
      App.Issues J net .login c
        (App.api.loginRequest c.world c.state.email c.state.password ::
          match net.answer c.world.requests
              (App.api.loginRequest c.world c.state.email c.state.password) with
          | some (.auth token user) =>
            [App.api.getPollsRequest
              { c.world with localStorage := (c.world.localStorage.setItem "token" token).setItem
                                               "user" (J.stringify user) }]
          | _ => [])) ∧
    (c.state.currentUser = none → c.state.email ≠ "" → c.state.name ≠ "" →
      6 ≤ JS.length c.state.password →
      App.Issues J net .signup c
        (App.api.signupRequest c.world c.state.email c.state.password c.state.name ::
          match net.answer c.world.requests
              (App.api.signupRequest c.world c.state.email c.state.password c.state.name) with
          | some (.auth token user) =>
            [App.api.getPollsRequest
              { c.world with localStorage := (c.world.localStorage.setItem "token" token).setItem
                                               "user" (J.stringify user) }]
          | _ => [])) ∧
    (∀ pollId optionId : String,
      App.Issues J net (.vote pollId optionId) c
        (App.api.voteRequest c.world pollId optionId ::
          if (net.answer c.world.requests (App.api.voteRequest c.world pollId optionId)).isSome
          then [App.api.getPollsRequest c.world] else [])) ∧
    (∀ pollId : String,
      App.Issues J net (.closePoll false pollId) c [] ∧
      App.Issues J net (.closePoll true pollId) c
        (App.api.closePollRequest c.world pollId ::
          if (net.answer c.world.requests (App.api.closePollRequest c.world pollId)).isSome
          then [App.api.getPollsRequest c.world] else [])) ∧
    (∀ pollId : String,
      App.Issues J net (.deletePoll false pollId) c [] ∧
      App.Issues J net (.deletePoll true pollId) c
        (App.api.deletePollRequest c.world pollId ::
          if net.accepts c.world.requests (App.api.deletePollRequest c.world pollId) = true
          then [App.api.getPollsRequest c.world] else [])) ∧
    (JS.trim c.state.pollQuestion ≠ "" →
      2 ≤ (c.state.pollOptions.filter (fun o => JS.trim o != "")).length →
      App.Issues J net .createPoll c
        (match JS.addHours c.world.now (JS.parseInt c.state.pollDuration) with
          | none => []
          | some t =>
            App.api.createPollRequest c.world
              [("question", .str c.state.pollQuestion),
               ("options", .strs (c.state.pollOptions.filter (fun o => JS.trim o != ""))),
               ("closesAt", .date t)] ::
            if (net.answer c.world.requests (App.api.createPollRequest c.world
                [("question", .str c.state.pollQuestion),
                 ("options", .strs (c.state.pollOptions.filter (fun o => JS.trim o != ""))),
                 ("closesAt", .date t)])).isSome
            then [App.api.getPollsRequest c.world] else []) ∧
      App.Issues J net .updatePoll c
        (match c.state.editingPoll with
          | none => []
          | some p =>
            App.api.updatePollRequest c.world p.id
              [("question", .str c.state.pollQuestion),
               ("options", .strs (c.state.pollOptions.filter (fun o => JS.trim o != "")))] ::
            if (net.answer c.world.requests (App.api.updatePollRequest c.world p.id
                [("question", .str c.state.pollQuestion),
                 ("options",
                   .strs (c.state.pollOptions.filter (fun o => JS.trim o != "")))])).isSome
            then [App.api.getPollsRequest c.world] else [])) ∧
    (((c.state.email = "" ∨ c.state.password = "") → App.Issues J net .login c []) ∧
      ((c.state.email = "" ∨ c.state.password = "" ∨ c.state.name = "" ∨
          JS.length c.state.password < 6) → App.Issues J net .signup c []) ∧
      ((JS.trim c.state.pollQuestion = "" ∨
          (c.state.pollOptions.filter (fun o => JS.trim o != "")).length < 2) →
        App.Issues J net .createPoll c [] ∧ App.Issues J net .updatePoll c [])) := by
  refine ⟨?_, App.login_issues J net c, App.signup_issues J net c, App.vote_issues J net c,
    App.closePoll_issues J net c, App.deletePoll_issues J net c,
    fun hq hopts =>
      ⟨App.createPoll_issues J net c hq hopts, App.updatePoll_issues J net c hq hopts⟩,
    App.rejected_issues_nothing J net c⟩
  intro id
  unfold App.tick
  split_ifs <;> simp [App.loadPolls_eq]

/-- C22 amended, at concrete inputs: a login answered with a token and the sample
user issues the login request and then the `getPolls` of the refresh effect, which
carries the new token; a create submission with an empty duration passes both
local checks and issues no request. -/
theorem C22_requests_per_action_witness :
    App.Issues sampleJSON (constNet (okResponse (.auth "tok" sampleUser))) .login
      sampleLoginConfig
      [App.api.loginRequest sampleWorld "ada@example.com" "secret",
       { method := "GET", url := "http://localhost:8080/api/polls",
         headers := [("Authorization", "Bearer tok")], body := none }] ∧
    App.Issues sampleJSON (constNet (okResponse (.polls []))) .createPoll
      (sampleCreateConfig "") [] :=
  ⟨(C22_requests_per_action sampleJSON (constNet (okResponse (.auth "tok" sampleUser)))
      sampleLoginConfig).2.1 rfl (by decide) (by decide),
   ((C22_requests_per_action sampleJSON (constNet (okResponse (.polls [])))
      (sampleCreateConfig "")).2.2.2.2.2.2.1 (by decide) (by decide)).1⟩

/-- C23, the code at the failing inputs.  An admin logs in, opens the open poll in
the edit form and presses All Polls: every event is one the component offers, and
the view is `polls` while `editingPoll` still holds the poll.  When the list then
refreshes to the empty list and the admin presses Create your first poll, the
view is `create` with `editingPoll` still set: the form is titled `Edit Poll` and
its submit button runs `handleUpdatePoll`, not `handleCreatePoll`. -/
theorem C23_editingPoll_survives_navigation :
    (App.run sampleJSON adminSessionNet editThenAllPolls (App.State.init, sampleWorld)).map
        (fun c => (c.1.view, c.1.editingPoll)) = some ("polls", some openPoll) ∧
    (App.run sampleJSON adminSessionNet editThenCreateFirst (App.State.init, sampleWorld)).map
        (fun c => (c.1.view, c.1.editingPoll, App.formTitle c.1))
      = some ("create", some openPoll, "Edit Poll") ∧
    (App.run sampleJSON adminSessionNet editThenCreateFirst (App.State.init, sampleWorld)).map
        (fun c => (App.submit adminSessionNet c.1 c.2).1)
      = (App.run sampleJSON adminSessionNet editThenCreateFirst
          (App.State.init, sampleWorld)).map
        (fun c => (App.handleUpdatePoll adminSessionNet c.1 c.2).1) := by
  refine ⟨by decide, by decide, by decide⟩

/-- C24, the code at the failing input.  A user logs in, the list loads the sample
poll, on which that user has voted, and the user logs out: after the logout of
App.js `polls` still holds that poll.  An admin then logs in and the refresh that
follows fails: the admin is the current user, the view is `polls`, and `polls`
still holds the previous user's poll with its `hasVoted` and `userVote` marks.
The `handleLogout` of services/api.js, on the same state, empties `polls`. -/
theorem C24_logout_keeps_previous_polls :
    (App.run sampleJSON twoSessionsNet (logoutThenLogin.take 5)
        (App.State.init, sampleWorld)).map (fun c => (c.1.currentUser, c.1.polls))
      = some (none, .polls [samplePoll]) ∧
    (App.run sampleJSON twoSessionsNet logoutThenLogin (App.State.init, sampleWorld)).map
        (fun c => (c.1.currentUser, c.1.view, c.1.polls))
      = some (some sampleAdmin, "polls", .polls [samplePoll]) ∧
    (samplePoll.hasVoted = true ∧ samplePoll.userVote = some "o1") ∧
    (ServicesApi.handleLogout
      { ServicesApi.State.init with currentUser := some sampleUser, view := "polls",
                                    polls := .polls [samplePoll] } sampleWorld).1.polls
      = .polls [] := by
  refine ⟨by decide, by decide, ⟨rfl, rfl⟩, rfl⟩

/-- C21, as stated, fails on services/api.js: its load effect, run with a current
user, performs the one `loadPolls` and schedules nothing; no interval is set. -/
theorem C21_services_effect_sets_no_interval :
    (ServicesApi.loadEffect (constNet (okResponse (.polls [samplePoll])))
      { ServicesApi.State.init with currentUser := some sampleUser, view := "polls" }
      sampleWorld { active := [], nextId := 0 }).2.1.active = [] ∧
    (ServicesApi.loadEffect (constNet (okResponse (.polls [samplePoll])))
      { ServicesApi.State.init with currentUser := some sampleUser, view := "polls" }
      sampleWorld { active := [], nextId := 0 }).1.2.requests
      = [ServicesApi.api.getPollsRequest sampleWorld] := by
  exact ⟨rfl, rfl⟩

/-- C21, amended: the refresh effect of App.js sets one interval of `loadPolls`,
of period exactly 30000 ms, when `currentUser` is non-null and none when it is
null; it performs one immediate `loadPolls` when it sets the interval; its
cleanup clears that same interval.  Over the life of the component, React
re-running the effect whenever `currentUser` changes, no interval is active while
`currentUser` is null, so that no interval firing issues a request then, and
exactly one interval, of period 30000 ms, is active while it is non-null.  The
load effect of services/api.js performs the one immediate `loadPolls` when
`currentUser` is non-null and never sets an interval. -/
theorem C21_refresh_effect (J : JSON) (net : Net) (s : App.State) (t : ServicesApi.State)
    (w : World) (timers : Timers) (c : App.Config) (hc : App.Lifecycle J net c) :
    ((App.refreshEffect net s w timers).2.1.active
        = (if s.currentUser.isSome then
            timers.active ++ [{ id := timers.nextId, period := 30000 }]
          else timers.active) ∧
      (App.refreshEffect net s w timers).1
        = (if s.currentUser.isSome then App.loadPolls net s w else (s, w)) ∧
      ((∀ i ∈ timers.active, i.id < timers.nextId) →
        (App.refreshCleanup (App.refreshEffect net s w timers).2.2
          (App.refreshEffect net s w timers).2.1).active = timers.active)) ∧
    ((c.state.currentUser = none →
        c.timers.active = [] ∧
        ∀ id : Nat, (App.tick net id c).world.requests = c.world.requests) ∧
      (c.state.currentUser ≠ none →
        ∃ id : Nat, c.timers.active = [{ id := id, period := 30000 }])) ∧
    ((ServicesApi.loadEffect net t w timers).2.1 = timers ∧
      (ServicesApi.loadEffect net t w timers).1
        = (if t.currentUser.isSome then ServicesApi.loadPolls net t w else (t, w))) := by
  refine ⟨⟨?_, ?_, ?_⟩, ⟨?_, ?_⟩, ⟨?_, ?_⟩⟩
  · cases hu : s.currentUser <;> simp [App.refreshEffect, hu, Timers.setInterval]
  · cases hu : s.currentUser <;> simp [App.refreshEffect, hu]
  · intro hids
    cases hu : s.currentUser with
    | none => simp [App.refreshEffect, hu, App.refreshCleanup]
    | some u =>
      simp only [App.refreshEffect, hu, App.refreshCleanup, Timers.setInterval,
        Timers.clearInterval, List.filter_append]
      have hkeep : timers.active.filter (fun i => i.id != timers.nextId) = timers.active := by
        apply List.filter_eq_self.2
        intro i hi
        have := hids i hi
        simpa using Nat.ne_of_lt this
      simp [hkeep]
  · intro hnone
    have hinv := App.lifecycle_timersInv J net c hc
    have ha := (hinv.2.1 hnone).1
    refine ⟨ha, ?_⟩
    intro id
    simp [App.tick, ha]
  · intro hsome
    have hinv := App.lifecycle_timersInv J net c hc
    obtain ⟨id, ha, _⟩ := hinv.2.2 hsome
    exact ⟨id, ha⟩
  · cases hu : t.currentUser <;> simp [ServicesApi.loadEffect, hu]
  · cases hu : t.currentUser <;> simp [ServicesApi.loadEffect, hu]

/-- C21 amended, at concrete inputs: the effect run for the sample user with no
interval set yet sets the one interval of 30000 ms, and the freshly mounted
component, which has no current user, has no active interval. -/
theorem C21_refresh_effect_witness :
    (App.refreshEffect (constNet (okResponse (.polls [samplePoll])))
      { App.State.init with currentUser := some sampleUser, view := "polls" } sampleWorld
      { active := [], nextId := 0 }).2.1.active = [{ id := 0, period := 30000 }] ∧
    ({ state := App.State.init, world := sampleWorld, timers := { active := [], nextId := 0 },
       cleanup := none } : App.Config).timers.active = [] :=
  have h := C21_refresh_effect sampleJSON (constNet (okResponse (.polls [samplePoll])))
    { App.State.init with currentUser := some sampleUser, view := "polls" }
    ServicesApi.State.init sampleWorld { active := [], nextId := 0 }
    { state := App.State.init, world := sampleWorld, timers := { active := [], nextId := 0 },
      cleanup := none }
    (App.Lifecycle.mount sampleWorld)
  ⟨h.1.1, (h.2.1.1 rfl).1⟩

end PollApp
